import Mathlib

/-! ArgumentParser: a shallow embedding.

Model of `src/ArgumentParser.cpp` / `src/ArgumentParser.h`.

* A `std::string` is a finite sequence of characters: `Str := List Char`.
* `std::unordered_map<std::string, std::string>` is an association list with
  unique keys, accessed only through `find`, `set` (the assignment
  `m[k] = v`) and `clear`.
* A member function is a function from the instance state to the new
  instance state and a `Result`: the value the call returns, or the message
  of the `std::invalid_argument` it throws.
* `parse(argc, argv, format)` takes the whole `argv` (program name included);
  `argc` is its length.
-/

namespace ArgParse

/-- A `std::string`. -/
abbrev Str := List Char

/-- The `unordered_map<string, string>` held in `_argument`. -/
abbrev ArgMap := List (Str × Str)

/-- The `enum ArgumentFormat` of the header. -/
inductive ArgumentFormat where
  | VERB_PARAM_SWITCH
  | PARAM_SWITCH
  deriving DecidableEq, Repr

/-- How a call ends: it returns a value, or it throws `std::invalid_argument`
carrying a message. -/
inductive Result (α : Type) where
  | returned (value : α)
  | threw (msg : Str)
  deriving DecidableEq, Repr

/-- The data members of `class ArgumentParser`. -/
structure ArgumentParser where
  _verb : Str
  _error_message : Str
  _conversion_error : Bool
  _throw_on_parse_error : Bool
  _throw_on_conversion_error : Bool
  _argument : ArgMap
  deriving DecidableEq, Repr

/-! ## Strings and the map -/

/-- The three-way comparison `std::string::compare`: negative, zero or positive
(lexicographic on character codes, a proper prefix compares smaller). -/
def compare : Str → Str → Int
  | [], [] => 0
  | [], _ :: _ => -1
  | _ :: _, [] => 1
  | a :: as, b :: bs =>
    if a.toNat < b.toNat then -1
    else if b.toNat < a.toNat then 1
    else compare as bs

/-- The lookup `unordered_map::find`: `none` stands for `end()`. -/
def find : ArgMap → Str → Option Str
  | [], _ => none
  | (k, v) :: m, name => if k = name then some v else find m name

/-- The assignment `m[name] = value`: overwrite the entry of `name`, or add one. -/
def set : ArgMap → Str → Str → ArgMap
  | [], name, value => [(name, value)]
  | (k, v) :: m, name, value =>
    if k = name then (k, value) :: m else (k, v) :: set m name value

/-! ## Construction and the error observers -/

/-- The constructor `ArgumentParser(throw_on_parse_error, throw_on_conversion_error)`. -/
def new (throw_on_parse_error throw_on_conversion_error : Bool) : ArgumentParser :=
  { _verb := [],
    _error_message := [],
    _conversion_error := false,
    _throw_on_parse_error := throw_on_parse_error,
    _throw_on_conversion_error := throw_on_conversion_error,
    _argument := [] }

/-- The observer `error()`. -/
def error (s : ArgumentParser) : Bool := s._conversion_error

/-- The observer `get_error_message()`. -/
def get_error_message (s : ArgumentParser) : Str := s._error_message

/-! ## Token classification -/

/-- The helper `is_switch`: `token.length() > 1 && token[0] == '-'`. -/
def is_switch (token : Str) : Bool :=
  decide (token.length > 1) && (token.head? == some '-')

/-- The helper `get_stripped_switch_name`. -/
def get_stripped_switch_name (token : Str) : Str :=
  if token.length > 1 ∧ compare (token.take 2) ['-', '-'] = 0 then
    token.drop 2
  else if token.length > 0 ∧ token.head? = some '-' then
    token.drop 1
  else
    token

/-! ## Error handling -/

/-- The helper `handle_parse_error`: clear verb and map, then throw if the
parse policy says so. -/
def handle_parse_error (s : ArgumentParser) (msg : Str) : ArgumentParser × Result Unit :=
  let s1 := { s with _verb := [], _argument := [] }
  if s1._throw_on_parse_error then (s1, Result.threw msg) else (s1, Result.returned ())

/-- The helper `handle_conversion_error`: record message and flag, then throw
if the conversion policy says so. -/
def handle_conversion_error (s : ArgumentParser) (msg : Str) : ArgumentParser × Result Unit :=
  let s1 := { s with _error_message := msg, _conversion_error := true }
  if s1._throw_on_conversion_error then (s1, Result.threw msg) else (s1, Result.returned ())

/-- The statement pair `handle_parse_error(msg); return false;` of `parse`. -/
def parse_fail (s : ArgumentParser) (msg : Str) : ArgumentParser × Result Bool :=
  match handle_parse_error s msg with
  | (s1, Result.threw m) => (s1, Result.threw m)
  | (s1, Result.returned _) => (s1, Result.returned false)

/-! ## Messages -/

/-- Message of the verb check. -/
def msg_not_a_verb (raw : Str) : Str :=
  "Argument '".toList ++ raw ++
    "' is not valid; was expecting a verb, but it looks like a switch.".toList

/-- Message of the empty-name check. -/
def msg_not_a_valid_switch (raw : Str) : Str :=
  "Argument '".toList ++ raw ++ "' is not a valid switch.".toList

/-- Message of the repeated-switch check. -/
def msg_present_multiple_times (raw : Str) : Str :=
  "Argument '".toList ++ raw ++ "' is present multiple times.".toList

/-- Message of the value-where-a-switch-was-expected check. -/
def msg_looks_like_a_value (raw : Str) : Str :=
  "Argument '".toList ++ raw ++
    "' is not valid; was expecting a switch, but it looks like a value.".toList

/-- Message of `get_verb`. -/
def msg_verb_missing : Str :=
  "Verb/Action is missing, and a default value has not been specified.".toList

/-- Message of `get_as_string(name)`. -/
def msg_required_not_present (name : Str) : Str :=
  "Argument '".toList ++ name ++ "' is required but is not present.".toList

/-! ## parse -/

/-- The loop `while(current < argc)` of `parse`, on the tokens
`argv[current] .. argv[argc-1]` still to be read. -/
def parse_loop (s : ArgumentParser) : List Str → ArgumentParser × Result Bool
  | [] => (s, Result.returned true)
  | tok :: rest =>
    if is_switch tok then
      let name := get_stripped_switch_name tok
      -- Switch must have at least one char
      if name.isEmpty then
        parse_fail s (msg_not_a_valid_switch tok)
      else
        match rest with
        | [] =>
          -- No repeated switches allowed
          if (find s._argument name).isSome then
            parse_fail s (msg_present_multiple_times tok)
          else
            parse_loop { s with _argument := set s._argument name [] } []
        | v :: rest1 =>
          if !is_switch v then
            if (find s._argument name).isSome then
              parse_fail s (msg_present_multiple_times tok)
            else
              parse_loop { s with _argument := set s._argument name v } rest1
          else
            if (find s._argument name).isSome then
              parse_fail s (msg_present_multiple_times tok)
            else
              parse_loop { s with _argument := set s._argument name [] } (v :: rest1)
    else
      -- No consecutive values allowed
      parse_fail s (msg_looks_like_a_value tok)

/-- The member function `parse(argc, argv, format)`, with `argc = argv.length`. -/
def parse (s : ArgumentParser) (argv : List Str) (format : ArgumentFormat) :
    ArgumentParser × Result Bool :=
  let s0 := { s with _verb := [], _argument := [], _error_message := [],
                     _conversion_error := false }
  -- current = 1: skip argv[0]
  match format with
  | ArgumentFormat.VERB_PARAM_SWITCH =>
    match argv with
    | _ :: first :: rest =>
      if !is_switch first then
        parse_loop { s0 with _verb := first } rest
      else if s0._throw_on_parse_error then
        (s0, Result.threw (msg_not_a_verb first))
      else
        (s0, Result.returned false)
    | _ => parse_loop s0 (argv.drop 1)
  | ArgumentFormat.PARAM_SWITCH => parse_loop s0 (argv.drop 1)

/-! ## Accessors -/

/-- The member function `is_present` (a `const` member: the state it hands
back is the state it was given). -/
def is_present (s : ArgumentParser) (name : Str) : ArgumentParser × Bool :=
  let it := find s._argument name
  (s, it.isSome || decide (compare name s._verb = 0))

/-- The member function `get_verb(default_value)`. -/
def get_verb (s : ArgumentParser) (default_value : Str) : ArgumentParser × Result Str :=
  let s0 := { s with _error_message := [], _conversion_error := false }
  if s0._verb.isEmpty then
    if default_value.isEmpty then
      match handle_conversion_error s0 msg_verb_missing with
      | (s1, Result.threw m) => (s1, Result.threw m)
      | (s1, Result.returned _) => (s1, Result.returned default_value)
    else
      (s0, Result.returned default_value)
  else
    (s0, Result.returned s0._verb)

/-- The member function `get_as_string(name)`. -/
def get_as_string (s : ArgumentParser) (name : Str) : ArgumentParser × Result Str :=
  let s0 := { s with _error_message := [], _conversion_error := false }
  match find s0._argument name with
  | none =>
    match handle_conversion_error s0 (msg_required_not_present name) with
    | (s1, Result.threw m) => (s1, Result.threw m)
    | (s1, Result.returned _) => (s1, Result.returned [])
  | some value => (s0, Result.returned value)

/-- The member function `get_as_string(name, default_value)`. -/
def get_as_string_default (s : ArgumentParser) (name default_value : Str) :
    ArgumentParser × Result Str :=
  let s0 := { s with _error_message := [], _conversion_error := false }
  match find s0._argument name with
  | none => (s0, Result.returned default_value)
  | some value => (s0, Result.returned value)

/-! ## Boolean accessors -/

/-- The library function `std::tolower` in the "C" locale: `A`..`Z` go to `a`..`z`,
every other character is left alone. -/
def tolower (c : Char) : Char :=
  if 65 ≤ c.toNat ∧ c.toNat ≤ 90 then Char.ofNat (c.toNat + 32) else c

/-- The `for` loop of `case_independent_compare`: `ch` runs over `s1` and the
iterator `it` over `s2` (the lengths are equal when the loop is entered). -/
def case_independent_compare_loop : Str → Str → Bool
  | [], _ => true
  | _ :: _, [] => false
  | ch :: s1, c2 :: s2 =>
    if c2 ≠ tolower ch then false else case_independent_compare_loop s1 s2

/-- The helper `case_independent_compare`. -/
def case_independent_compare (s1 s2 : Str) : Bool :=
  if s1.length ≠ s2.length then false else case_independent_compare_loop s1 s2

/-- Message of `parse_bool_value`. -/
def msg_not_a_boolean (name value : Str) : Str :=
  "Argument '".toList ++ name ++ "' is boolean, and value '".toList ++ value ++
    "' is not recognized as a valid boolean value. Try one of: 'true', 'false', 'yes', 'no', '0', '1', 'on', 'off', 't', 'f', 'y', 'n' instead.".toList

/-- Message of `get_as_bool(name)` for an empty value. -/
def msg_required_not_given (name : Str) : Str :=
  "Argument '".toList ++ name ++ "' is required, but not given.".toList

/-- The flag `is_true` of `parse_bool_value`. -/
def bool_is_true (value : Str) : Bool :=
  decide (compare value "1".toList = 0) ||
  case_independent_compare value "t".toList ||
  case_independent_compare value "y".toList ||
  case_independent_compare value "true".toList ||
  case_independent_compare value "yes".toList ||
  case_independent_compare value "on".toList

/-- The flag `is_false` of `parse_bool_value`. -/
def bool_is_false (value : Str) : Bool :=
  decide (compare value "0".toList = 0) ||
  case_independent_compare value "f".toList ||
  case_independent_compare value "n".toList ||
  case_independent_compare value "false".toList ||
  case_independent_compare value "no".toList ||
  case_independent_compare value "off".toList

/-- The helper `parse_bool_value`. -/
def parse_bool_value (s : ArgumentParser) (name value : Str) : ArgumentParser × Result Bool :=
  let is_true := bool_is_true value
  let is_false := bool_is_false value
  if !is_true && !is_false then
    match handle_conversion_error s (msg_not_a_boolean name value) with
    | (s1, Result.threw m) => (s1, Result.threw m)
    | (s1, Result.returned _) => (s1, Result.returned is_true)
  else
    (s, Result.returned is_true)

/-- The member function `get_as_bool(name)`. -/
def get_as_bool (s : ArgumentParser) (name : Str) : ArgumentParser × Result Bool :=
  match get_as_string s name with
  | (s1, Result.threw m) => (s1, Result.threw m)
  | (s1, Result.returned value) =>
    if value.isEmpty then
      match handle_conversion_error s1 (msg_required_not_given name) with
      | (s2, Result.threw m) => (s2, Result.threw m)
      | (s2, Result.returned _) => parse_bool_value s2 name value
    else
      parse_bool_value s1 name value

/-- The member function `get_as_bool(name, default_value)`. -/
def get_as_bool_default (s : ArgumentParser) (name : Str) (default_value : Bool) :
    ArgumentParser × Result Bool :=
  match get_as_string_default s name
      (if default_value = true then "true".toList else "false".toList) with
  | (s1, Result.threw m) => (s1, Result.threw m)
  | (s1, Result.returned value) =>
    if value.isEmpty then (s1, Result.returned default_value)
    else parse_bool_value s1 name value

/-! ## The C library: `errno`, `strtol`, `strtoul`

The integer accessors read the global `errno` and call `strtol` / `strtoul`.
Neither is code of the repository; they are modelled after ISO C 7.22.1.4 on an
LP64 platform (`long` 64 bits, `int` 32 bits). The global `errno` is passed in and
handed back next to the instance state. A stored value is a C string: it holds no
NUL character, so `*end == 0` says that the conversion stopped at its end. -/

/-- The limit `LONG_MAX`. -/
def LONG_MAX : Int := 9223372036854775807

/-- The limit `LONG_MIN`. -/
def LONG_MIN : Int := -9223372036854775808

/-- The limit `ULONG_MAX`. -/
def ULONG_MAX : Int := 18446744073709551615

/-- The limit `INT_MAX`, `std::numeric_limits<int>::max()`. -/
def INT_MAX : Int := 2147483647

/-- The limit `INT_MIN`, `std::numeric_limits<int>::min()`. -/
def INT_MIN : Int := -2147483648

/-- The limit `UINT_MAX`, `std::numeric_limits<unsigned int>::max()`. -/
def UINT_MAX : Int := 4294967295

/-- The error number `ERANGE`. -/
def ERANGE : Nat := 34

/-- The error number `EINVAL`. -/
def EINVAL : Nat := 22

/-- The library predicate `isspace` in the "C" locale. -/
def isspace (c : Char) : Bool :=
  c.toNat = 32 || (9 ≤ c.toNat && c.toNat ≤ 13)

/-- The value of a character as a digit: `0`..`9`, then the letters of either case
for ten to thirty-five. -/
def digit_value (c : Char) : Option Nat :=
  if 48 ≤ c.toNat ∧ c.toNat ≤ 57 then some (c.toNat - 48)
  else if 97 ≤ c.toNat ∧ c.toNat ≤ 122 then some (c.toNat - 87)
  else if 65 ≤ c.toNat ∧ c.toNat ≤ 90 then some (c.toNat - 55)
  else none

/-- The character is a digit of the base. -/
def is_digit_in (base : Nat) (c : Char) : Bool :=
  match digit_value c with
  | some v => decide (v < base)
  | none => false

/-- The number written by a run of digits, most significant first. -/
def digits_value (base : Nat) : List Char → Nat → Nat
  | [], acc => acc
  | c :: cs, acc => digits_value base cs (acc * base + (digit_value c).getD 0)

/-- The subject sequence that `strtol` and `strtoul` find at the start of a string:
its sign, the number its digits write, and how many characters it takes, white
space, sign and prefix included (`consumed = 0`: no conversion can be done). -/
structure Subject where
  negative : Bool
  magnitude : Nat
  consumed : Nat
  deriving DecidableEq, Repr

/-- The base is one that `strtol` accepts: zero, or two to thirty-six. -/
def valid_base (base : Int) : Bool :=
  decide (base = 0) || (decide (2 ≤ base) && decide (base ≤ 36))

/-- The string starts with `0x` or `0X` followed by a hexadecimal digit. -/
def has_hex_prefix : Str → Bool
  | z :: x :: h :: _ => decide (z = '0') && (decide (x = 'x') || decide (x = 'X')) && is_digit_in 16 h
  | _ => false

/-- The scan of `strtol`: white space, an optional sign, an optional `0x` prefix
(base 16 or 0), then the longest run of digits of the base; base 0 reads the base
off the prefix (`0x` sixteen, `0` eight, otherwise ten). -/
def scan_subject (str : Str) (base : Nat) : Subject :=
  let ws := str.takeWhile isspace
  let r0 := str.dropWhile isspace
  let negative := decide (r0.head? = some '-')
  let signed := decide (r0.head? = some '-') || decide (r0.head? = some '+')
  let r1 := if signed then r0.drop 1 else r0
  let hex := (decide (base = 0) || decide (base = 16)) && has_hex_prefix r1
  let b := if hex then 16 else if base = 0 then (if r1.head? = some '0' then 8 else 10) else base
  let r2 := if hex then r1.drop 2 else r1
  let ds := r2.takeWhile (is_digit_in b)
  if ds.isEmpty then
    { negative := false, magnitude := 0, consumed := 0 }
  else
    { negative := negative, magnitude := digits_value b ds 0,
      consumed := ws.length + (if signed then 1 else 0) + (if hex then 2 else 0) + ds.length }

/-- What a call of `strtol` / `strtoul` hands back: the value, the offset of `end`
from `start`, and `errno` after the call. -/
structure Strto where
  value : Int
  end_offset : Nat
  errno : Nat
  deriving DecidableEq, Repr

/-- The library function `strtol(start, &end, base)` run with the given `errno`. -/
def strtol (str : Str) (base : Int) (errno : Nat) : Strto :=
  if !valid_base base then
    { value := 0, end_offset := 0, errno := EINVAL }
  else
    let sub := scan_subject str base.toNat
    if sub.consumed = 0 then
      { value := 0, end_offset := 0, errno := errno }
    else
      let v : Int := if sub.negative then - (sub.magnitude : Int) else (sub.magnitude : Int)
      if v > LONG_MAX then
        { value := LONG_MAX, end_offset := sub.consumed, errno := ERANGE }
      else if v < LONG_MIN then
        { value := LONG_MIN, end_offset := sub.consumed, errno := ERANGE }
      else
        { value := v, end_offset := sub.consumed, errno := errno }

/-- The library function `strtoul(start, &end, base)` run with the given `errno`:
a minus sign negates the value in the unsigned type. -/
def strtoul (str : Str) (base : Int) (errno : Nat) : Strto :=
  if !valid_base base then
    { value := 0, end_offset := 0, errno := EINVAL }
  else
    let sub := scan_subject str base.toNat
    if sub.consumed = 0 then
      { value := 0, end_offset := 0, errno := errno }
    else if (sub.magnitude : Int) > ULONG_MAX then
      { value := ULONG_MAX, end_offset := sub.consumed, errno := ERANGE }
    else if sub.negative then
      { value := (ULONG_MAX + 1 - (sub.magnitude : Int)) % (ULONG_MAX + 1),
        end_offset := sub.consumed, errno := errno }
    else
      { value := (sub.magnitude : Int), end_offset := sub.consumed, errno := errno }

/-- The decimal text that `operator<<` writes for an integer. -/
def decimal (n : Int) : Str :=
  if n < 0 then '-' :: Nat.toDigits 10 n.natAbs else Nat.toDigits 10 n.toNat

/-- The conversion `static_cast<int>(value)`: the value modulo two to the
thirty-two, read as a signed number. -/
def static_cast_int (value : Int) : Int :=
  (value + 2147483648) % 4294967296 - 2147483648

/-- The conversion of an `int` to `unsigned int` (the return of
`get_as_unsigned_int`). -/
def to_unsigned_int (value : Int) : Int :=
  value % 4294967296

/-! ## Integer accessors -/

/-- Message of `get_as_long` and `get_as_unsigned_long`. -/
def msg_value_not_valid (name value : Str) : Str :=
  "Argument '".toList ++ name ++ "' value ('".toList ++ value ++ "') is not valid.".toList

/-- Message of `get_as_int`. -/
def msg_out_of_range (name : Str) (value : Int) : Str :=
  "Argument '".toList ++ name ++ "' value ('".toList ++ decimal value ++
    "') is out of range.".toList

/-- Message of `get_as_unsigned_int`. -/
def msg_too_out_of_range (name : Str) (value : Int) : Str :=
  "Argument '".toList ++ name ++ "' value ('".toList ++ decimal value ++
    "') is too out of range.".toList

/-- The member function `get_as_long(name, default_value, base)`, with the global
`errno` passed in and handed back. -/
def get_as_long (s : ArgumentParser) (errno : Nat) (name : Str) (default_value base : Int) :
    (ArgumentParser × Nat) × Result Int :=
  match get_as_string s name with
  | (s1, Result.threw m) => ((s1, errno), Result.threw m)
  | (s1, Result.returned value) =>
    if value.isEmpty then
      ((s1, errno), Result.returned default_value)
    else
      let r := strtol value base errno
      if r.errno = 0 ∧ r.end_offset ≠ 0 ∧ r.end_offset = value.length then
        ((s1, r.errno), Result.returned r.value)
      else
        match handle_conversion_error s1 (msg_value_not_valid name value) with
        | (s2, Result.threw m) => ((s2, r.errno), Result.threw m)
        | (s2, Result.returned _) => ((s2, r.errno), Result.returned default_value)

/-- The member function `get_as_unsigned_long(name, default_value, base)`. -/
def get_as_unsigned_long (s : ArgumentParser) (errno : Nat) (name : Str)
    (default_value base : Int) : (ArgumentParser × Nat) × Result Int :=
  match get_as_string s name with
  | (s1, Result.threw m) => ((s1, errno), Result.threw m)
  | (s1, Result.returned value) =>
    if value.isEmpty then
      ((s1, errno), Result.returned default_value)
    else
      let r := strtoul value base errno
      if r.errno = 0 ∧ r.end_offset ≠ 0 ∧ r.end_offset = value.length then
        ((s1, r.errno), Result.returned r.value)
      else
        match handle_conversion_error s1 (msg_value_not_valid name value) with
        | (s2, Result.threw m) => ((s2, r.errno), Result.threw m)
        | (s2, Result.returned _) => ((s2, r.errno), Result.returned default_value)

/-- The member function `get_as_int(name, default_value, base)`. -/
def get_as_int (s : ArgumentParser) (errno : Nat) (name : Str) (default_value base : Int) :
    (ArgumentParser × Nat) × Result Int :=
  match get_as_long s errno name default_value base with
  | (w, Result.threw m) => (w, Result.threw m)
  | ((s1, e1), Result.returned value) =>
    -- Check for over/under flow
    if value > INT_MAX ∨ value < INT_MIN then
      match handle_conversion_error s1 (msg_out_of_range name value) with
      | (s2, Result.threw m) => ((s2, e1), Result.threw m)
      | (s2, Result.returned _) => ((s2, e1), Result.returned default_value)
    else
      ((s1, e1), Result.returned (static_cast_int value))

/-- The member function `get_as_unsigned_int(name, default_value, base)`. -/
def get_as_unsigned_int (s : ArgumentParser) (errno : Nat) (name : Str)
    (default_value base : Int) : (ArgumentParser × Nat) × Result Int :=
  match get_as_unsigned_long s errno name default_value base with
  | (w, Result.threw m) => (w, Result.threw m)
  | ((s1, e1), Result.returned value) =>
    -- Check for over/under flow
    if value > UINT_MAX ∨ value < 0 then
      match handle_conversion_error s1 (msg_too_out_of_range name value) with
      | (s2, Result.threw m) => ((s2, e1), Result.threw m)
      | (s2, Result.returned _) => ((s2, e1), Result.returned default_value)
    else
      ((s1, e1), Result.returned (to_unsigned_int (static_cast_int value)))

/-! ## Accessor calls as data -/

/-- What an accessor call returns. -/
inductive Value where
  | str (s : Str)
  | bool (b : Bool)
  | int (n : Int)
  deriving DecidableEq, Repr

/-- One accessor call with its arguments. -/
inductive Call where
  | is_present (name : Str)
  | get_verb (default_value : Str)
  | get_as_string (name : Str)
  | get_as_string_default (name default_value : Str)
  | get_as_bool (name : Str)
  | get_as_bool_default (name : Str) (default_value : Bool)
  | get_as_long (name : Str) (default_value base : Int)
  | get_as_unsigned_long (name : Str) (default_value base : Int)
  | get_as_int (name : Str) (default_value base : Int)
  | get_as_unsigned_int (name : Str) (default_value base : Int)
  deriving DecidableEq, Repr

/-- The default value of the call fits the C++ type of its parameter. -/
def Call.well_typed : Call → Prop
  | Call.get_as_long _ d _ => LONG_MIN ≤ d ∧ d ≤ LONG_MAX
  | Call.get_as_unsigned_long _ d _ => 0 ≤ d ∧ d ≤ ULONG_MAX
  | Call.get_as_int _ d _ => INT_MIN ≤ d ∧ d ≤ INT_MAX
  | Call.get_as_unsigned_int _ d _ => 0 ≤ d ∧ d ≤ UINT_MAX
  | _ => True

/-- Repackage the returned value of a call. -/
def Result.map {α β : Type} (f : α → β) : Result α → Result β
  | Result.returned v => Result.returned (f v)
  | Result.threw m => Result.threw m

/-- Make one accessor call on an instance, with the global `errno` alongside. -/
def run (w : ArgumentParser × Nat) : Call → (ArgumentParser × Nat) × Result Value
  | Call.is_present name =>
    (((is_present w.1 name).1, w.2), Result.returned (Value.bool (is_present w.1 name).2))
  | Call.get_verb d => (((get_verb w.1 d).1, w.2), (get_verb w.1 d).2.map Value.str)
  | Call.get_as_string name =>
    (((get_as_string w.1 name).1, w.2), (get_as_string w.1 name).2.map Value.str)
  | Call.get_as_string_default name d =>
    (((get_as_string_default w.1 name d).1, w.2),
      (get_as_string_default w.1 name d).2.map Value.str)
  | Call.get_as_bool name =>
    (((get_as_bool w.1 name).1, w.2), (get_as_bool w.1 name).2.map Value.bool)
  | Call.get_as_bool_default name d =>
    (((get_as_bool_default w.1 name d).1, w.2),
      (get_as_bool_default w.1 name d).2.map Value.bool)
  | Call.get_as_long name d base =>
    ((get_as_long w.1 w.2 name d base).1, (get_as_long w.1 w.2 name d base).2.map Value.int)
  | Call.get_as_unsigned_long name d base =>
    ((get_as_unsigned_long w.1 w.2 name d base).1,
      (get_as_unsigned_long w.1 w.2 name d base).2.map Value.int)
  | Call.get_as_int name d base =>
    ((get_as_int w.1 w.2 name d base).1, (get_as_int w.1 w.2 name d base).2.map Value.int)
  | Call.get_as_unsigned_int name d base =>
    ((get_as_unsigned_int w.1 w.2 name d base).1,
      (get_as_unsigned_int w.1 w.2 name d base).2.map Value.int)

/-- Make a sequence of accessor calls, the caller going on after a call that
throws: the instance and `errno` after the last one. -/
def run_all (w : ArgumentParser × Nat) : List Call → ArgumentParser × Nat
  | [] => w
  | c :: cs => run_all (run w c).1 cs

/-! ## Vocabulary of the specification -/

/-- The token `--`. -/
def dashdash : Str := ['-', '-']

/-- The value a switch gets from the tokens that follow it: the next token when
there is one and it is not switch-shaped, the empty string otherwise. -/
def next_value : List Str → Str
  | [] => []
  | v :: _ => if is_switch v then [] else v

/-- The tokens left to read after a switch and the value it may have taken. -/
def next_rest : List Str → List Str
  | [] => []
  | v :: rest => if is_switch v then v :: rest else rest

/-- The stripped names of the switch-shaped tokens, in input order. -/
def switch_names (tokens : List Str) : List Str :=
  (tokens.filter is_switch).map get_stripped_switch_name

/-- One group: a switch-shaped token other than `--`, optionally followed by one
token that is not switch-shaped. -/
def IsGroup (g : List Str) : Prop :=
  ∃ sw, is_switch sw = true ∧ sw ≠ dashdash ∧
    (g = [sw] ∨ ∃ v, is_switch v = false ∧ g = [sw, v])

/-- The token list is a concatenation of groups. -/
def Grouped (tokens : List Str) : Prop :=
  ∃ gs : List (List Str), (∀ g ∈ gs, IsGroup g) ∧ tokens = gs.flatten

/-- The first token exists and is not switch-shaped. -/
def FirstNotSwitch (tokens : List Str) : Prop :=
  ∃ t rest, tokens = t :: rest ∧ is_switch t = false

/-- Two tokens that are not switch-shaped stand next to each other. -/
def AdjacentValues (tokens : List Str) : Prop :=
  ∃ pre a b post, tokens = pre ++ a :: b :: post ∧ is_switch a = false ∧ is_switch b = false

/-- One of the three shape defects: a leading value, two adjacent values, or a
token that is exactly `--`. -/
def Malformed (tokens : List Str) : Prop :=
  FirstNotSwitch tokens ∨ AdjacentValues tokens ∨ dashdash ∈ tokens

/-- The twenty-six ASCII letters, each upper-case letter with its lower-case one. -/
def ascii_letter_pairs : List (Char × Char) :=
  List.zip "ABCDEFGHIJKLMNOPQRSTUVWXYZ".toList "abcdefghijklmnopqrstuvwxyz".toList

/-- The two characters are the same, or they are the same ASCII letter, one in
upper case and one in lower case. -/
def same_ignoring_case (a b : Char) : Bool :=
  a == b || ascii_letter_pairs.contains (a, b) || ascii_letter_pairs.contains (b, a)

/-- The two strings are equal when the ASCII letter case is ignored: they have the
same length and agree, place by place, up to the case of an ASCII letter. -/
def eq_ignoring_case : Str → Str → Bool
  | [], [] => true
  | a :: s1, b :: s2 => same_ignoring_case a b && eq_ignoring_case s1 s2
  | _, _ => false

/-- The words that stand for true, and the ones that stand for false. -/
def true_words : List Str := ["t".toList, "y".toList, "true".toList, "yes".toList, "on".toList]

/-- The words that stand for false. -/
def false_words : List Str :=
  ["f".toList, "n".toList, "false".toList, "no".toList, "off".toList]

/-- The value is `1`, or one of the true words in any letter case. -/
def TrueText (v : Str) : Prop :=
  v = "1".toList ∨ ∃ w ∈ true_words, eq_ignoring_case v w = true

/-- The value is `0`, or one of the false words in any letter case. -/
def FalseText (v : Str) : Prop :=
  v = "0".toList ∨ ∃ w ∈ false_words, eq_ignoring_case v w = true

/-- The integer that a subject sequence writes. -/
def signed_value (sub : Subject) : Int :=
  if sub.negative then - (sub.magnitude : Int) else (sub.magnitude : Int)

/-- The base is valid and the integer conversion in that base takes the whole of
the string (at least one digit, nothing after the number) and yields `n`. -/
def WholeNumeral (str : Str) (base n : Int) : Prop :=
  valid_base base = true ∧
  (scan_subject str base.toNat).consumed ≠ 0 ∧
  (scan_subject str base.toNat).consumed = str.length ∧
  signed_value (scan_subject str base.toNat) = n

/-- A switch with what belongs to it: a switch-shaped token alone, or followed by
one token that is not switch-shaped. -/
def SwitchGroup (g : List Str) : Prop :=
  ∃ sw, is_switch sw = true ∧ (g = [sw] ∨ ∃ v, is_switch v = false ∧ g = [sw, v])

/-- The two states hold the same verb, the same map and the same policy flags. -/
def SameCore (a b : ArgumentParser) : Prop :=
  a._verb = b._verb ∧ a._argument = b._argument ∧
  a._throw_on_parse_error = b._throw_on_parse_error ∧
  a._throw_on_conversion_error = b._throw_on_conversion_error

/-- The switch token of a group: its first token. -/
def group_switch (g : List Str) : Str := g.headD []

/-- The value of a group: its second token, or the empty string. -/
def group_value (g : List Str) : Str := g.tail.headD []

/-- The instance with the conversion policy set to `t`, everything else kept. -/
def with_policy (s : ArgumentParser) (t : Bool) : ArgumentParser :=
  { s with _throw_on_conversion_error := t }

/-- The common shape of the end of an accessor call: with no failure the error
fields are clear and `v` is returned; with a failure message the error fields hold
it, and the call throws it or returns `v` as the conversion policy says. -/
def outcome {α : Type} (s : ArgumentParser) (errno : Nat) (fail : Option Str) (v : α) :
    (ArgumentParser × Nat) × Result α :=
  match fail with
  | none => (({ s with _error_message := [], _conversion_error := false }, errno),
      Result.returned v)
  | some m => (({ s with _error_message := m, _conversion_error := true }, errno),
      if s._throw_on_conversion_error then Result.threw m else Result.returned v)

/-- Message of `get_as_float` and `get_as_double`. -/
def msg_value_invalid (name value : Str) : Str :=
  "Argument '".toList ++ name ++ "' value ('".toList ++ value ++ "') is invalid.".toList

/-- The member functions `get_as_float(name, default_value)` and
`get_as_double(name, default_value)`, as far as the instance and `errno` go: the
floating-point number they return is not modelled. `range_error` says whether
`strtof` / `strtod` meets a range error on the stored value and so sets `errno` to
`ERANGE`; otherwise `errno` stays what it was. -/
def get_as_floating (s : ArgumentParser) (errno : Nat) (name : Str) (range_error : Bool) :
    (ArgumentParser × Nat) × Result Unit :=
  match get_as_string s name with
  | (s1, Result.threw m) => ((s1, errno), Result.threw m)
  | (s1, Result.returned value) =>
    if value.isEmpty then
      ((s1, errno), Result.returned ())
    else
      let e1 := if range_error then ERANGE else errno
      if e1 = ERANGE then
        match handle_conversion_error s1 (msg_value_invalid name value) with
        | (s2, Result.threw m) => ((s2, e1), Result.threw m)
        | (s2, Result.returned _) => ((s2, e1), Result.returned ())
      else
        ((s1, e1), Result.returned ())

/-- One call made on an instance: a `parse`, an accessor call, or a call of
`get_as_float` / `get_as_double`. -/
inductive Op where
  | parse (argv : List Str) (format : ArgumentFormat)
  | access (c : Call)
  | access_floating (name : Str) (range_error : Bool)
  deriving DecidableEq, Repr

/-- Make one call, the caller going on after a call that throws: the instance and
`errno` after it. -/
def step (w : ArgumentParser × Nat) : Op → ArgumentParser × Nat
  | Op.parse argv format => ((parse w.1 argv format).1, w.2)
  | Op.access c => (run w c).1
  | Op.access_floating name range_error => (get_as_floating w.1 w.2 name range_error).1

/-- Make a sequence of calls, one after the other. -/
def exec (w : ArgumentParser × Nat) : List Op → ArgumentParser × Nat
  | [] => w
  | op :: ops => exec (step w op) ops

/-- The observer `error()` is true exactly when `get_error_message()` is not the empty
string. -/
def ErrorFieldsAgree (s : ArgumentParser) : Prop :=
  error s = true ↔ get_error_message s ≠ []

/-- No key of the map is the empty string and no value is switch-shaped. -/
def MapWellFormed (m : ArgMap) : Prop :=
  ∀ n x, find m n = some x → n ≠ [] ∧ is_switch x = false

/-- The keys of the map. -/
def keys (m : ArgMap) : List Str := m.map Prod.fst

/-- The call failed: it returned `false` or it threw. -/
def Failed (r : Result Bool) : Prop :=
  r = Result.returned false ∨ ∃ msg, r = Result.threw msg

/-! ## Basic facts -/

theorem compare_self (a : Str) : compare a a = 0 := by
  induction a with
  | nil => rfl
  | cons c cs ih => simp [compare, ih]

theorem compare_eq_zero_iff (a b : Str) : compare a b = 0 ↔ a = b := by
  constructor
  · intro h
    induction a generalizing b with
    | nil =>
      cases b with
      | nil => rfl
      | cons d ds => simp [compare] at h
    | cons c cs ih =>
      cases b with
      | nil => simp [compare] at h
      | cons d ds =>
        simp only [compare] at h
        by_cases h1 : c.toNat < d.toNat
        · simp [h1] at h
        · by_cases h2 : d.toNat < c.toNat
          · simp [h1, h2] at h
          · simp only [h1, h2, if_false] at h
            have hn : c.toNat = d.toNat := by omega
            have hcd : c = d := Char.ext (UInt32.ext hn)
            rw [hcd, ih ds h]
  · rintro rfl
    exact compare_self a

theorem find_set (m : ArgMap) (k v n : Str) :
    find (set m k v) n = if k = n then some v else find m n := by
  induction m with
  | nil => simp [set, find]
  | cons p m ih =>
    obtain ⟨k1, v1⟩ := p
    by_cases h : k1 = k
    · subst h
      by_cases h2 : k1 = n <;> simp [set, find, h2]
    · by_cases h2 : k1 = n
      · subst h2
        have : ¬ k = k1 := fun e => h e.symm
        simp [set, find, h, this]
      · simp [set, find, h, h2, ih]

theorem find_set_self (m : ArgMap) (k v : Str) : find (set m k v) k = some v := by
  simp [find_set]

theorem is_switch_iff (t : Str) : is_switch t = true ↔ ∃ c rest, t = '-' :: c :: rest := by
  constructor
  · intro h
    match t, h with
    | [], h => simp [is_switch] at h
    | [_], h => simp [is_switch] at h
    | a :: c :: rest, h =>
      simp [is_switch] at h
      exact ⟨c, rest, by rw [h]⟩
  · rintro ⟨c, rest, rfl⟩
    simp [is_switch]

theorem is_switch_dashdash : is_switch dashdash = true := by
  simp [is_switch, dashdash]

theorem stripped_isEmpty_iff (t : Str) (h : is_switch t = true) :
    (get_stripped_switch_name t).isEmpty = true ↔ t = dashdash := by
  obtain ⟨c, rest, rfl⟩ := (is_switch_iff t).1 h
  by_cases hc : c = '-'
  · subst hc
    have h0 : compare ['-', '-'] ['-', '-'] = 0 := compare_self _
    simp [get_stripped_switch_name, h0, dashdash, List.isEmpty_iff]
  · have h0 : ¬ compare ['-', c] ['-', '-'] = 0 := by
      rw [compare_eq_zero_iff]
      simp [hc]
    simp [get_stripped_switch_name, h0, dashdash, hc]

/-! ## Facts about `parse_fail` and the loop -/

theorem parse_fail_fst (s : ArgumentParser) (msg : Str) :
    (parse_fail s msg).1 = { s with _verb := [], _argument := [] } := by
  unfold parse_fail handle_parse_error
  by_cases h : s._throw_on_parse_error = true <;> simp [h]

theorem parse_fail_snd (s : ArgumentParser) (msg : Str) :
    (parse_fail s msg).2 =
      if s._throw_on_parse_error then Result.threw msg else Result.returned false := by
  unfold parse_fail handle_parse_error
  by_cases h : s._throw_on_parse_error = true <;> simp [h]

theorem parse_fail_ne_true (s : ArgumentParser) (msg : Str) :
    (parse_fail s msg).2 ≠ Result.returned true := by
  rw [parse_fail_snd]
  by_cases h : s._throw_on_parse_error = true <;> simp [h]

theorem parse_fail_failed (s : ArgumentParser) (msg : Str) : Failed (parse_fail s msg).2 := by
  rw [parse_fail_snd]
  by_cases h : s._throw_on_parse_error = true
  · exact Or.inr ⟨msg, by simp [h]⟩
  · exact Or.inl (by simp [h])

/-- One turn of the loop, whatever follows the switch. -/
theorem parse_loop_cons (s : ArgumentParser) (tok : Str) (rest : List Str) :
    parse_loop s (tok :: rest) =
      if is_switch tok then
        if (get_stripped_switch_name tok).isEmpty then
          parse_fail s (msg_not_a_valid_switch tok)
        else if (find s._argument (get_stripped_switch_name tok)).isSome then
          parse_fail s (msg_present_multiple_times tok)
        else
          parse_loop
            { s with _argument := set s._argument (get_stripped_switch_name tok) (next_value rest) }
            (next_rest rest)
      else parse_fail s (msg_looks_like_a_value tok) := by
  cases rest with
  | nil =>
    simp only [parse_loop, next_value, next_rest]
  | cons v r =>
    rw [parse_loop]
    simp only [next_value, next_rest]
    cases is_switch v
    · simp only [Bool.not_false, if_true, Bool.false_eq_true, if_false]
    · simp only [Bool.not_true, Bool.false_eq_true, if_false, if_true]

theorem next_rest_length_le (rest : List Str) : (next_rest rest).length ≤ rest.length := by
  cases rest with
  | nil => simp [next_rest]
  | cons v r =>
    by_cases hv : is_switch v = true <;> simp [next_rest, hv]

theorem switch_names_next_rest (rest : List Str) :
    switch_names (next_rest rest) = switch_names rest := by
  cases rest with
  | nil => simp [next_rest]
  | cons v r =>
    by_cases hv : is_switch v = true <;> simp [next_rest, switch_names, hv]

theorem switch_names_cons (tok : Str) (rest : List Str) (h : is_switch tok = true) :
    switch_names (tok :: rest) = get_stripped_switch_name tok :: switch_names (next_rest rest) := by
  rw [switch_names_next_rest]
  simp [switch_names, h]
/-! ## The grammar of the loop -/

theorem grouped_nil : Grouped [] := ⟨[], by simp, by simp⟩

theorem grouped_head (v : Str) (r : List Str) (h : Grouped (v :: r)) : is_switch v = true := by
  obtain ⟨gs, hg, heq⟩ := h
  cases gs with
  | nil => simp at heq
  | cons g gs1 =>
    obtain ⟨sw, hsw, _, hshape⟩ := hg g (List.mem_cons_self _ _)
    rcases hshape with rfl | ⟨w, _, rfl⟩
    · simp at heq
      rw [heq.1]; exact hsw
    · simp at heq
      rw [heq.1]; exact hsw

theorem next_rest_of_grouped (l : List Str) (h : Grouped l) : next_rest l = l := by
  cases l with
  | nil => rfl
  | cons v r => simp [next_rest, grouped_head v r h]

theorem grouped_cons (tok : Str) (rest : List Str) :
    Grouped (tok :: rest) ↔
      is_switch tok = true ∧ tok ≠ dashdash ∧ Grouped (next_rest rest) := by
  constructor
  · rintro ⟨gs, hg, heq⟩
    cases gs with
    | nil => simp at heq
    | cons g gs1 =>
      have hg1 : Grouped gs1.flatten :=
        ⟨gs1, fun g1 h1 => hg g1 (List.mem_cons_of_mem _ h1), rfl⟩
      obtain ⟨sw, hsw, hne, hshape⟩ := hg g (List.mem_cons_self _ _)
      rcases hshape with rfl | ⟨w, hw, rfl⟩
      · simp at heq
        obtain ⟨h1, h2⟩ := heq
        subst h1; subst h2
        exact ⟨hsw, hne, by rw [next_rest_of_grouped _ hg1]; exact hg1⟩
      · simp at heq
        obtain ⟨h1, h2⟩ := heq
        subst h1; subst h2
        refine ⟨hsw, hne, ?_⟩
        simp [next_rest, hw]
        exact hg1
  · rintro ⟨hsw, hne, gs1, hg1, heq1⟩
    cases rest with
    | nil =>
      refine ⟨[tok] :: gs1, ?_, ?_⟩
      · intro g hgm
        rcases List.mem_cons.1 hgm with rfl | hgm1
        · exact ⟨tok, hsw, hne, Or.inl rfl⟩
        · exact hg1 g hgm1
      · rw [List.flatten_cons, ← heq1]
        rfl
    | cons v r =>
      by_cases hv : is_switch v = true
      · refine ⟨[tok] :: gs1, ?_, ?_⟩
        · intro g hgm
          rcases List.mem_cons.1 hgm with rfl | hgm1
          · exact ⟨tok, hsw, hne, Or.inl rfl⟩
          · exact hg1 g hgm1
        · rw [List.flatten_cons, ← heq1]
          simp [next_rest, hv]
      · rw [Bool.not_eq_true] at hv
        refine ⟨[tok, v] :: gs1, ?_, ?_⟩
        · intro g hgm
          rcases List.mem_cons.1 hgm with rfl | hgm1
          · exact ⟨tok, hsw, hne, Or.inr ⟨v, hv, rfl⟩⟩
          · exact hg1 g hgm1
        · rw [List.flatten_cons, ← heq1]
          simp [next_rest, hv]

theorem first_not_switch_nil : ¬ FirstNotSwitch [] := by
  rintro ⟨t, rest, h, _⟩
  simp at h

theorem first_not_switch_cons (x : Str) (l : List Str) :
    FirstNotSwitch (x :: l) ↔ is_switch x = false := by
  constructor
  · rintro ⟨t, rest, h, ht⟩
    simp at h
    rw [h.1]; exact ht
  · intro h
    exact ⟨x, l, rfl, h⟩

theorem adjacent_nil : ¬ AdjacentValues [] := by
  rintro ⟨pre, a, b, post, h, _⟩
  simp at h

theorem adjacent_cons (x : Str) (l : List Str) :
    AdjacentValues (x :: l) ↔ (is_switch x = false ∧ FirstNotSwitch l) ∨ AdjacentValues l := by
  constructor
  · rintro ⟨pre, a, b, post, h, ha, hb⟩
    cases pre with
    | nil =>
      simp at h
      obtain ⟨h1, h2⟩ := h
      subst h1; subst h2
      exact Or.inl ⟨ha, b, post, rfl, hb⟩
    | cons p pre1 =>
      simp at h
      exact Or.inr ⟨pre1, a, b, post, h.2, ha, hb⟩
  · rintro (⟨hx, t, rest, rfl, ht⟩ | ⟨pre, a, b, post, rfl, ha, hb⟩)
    · exact ⟨[], x, t, rest, rfl, hx, ht⟩
    · exact ⟨x :: pre, a, b, post, rfl, ha, hb⟩

theorem malformed_nil : ¬ Malformed [] := by
  rintro (h | h | h)
  · exact first_not_switch_nil h
  · exact adjacent_nil h
  · simp at h

theorem malformed_cons (tok : Str) (rest : List Str) :
    Malformed (tok :: rest) ↔
      is_switch tok = false ∨ tok = dashdash ∨ Malformed (next_rest rest) := by
  have hdd := is_switch_dashdash
  by_cases hsw : is_switch tok = true
  · by_cases hne : tok = dashdash
    · simp [Malformed, hne]
    · have hne1 : ¬ dashdash = tok := fun e => hne e.symm
      cases rest with
      | nil =>
        simp [Malformed, next_rest, first_not_switch_cons, adjacent_cons, first_not_switch_nil,
          adjacent_nil, hsw, hne, hne1]
      | cons v r =>
        by_cases hv : is_switch v = true
        · simp [Malformed, next_rest, first_not_switch_cons, adjacent_cons, hsw, hne, hne1, hv]
        · rw [Bool.not_eq_true] at hv
          have hvd : ¬ dashdash = v := by
            intro e
            rw [← e, hdd] at hv
            exact Bool.noConfusion hv
          simp [Malformed, next_rest, first_not_switch_cons, adjacent_cons, hsw, hne, hne1, hv,
            hvd]
          tauto
  · rw [Bool.not_eq_true] at hsw
    simp [Malformed, first_not_switch_cons, hsw]

theorem grouped_iff_not_malformed (toks : List Str) : Grouped toks ↔ ¬ Malformed toks := by
  generalize h : toks.length = n
  induction n using Nat.strong_induction_on generalizing toks with
  | _ n ih =>
    cases toks with
    | nil => simp [grouped_nil, malformed_nil]
    | cons tok rest =>
      have hlen : (next_rest rest).length < n := by
        have := next_rest_length_le rest
        simp at h
        omega
      rw [grouped_cons, malformed_cons, ih _ hlen (next_rest rest) rfl]
      cases is_switch tok <;> simp

/-! ## Reasoning about the loop -/

/-- Induction along the turns of the loop: the three ways a turn fails, and the
turn that stores a switch and goes on. -/
theorem parse_loop_cases (P : ArgumentParser → List Str → ArgumentParser × Result Bool → Prop)
    (hnil : ∀ s, P s [] (s, Result.returned true))
    (hvalue : ∀ s tok rest, is_switch tok = false →
      P s (tok :: rest) (parse_fail s (msg_looks_like_a_value tok)))
    (hempty : ∀ s tok rest, is_switch tok = true → tok = dashdash →
      P s (tok :: rest) (parse_fail s (msg_not_a_valid_switch tok)))
    (hdup : ∀ s tok rest, is_switch tok = true → tok ≠ dashdash →
      (find s._argument (get_stripped_switch_name tok)).isSome = true →
      P s (tok :: rest) (parse_fail s (msg_present_multiple_times tok)))
    (hstep : ∀ s tok rest, is_switch tok = true → tok ≠ dashdash →
      find s._argument (get_stripped_switch_name tok) = none →
      P { s with _argument := set s._argument (get_stripped_switch_name tok) (next_value rest) }
        (next_rest rest)
        (parse_loop
          { s with _argument := set s._argument (get_stripped_switch_name tok) (next_value rest) }
          (next_rest rest)) →
      P s (tok :: rest)
        (parse_loop
          { s with _argument := set s._argument (get_stripped_switch_name tok) (next_value rest) }
          (next_rest rest))) :
    ∀ (toks : List Str) (s : ArgumentParser), P s toks (parse_loop s toks) := by
  intro toks
  generalize h : toks.length = n
  induction n using Nat.strong_induction_on generalizing toks with
  | _ n ih =>
    intro s
    cases toks with
    | nil => simpa [parse_loop] using hnil s
    | cons tok rest =>
      rw [parse_loop_cons]
      by_cases hsw : is_switch tok = true
      · by_cases hem : (get_stripped_switch_name tok).isEmpty = true
        · simp only [hsw, hem, if_true]
          exact hempty s tok rest hsw ((stripped_isEmpty_iff tok hsw).1 hem)
        · have hne : tok ≠ dashdash := fun e => hem ((stripped_isEmpty_iff tok hsw).2 e)
          by_cases hd : (find s._argument (get_stripped_switch_name tok)).isSome = true
          · simp only [hsw, hem, hd, if_true, if_false, Bool.false_eq_true]
            exact hdup s tok rest hsw hne hd
          · simp only [hsw, hem, hd, if_true, if_false, Bool.false_eq_true]
            have hnone : find s._argument (get_stripped_switch_name tok) = none := by
              simpa using hd
            have hlen : (next_rest rest).length < n := by
              have := next_rest_length_le rest
              simp at h
              omega
            exact hstep s tok rest hsw hne hnone (ih _ hlen (next_rest rest) rfl _)
      · rw [Bool.not_eq_true] at hsw
        simp only [hsw, Bool.false_eq_true, if_false]
        exact hvalue s tok rest hsw

/-- When the loop accepts: the tokens are grouped, the names are distinct, and
none of them is in the map already. -/
theorem parse_loop_true_iff (toks : List Str) (s : ArgumentParser) :
    (parse_loop s toks).2 = Result.returned true ↔
      Grouped toks ∧ (switch_names toks).Nodup ∧
        ∀ x ∈ switch_names toks, find s._argument x = none := by
  refine parse_loop_cases
    (fun s toks r => r.2 = Result.returned true ↔
      Grouped toks ∧ (switch_names toks).Nodup ∧
        ∀ x ∈ switch_names toks, find s._argument x = none) ?_ ?_ ?_ ?_ ?_ toks s
  · intro s
    simp [grouped_nil, switch_names]
  · intro s tok rest hsw
    have h1 := parse_fail_ne_true s (msg_looks_like_a_value tok)
    simp only [h1, false_iff, grouped_cons, hsw]
    simp
  · intro s tok rest hsw hdd
    have h1 := parse_fail_ne_true s (msg_not_a_valid_switch tok)
    simp only [h1, false_iff, grouped_cons]
    intro h
    exact h.1.2.1 hdd
  · intro s tok rest hsw hne hd
    have h1 := parse_fail_ne_true s (msg_present_multiple_times tok)
    simp only [h1, false_iff, switch_names_cons tok rest hsw]
    intro h
    have := h.2.2 _ (List.mem_cons_self _ _)
    rw [this] at hd
    simp at hd
  · intro s tok rest hsw hne hnone ih
    rw [ih, grouped_cons, switch_names_cons tok rest hsw]
    simp only [find_set, List.nodup_cons, List.mem_cons, hsw, true_and]
    constructor
    · rintro ⟨hg, hnd, hall⟩
      have hnot : get_stripped_switch_name tok ∉ switch_names (next_rest rest) := by
        intro hmem
        have := hall _ hmem
        simp at this
      refine ⟨⟨hne, hg⟩, ⟨hnot, hnd⟩, ?_⟩
      rintro x (rfl | hx)
      · exact hnone
      · have := hall x hx
        by_cases hx2 : get_stripped_switch_name tok = x
        · simp [hx2] at this
        · simpa [hx2] using this
    · rintro ⟨⟨_, hg⟩, ⟨hnot, hnd⟩, hall⟩
      refine ⟨hg, hnd, ?_⟩
      intro x hx
      have hx2 : ¬ get_stripped_switch_name tok = x := by
        intro e
        exact hnot (e ▸ hx)
      simp only [hx2, if_false]
      exact hall x (Or.inr hx)

/-- What the loop leaves untouched, and the shape of a failure. -/
theorem parse_loop_frame (toks : List Str) (s : ArgumentParser) :
    (parse_loop s toks).1._error_message = s._error_message ∧
    (parse_loop s toks).1._conversion_error = s._conversion_error ∧
    (parse_loop s toks).1._throw_on_parse_error = s._throw_on_parse_error ∧
    (parse_loop s toks).1._throw_on_conversion_error = s._throw_on_conversion_error ∧
    (((parse_loop s toks).2 = Result.returned true ∧ (parse_loop s toks).1._verb = s._verb) ∨
      ((parse_loop s toks).1._verb = [] ∧ (parse_loop s toks).1._argument = [] ∧
        ((s._throw_on_parse_error = true ∧ ∃ msg, (parse_loop s toks).2 = Result.threw msg) ∨
         (s._throw_on_parse_error = false ∧ (parse_loop s toks).2 = Result.returned false)))) := by
  have hfail : ∀ (s : ArgumentParser) (msg : Str),
      (parse_fail s msg).1._error_message = s._error_message ∧
      (parse_fail s msg).1._conversion_error = s._conversion_error ∧
      (parse_fail s msg).1._throw_on_parse_error = s._throw_on_parse_error ∧
      (parse_fail s msg).1._throw_on_conversion_error = s._throw_on_conversion_error ∧
      (((parse_fail s msg).2 = Result.returned true ∧ (parse_fail s msg).1._verb = s._verb) ∨
        ((parse_fail s msg).1._verb = [] ∧ (parse_fail s msg).1._argument = [] ∧
          ((s._throw_on_parse_error = true ∧ ∃ m, (parse_fail s msg).2 = Result.threw m) ∨
           (s._throw_on_parse_error = false ∧ (parse_fail s msg).2 = Result.returned false)))) := by
    intro s msg
    rw [parse_fail_fst, parse_fail_snd]
    refine ⟨rfl, rfl, rfl, rfl, Or.inr ⟨rfl, rfl, ?_⟩⟩
    by_cases h : s._throw_on_parse_error = true
    · exact Or.inl ⟨h, msg, by simp [h]⟩
    · rw [Bool.not_eq_true] at h
      exact Or.inr ⟨h, by simp [h]⟩
  refine parse_loop_cases
    (fun s _ r =>
      r.1._error_message = s._error_message ∧
      r.1._conversion_error = s._conversion_error ∧
      r.1._throw_on_parse_error = s._throw_on_parse_error ∧
      r.1._throw_on_conversion_error = s._throw_on_conversion_error ∧
      ((r.2 = Result.returned true ∧ r.1._verb = s._verb) ∨
        (r.1._verb = [] ∧ r.1._argument = [] ∧
          ((s._throw_on_parse_error = true ∧ ∃ msg, r.2 = Result.threw msg) ∨
           (s._throw_on_parse_error = false ∧ r.2 = Result.returned false)))))
    ?_ ?_ ?_ ?_ ?_ toks s
  · intro s
    exact ⟨rfl, rfl, rfl, rfl, Or.inl ⟨rfl, rfl⟩⟩
  · intro s tok _ _
    exact hfail s _
  · intro s tok _ _ _
    exact hfail s _
  · intro s tok _ _ _ _
    exact hfail s _
  · intro s tok rest _ _ _ ih
    exact ih

theorem failed_ne_true (r : Result Bool) (h : Failed r) : r ≠ Result.returned true := by
  rcases h with h | ⟨m, h⟩ <;> simp [h]

theorem parse_loop_failed_iff (toks : List Str) (s : ArgumentParser) :
    Failed (parse_loop s toks).2 ↔ ¬ (parse_loop s toks).2 = Result.returned true := by
  constructor
  · exact failed_ne_true _
  · intro h
    rcases (parse_loop_frame toks s).2.2.2.2 with h1 | ⟨_, _, ⟨_, m, h2⟩ | ⟨_, h2⟩⟩
    · exact absurd h1.1 h
    · exact Or.inr ⟨m, h2⟩
    · exact Or.inl h2

theorem next_rest_split (rest pre post : List Str) (sw : Str)
    (h : rest = pre ++ sw :: post) (hsw : is_switch sw = true) :
    ∃ pre2, next_rest rest = pre2 ++ sw :: post := by
  cases rest with
  | nil => simp at h
  | cons v r =>
    by_cases hv : is_switch v = true
    · exact ⟨pre, by simp [next_rest, hv, h]⟩
    · cases pre with
      | nil =>
        simp at h
        rw [h.1] at hv
        exact absurd hsw hv
      | cons q pre3 =>
        simp at h
        exact ⟨pre3, by simp [next_rest, hv, h.2]⟩

theorem mem_switch_names (toks : List Str) (x : Str) :
    x ∈ switch_names toks ↔
      ∃ pre sw post, toks = pre ++ sw :: post ∧ is_switch sw = true ∧
        get_stripped_switch_name sw = x := by
  constructor
  · intro h
    simp only [switch_names, List.mem_map, List.mem_filter] at h
    obtain ⟨sw, ⟨hmem, hsw⟩, rfl⟩ := h
    obtain ⟨pre, post, rfl⟩ := List.append_of_mem hmem
    exact ⟨pre, sw, post, rfl, hsw, rfl⟩
  · rintro ⟨pre, sw, post, rfl, hsw, rfl⟩
    simp only [switch_names, List.mem_map, List.mem_filter]
    exact ⟨sw, ⟨by simp, hsw⟩, rfl⟩

/-- What an accepting run of the loop leaves in the map. -/
theorem parse_loop_values (toks : List Str) (s : ArgumentParser)
    (hok : (parse_loop s toks).2 = Result.returned true) :
    (∀ x, x ∉ switch_names toks →
      find (parse_loop s toks).1._argument x = find s._argument x) ∧
    (∀ pre sw post, toks = pre ++ sw :: post → is_switch sw = true →
      find (parse_loop s toks).1._argument (get_stripped_switch_name sw) =
        some (next_value post)) := by
  revert hok
  refine parse_loop_cases
    (fun s toks r => r.2 = Result.returned true →
      (∀ x, x ∉ switch_names toks → find r.1._argument x = find s._argument x) ∧
      (∀ pre sw post, toks = pre ++ sw :: post → is_switch sw = true →
        find r.1._argument (get_stripped_switch_name sw) = some (next_value post)))
    ?_ ?_ ?_ ?_ ?_ toks s
  · intro s _
    refine ⟨fun _ _ => rfl, ?_⟩
    intro pre sw post h
    simp at h
  · intro s tok rest _ h
    exact absurd h (parse_fail_ne_true _ _)
  · intro s tok rest _ _ h
    exact absurd h (parse_fail_ne_true _ _)
  · intro s tok rest _ _ _ h
    exact absurd h (parse_fail_ne_true _ _)
  · intro s tok rest hsw hne hnone ih hok
    obtain ⟨ih1, ih2⟩ := ih hok
    have hacc := (parse_loop_true_iff _ _).1 hok
    have hnot : get_stripped_switch_name tok ∉ switch_names (next_rest rest) := by
      intro hmem
      have := hacc.2.2 _ hmem
      simp [find_set] at this
    constructor
    · intro x hx
      rw [switch_names_cons tok rest hsw, List.mem_cons, not_or] at hx
      rw [ih1 x hx.2]
      have hx2 : ¬ get_stripped_switch_name tok = x := fun e => hx.1 e.symm
      simp [find_set, hx2]
    · intro pre sw post hsplit hsw2
      cases pre with
      | nil =>
        simp at hsplit
        obtain ⟨h1, h2⟩ := hsplit
        subst h1; subst h2
        rw [ih1 _ hnot]
        simp [find_set]
      | cons q pre1 =>
        simp at hsplit
        obtain ⟨pre2, hpre2⟩ := next_rest_split rest pre1 post sw hsplit.2 hsw2
        exact ih2 pre2 sw post hpre2 hsw2

theorem parse_param_switch (s : ArgumentParser) (argv : List Str) :
    parse s argv ArgumentFormat.PARAM_SWITCH =
      parse_loop { s with _verb := [], _argument := [], _error_message := [],
                          _conversion_error := false } (argv.drop 1) := rfl

/-- C1. Under PARAM_SWITCH, `parse` returns true exactly when the tokens after the
program name are a concatenation of groups (a switch-shaped token other than `--`,
optionally followed by one token that is not switch-shaped) whose stripped switch
names are pairwise distinct; and it fails (returns false or throws) exactly when
the first token is not switch-shaped, or two tokens that are not switch-shaped are
adjacent, or some token is `--`, or two switch tokens share a stripped name. -/
theorem C1_param_switch_accepts_iff_grouped (s : ArgumentParser) (argv : List Str) :
    ((parse s argv ArgumentFormat.PARAM_SWITCH).2 = Result.returned true ↔
      Grouped (argv.drop 1) ∧ (switch_names (argv.drop 1)).Nodup) ∧
    (Failed (parse s argv ArgumentFormat.PARAM_SWITCH).2 ↔
      FirstNotSwitch (argv.drop 1) ∨ AdjacentValues (argv.drop 1) ∨
        dashdash ∈ argv.drop 1 ∨ ¬ (switch_names (argv.drop 1)).Nodup) := by
  have hacc : (parse s argv ArgumentFormat.PARAM_SWITCH).2 = Result.returned true ↔
      Grouped (argv.drop 1) ∧ (switch_names (argv.drop 1)).Nodup := by
    rw [parse_param_switch, parse_loop_true_iff]
    simp [find]
  refine ⟨hacc, ?_⟩
  have hfailed : Failed (parse s argv ArgumentFormat.PARAM_SWITCH).2 ↔
      ¬ (parse s argv ArgumentFormat.PARAM_SWITCH).2 = Result.returned true := by
    rw [parse_param_switch]
    exact parse_loop_failed_iff _ _
  rw [hfailed, hacc, grouped_iff_not_malformed]
  unfold Malformed
  tauto

/-- The loop run on another instance holding the same map takes the same turns:
it ends with the same map, and accepts in the same cases. -/
theorem parse_loop_congr (toks : List Str) (s : ArgumentParser) :
    ∀ t : ArgumentParser, t._argument = s._argument →
      (parse_loop t toks).1._argument = (parse_loop s toks).1._argument ∧
      ((parse_loop t toks).2 = Result.returned true ↔
        (parse_loop s toks).2 = Result.returned true) := by
  refine parse_loop_cases
    (fun s toks r => ∀ t : ArgumentParser, t._argument = s._argument →
      (parse_loop t toks).1._argument = r.1._argument ∧
      ((parse_loop t toks).2 = Result.returned true ↔ r.2 = Result.returned true))
    ?_ ?_ ?_ ?_ ?_ toks s
  · intro s t ht
    simp [parse_loop, ht]
  · intro s tok rest hsw t _
    rw [parse_loop_cons]
    simp only [hsw, Bool.false_eq_true, if_false, parse_fail_fst]
    simp [parse_fail_ne_true]
  · intro s tok rest hsw hdd t _
    have hem := (stripped_isEmpty_iff tok hsw).2 hdd
    rw [parse_loop_cons]
    simp only [hsw, hem, if_true, parse_fail_fst]
    simp [parse_fail_ne_true]
  · intro s tok rest hsw hne hd t ht
    have hem : ¬ (get_stripped_switch_name tok).isEmpty = true :=
      fun e => hne ((stripped_isEmpty_iff tok hsw).1 e)
    rw [parse_loop_cons]
    simp only [hsw, hem, ht, hd, if_true, if_false, Bool.false_eq_true, parse_fail_fst]
    simp [parse_fail_ne_true]
  · intro s tok rest hsw hne hnone ih t ht
    have hem : ¬ (get_stripped_switch_name tok).isEmpty = true :=
      fun e => hne ((stripped_isEmpty_iff tok hsw).1 e)
    rw [parse_loop_cons]
    simp only [hsw, hem, ht, hnone, if_true, if_false, Bool.false_eq_true, Option.isSome_none]
    exact ih _ rfl

/-- The three ways a VERB_PARAM_SWITCH parse starts. -/
theorem parse_verb_short (s : ArgumentParser) (argv : List Str) (h : argv.drop 1 = []) :
    parse s argv ArgumentFormat.VERB_PARAM_SWITCH =
      ({ s with _verb := [], _argument := [], _error_message := [],
                _conversion_error := false }, Result.returned true) := by
  match argv, h with
  | [], _ => rfl
  | [_], _ => rfl

theorem parse_verb_taken (s : ArgumentParser) (prog first : Str) (rest : List Str)
    (h : is_switch first = false) :
    parse s (prog :: first :: rest) ArgumentFormat.VERB_PARAM_SWITCH =
      parse_loop { s with _verb := first, _argument := [], _error_message := [],
                          _conversion_error := false } rest := by
  simp [parse, h]

theorem parse_verb_refused (s : ArgumentParser) (prog first : Str) (rest : List Str)
    (h : is_switch first = true) :
    parse s (prog :: first :: rest) ArgumentFormat.VERB_PARAM_SWITCH =
      ({ s with _verb := [], _argument := [], _error_message := [],
                _conversion_error := false },
        if s._throw_on_parse_error then Result.threw (msg_not_a_verb first)
        else Result.returned false) := by
  by_cases ht : s._throw_on_parse_error = true <;> simp [parse, h, ht]

theorem get_as_string_of_find (s : ArgumentParser) (name value : Str)
    (h : find s._argument name = some value) :
    get_as_string s name =
      ({ s with _error_message := [], _conversion_error := false }, Result.returned value) := by
  simp [get_as_string, h]

/-- The map after an accepting run that started from the empty map. -/
theorem parse_loop_from_empty (toks : List Str) (s : ArgumentParser) (hs : s._argument = [])
    (hok : (parse_loop s toks).2 = Result.returned true) :
    (∀ name, (find (parse_loop s toks).1._argument name).isSome = true ↔
      name ∈ switch_names toks) ∧
    (∀ pre sw post, toks = pre ++ sw :: post → is_switch sw = true →
      find (parse_loop s toks).1._argument (get_stripped_switch_name sw) =
        some (next_value post)) := by
  obtain ⟨h1, h2⟩ := parse_loop_values toks s hok
  refine ⟨?_, h2⟩
  intro name
  constructor
  · intro hsome
    by_contra hnot
    rw [h1 name hnot, hs] at hsome
    simp [find] at hsome
  · intro hmem
    obtain ⟨pre, sw, post, hsplit, hsw, rfl⟩ := (mem_switch_names toks name).1 hmem
    rw [h2 pre sw post hsplit hsw]
    rfl

/-- C2. After a successful parse (either format), the keys of the map are exactly
the stripped names of the switch-shaped tokens after the program name; the value
stored for a switch token is the token right after it when there is one and it is
not switch-shaped, and the empty string otherwise; `get_as_string` returns that
value; and the stripped name is the token without its leading `--` when it starts
with `--`, and without its leading `-` otherwise. -/
theorem C2_map_after_successful_parse (s : ArgumentParser) (argv : List Str)
    (format : ArgumentFormat)
    (hok : (parse s argv format).2 = Result.returned true) :
    (∀ name, (find (parse s argv format).1._argument name).isSome = true ↔
      name ∈ switch_names (argv.drop 1)) ∧
    (∀ pre sw post, argv.drop 1 = pre ++ sw :: post → is_switch sw = true →
      find (parse s argv format).1._argument (get_stripped_switch_name sw) =
        some (next_value post) ∧
      (get_as_string (parse s argv format).1 (get_stripped_switch_name sw)).2 =
        Result.returned (next_value post)) ∧
    (∀ sw, is_switch sw = true →
      get_stripped_switch_name sw = if sw.take 2 = dashdash then sw.drop 2 else sw.drop 1) := by
  have hstrip : ∀ sw, is_switch sw = true →
      get_stripped_switch_name sw = if sw.take 2 = dashdash then sw.drop 2 else sw.drop 1 := by
    intro sw hsw
    obtain ⟨c, r, rfl⟩ := (is_switch_iff sw).1 hsw
    simp [get_stripped_switch_name, compare_eq_zero_iff, dashdash]
  have hkey : ∀ (toks : List Str),
      ((∀ name, (find (parse s argv format).1._argument name).isSome = true ↔
        name ∈ switch_names toks) ∧
      (∀ pre sw post, toks = pre ++ sw :: post → is_switch sw = true →
        find (parse s argv format).1._argument (get_stripped_switch_name sw) =
          some (next_value post))) →
      ((∀ name, (find (parse s argv format).1._argument name).isSome = true ↔
        name ∈ switch_names toks) ∧
      (∀ pre sw post, toks = pre ++ sw :: post → is_switch sw = true →
        find (parse s argv format).1._argument (get_stripped_switch_name sw) =
          some (next_value post) ∧
        (get_as_string (parse s argv format).1 (get_stripped_switch_name sw)).2 =
          Result.returned (next_value post))) := by
    intro toks h
    refine ⟨h.1, ?_⟩
    intro pre sw post hsplit hsw
    have hf := h.2 pre sw post hsplit hsw
    exact ⟨hf, by rw [get_as_string_of_find _ _ _ hf]⟩
  cases format with
  | PARAM_SWITCH =>
    rw [parse_param_switch] at hok
    have h := parse_loop_from_empty _ _ rfl hok
    have h2 := hkey (argv.drop 1) h
    exact ⟨h2.1, h2.2, hstrip⟩
  | VERB_PARAM_SWITCH =>
    match argv, hok, hkey with
    | [], hok, hkey =>
      exact ⟨(hkey [] (by simp [parse, parse_loop, find, switch_names])).1,
        (hkey [] (by simp [parse, parse_loop, find, switch_names])).2, hstrip⟩
    | [_], hok, hkey =>
      exact ⟨(hkey [] (by simp [parse, parse_loop, find, switch_names])).1,
        (hkey [] (by simp [parse, parse_loop, find, switch_names])).2, hstrip⟩
    | prog :: first :: rest, hok, hkey =>
      by_cases hf : is_switch first = true
      · rw [parse_verb_refused s prog first rest hf] at hok
        by_cases ht : s._throw_on_parse_error = true <;> simp [ht] at hok
      · rw [Bool.not_eq_true] at hf
        have hk := hkey (first :: rest)
        rw [parse_verb_taken s prog first rest hf] at hok hk ⊢
        have h := parse_loop_from_empty _ _ rfl hok
        have hnames : switch_names (first :: rest) = switch_names rest := by
          simp [switch_names, hf]
        refine ⟨?_, ?_, hstrip⟩
        · refine (hk ⟨?_, ?_⟩).1
          · rw [hnames]; exact h.1
          · intro pre sw post hsplit hsw
            cases pre with
            | nil =>
              simp at hsplit
              rw [hsplit.1, hsw] at hf
              exact Bool.noConfusion hf
            | cons q pre1 =>
              simp at hsplit
              exact h.2 pre1 sw post hsplit.2 hsw
        · refine (hk ⟨?_, ?_⟩).2
          · rw [hnames]; exact h.1
          · intro pre sw post hsplit hsw
            cases pre with
            | nil =>
              simp at hsplit
              rw [hsplit.1, hsw] at hf
              exact Bool.noConfusion hf
            | cons q pre1 =>
              simp at hsplit
              exact h.2 pre1 sw post hsplit.2 hsw

/-- Witness for C2 on `tool -s1 test -s2` under PARAM_SWITCH: the parse succeeds
and `get_as_string("s1")` returns `test`. -/
theorem C2_map_after_successful_parse_witness :
    (parse (new false false) ["tool".toList, "-s1".toList, "test".toList, "-s2".toList]
      ArgumentFormat.PARAM_SWITCH).2 = Result.returned true ∧
    (get_as_string
      (parse (new false false) ["tool".toList, "-s1".toList, "test".toList, "-s2".toList]
        ArgumentFormat.PARAM_SWITCH).1 "s1".toList).2 = Result.returned "test".toList :=
  ⟨by decide,
    ((C2_map_after_successful_parse (new false false)
        ["tool".toList, "-s1".toList, "test".toList, "-s2".toList]
        ArgumentFormat.PARAM_SWITCH (by decide)).2.1
      [] "-s1".toList ["test".toList, "-s2".toList] rfl (by decide)).2⟩

/-! ## Facts about `parse` as a whole -/

/-- The state `parse` starts from depends on the two policy flags only. -/
theorem parse_only_flags (s t : ArgumentParser) (argv : List Str) (format : ArgumentFormat)
    (h1 : s._throw_on_parse_error = t._throw_on_parse_error)
    (h2 : s._throw_on_conversion_error = t._throw_on_conversion_error) :
    parse s argv format = parse t argv format := by
  obtain ⟨v, m, e, p, c, a⟩ := s
  obtain ⟨v1, m1, e1, p1, c1, a1⟩ := t
  simp only at h1 h2
  subst h1; subst h2
  rfl

/-- What `parse` leaves untouched or reset, and the shape of a failure. -/
theorem parse_frame (s : ArgumentParser) (argv : List Str) (format : ArgumentFormat) :
    (parse s argv format).1._error_message = [] ∧
    (parse s argv format).1._conversion_error = false ∧
    (parse s argv format).1._throw_on_parse_error = s._throw_on_parse_error ∧
    (parse s argv format).1._throw_on_conversion_error = s._throw_on_conversion_error ∧
    ((parse s argv format).2 = Result.returned true ∨
      ((parse s argv format).1._verb = [] ∧ (parse s argv format).1._argument = [] ∧
        ((s._throw_on_parse_error = true ∧ ∃ msg, (parse s argv format).2 = Result.threw msg) ∨
         (s._throw_on_parse_error = false ∧
           (parse s argv format).2 = Result.returned false)))) := by
  have hloop : ∀ (v : Str) (toks : List Str) (r : ArgumentParser × Result Bool),
      r = parse_loop { s with _verb := v, _argument := [], _error_message := [],
                              _conversion_error := false } toks →
      r.1._error_message = [] ∧ r.1._conversion_error = false ∧
      r.1._throw_on_parse_error = s._throw_on_parse_error ∧
      r.1._throw_on_conversion_error = s._throw_on_conversion_error ∧
      (r.2 = Result.returned true ∨
        (r.1._verb = [] ∧ r.1._argument = [] ∧
          ((s._throw_on_parse_error = true ∧ ∃ msg, r.2 = Result.threw msg) ∨
           (s._throw_on_parse_error = false ∧ r.2 = Result.returned false)))) := by
    intro v toks r hr
    subst hr
    obtain ⟨h1, h2, h3, h4, h5⟩ := parse_loop_frame toks
      { s with _verb := v, _argument := [], _error_message := [], _conversion_error := false }
    refine ⟨h1, h2, h3, h4, ?_⟩
    rcases h5 with h5 | h5
    · exact Or.inl h5.1
    · exact Or.inr h5
  cases format with
  | PARAM_SWITCH => exact hloop [] (argv.drop 1) _ rfl
  | VERB_PARAM_SWITCH =>
    match argv with
    | [] => exact hloop [] [] _ rfl
    | [_] => exact hloop [] [] _ rfl
    | prog :: first :: rest =>
      by_cases hf : is_switch first = true
      · rw [parse_verb_refused s prog first rest hf]
        refine ⟨rfl, rfl, rfl, rfl, Or.inr ⟨rfl, rfl, ?_⟩⟩
        by_cases ht : s._throw_on_parse_error = true
        · exact Or.inl ⟨ht, msg_not_a_verb first, by simp [ht]⟩
        · rw [Bool.not_eq_true] at ht
          exact Or.inr ⟨ht, by simp [ht]⟩
      · rw [Bool.not_eq_true] at hf
        rw [parse_verb_taken s prog first rest hf]
        exact hloop first rest _ rfl

theorem parse_failed_iff (s : ArgumentParser) (argv : List Str) (format : ArgumentFormat) :
    Failed (parse s argv format).2 ↔ ¬ (parse s argv format).2 = Result.returned true := by
  constructor
  · exact failed_ne_true _
  · intro h
    rcases (parse_frame s argv format).2.2.2.2 with h1 | ⟨_, _, ⟨_, m, h2⟩ | ⟨_, h2⟩⟩
    · exact absurd h1 h
    · exact Or.inr ⟨m, h2⟩
    · exact Or.inl h2

/-! ## Facts about the accessors -/

theorem get_verb_of_verb (s : ArgumentParser) (d : Str) (h : s._verb ≠ []) :
    get_verb s d =
      ({ s with _error_message := [], _conversion_error := false },
        Result.returned s._verb) := by
  simp [get_verb, h]

theorem get_verb_of_default (s : ArgumentParser) (d : Str) (h : s._verb = []) (hd : d ≠ []) :
    get_verb s d =
      ({ s with _error_message := [], _conversion_error := false }, Result.returned d) := by
  simp [get_verb, h, hd]

theorem get_verb_missing (s : ArgumentParser) (h : s._verb = []) :
    get_verb s [] =
      ({ s with _error_message := msg_verb_missing, _conversion_error := true },
        if s._throw_on_conversion_error then Result.threw msg_verb_missing
        else Result.returned []) := by
  by_cases ht : s._throw_on_conversion_error = true <;>
    simp [get_verb, h, handle_conversion_error, ht]

theorem get_verb_flags (s : ArgumentParser) (d : Str) :
    (get_verb s d).1._throw_on_parse_error = s._throw_on_parse_error ∧
    (get_verb s d).1._throw_on_conversion_error = s._throw_on_conversion_error := by
  by_cases h : s._verb = []
  · by_cases hd : d = []
    · subst hd
      rw [get_verb_missing s h]
      exact ⟨rfl, rfl⟩
    · rw [get_verb_of_default s d h hd]
      exact ⟨rfl, rfl⟩
  · rw [get_verb_of_verb s d h]
    exact ⟨rfl, rfl⟩

theorem get_as_string_missing (s : ArgumentParser) (name : Str)
    (h : find s._argument name = none) :
    get_as_string s name =
      ({ s with _error_message := msg_required_not_present name, _conversion_error := true },
        if s._throw_on_conversion_error then Result.threw (msg_required_not_present name)
        else Result.returned []) := by
  by_cases ht : s._throw_on_conversion_error = true <;>
    simp [get_as_string, h, handle_conversion_error, ht]

theorem get_as_string_flags (s : ArgumentParser) (name : Str) :
    (get_as_string s name).1._throw_on_parse_error = s._throw_on_parse_error ∧
    (get_as_string s name).1._throw_on_conversion_error = s._throw_on_conversion_error := by
  cases h : find s._argument name with
  | none =>
    rw [get_as_string_missing s name h]
    exact ⟨rfl, rfl⟩
  | some v =>
    rw [get_as_string_of_find s name v h]
    exact ⟨rfl, rfl⟩

theorem is_present_iff (s : ArgumentParser) (name : Str) :
    (is_present s name).2 = true ↔
      (find s._argument name).isSome = true ∨ name = s._verb := by
  simp [is_present, compare_eq_zero_iff]

/-! ## VERB_PARAM_SWITCH against PARAM_SWITCH -/

/-- C3 (amended). Under VERB_PARAM_SWITCH: with no token after the program name the
parse succeeds with an empty verb and an empty map; with a switch-shaped first
token it fails at the verb check (returns false, or throws the not-a-verb message)
whatever follows; otherwise it succeeds exactly when the PARAM_SWITCH parse of the
remaining tokens does, and then it holds the same map and the first token as verb.
`get_verb()` returns that verb, except for an empty first token on an instance that
throws on conversion errors, where it throws the missing-verb message. -/
theorem C3_verb_format_refines_param_format (s : ArgumentParser) (prog first : Str)
    (rest : List Str) :
    (∀ argv : List Str, argv.drop 1 = [] →
      (parse s argv ArgumentFormat.VERB_PARAM_SWITCH).2 = Result.returned true ∧
      (parse s argv ArgumentFormat.VERB_PARAM_SWITCH).1._verb = [] ∧
      (parse s argv ArgumentFormat.VERB_PARAM_SWITCH).1._argument = []) ∧
    (is_switch first = true →
      Failed (parse s (prog :: first :: rest) ArgumentFormat.VERB_PARAM_SWITCH).2 ∧
      (parse s (prog :: first :: rest) ArgumentFormat.VERB_PARAM_SWITCH).2 =
        (if s._throw_on_parse_error then Result.threw (msg_not_a_verb first)
         else Result.returned false)) ∧
    (is_switch first = false →
      ((parse s (prog :: first :: rest) ArgumentFormat.VERB_PARAM_SWITCH).2 =
          Result.returned true ↔
        (parse s (prog :: rest) ArgumentFormat.PARAM_SWITCH).2 = Result.returned true) ∧
      ((parse s (prog :: first :: rest) ArgumentFormat.VERB_PARAM_SWITCH).2 =
          Result.returned true →
        (parse s (prog :: first :: rest) ArgumentFormat.VERB_PARAM_SWITCH).1._argument =
          (parse s (prog :: rest) ArgumentFormat.PARAM_SWITCH).1._argument ∧
        (parse s (prog :: first :: rest) ArgumentFormat.VERB_PARAM_SWITCH).1._verb = first ∧
        (get_verb (parse s (prog :: first :: rest) ArgumentFormat.VERB_PARAM_SWITCH).1 []).2 =
          (if first = [] ∧ s._throw_on_conversion_error = true
           then Result.threw msg_verb_missing else Result.returned first))) := by
  refine ⟨?_, ?_, ?_⟩
  · intro argv h
    rw [parse_verb_short s argv h]
    exact ⟨rfl, rfl, rfl⟩
  · intro hf
    have hres := parse_verb_refused s prog first rest hf
    refine ⟨?_, by rw [hres]⟩
    rw [parse_failed_iff, hres]
    by_cases ht : s._throw_on_parse_error = true <;> simp [ht]
  · intro hf
    rw [parse_verb_taken s prog first rest hf, parse_param_switch]
    have hcongr := parse_loop_congr rest
      { s with _verb := [], _argument := [], _error_message := [], _conversion_error := false }
      { s with _verb := first, _argument := [], _error_message := [],
               _conversion_error := false } rfl
    have hframe := parse_loop_frame rest
      { s with _verb := first, _argument := [], _error_message := [],
               _conversion_error := false }
    have htce := hframe.2.2.2.1
    have hv := hframe.2.2.2.2
    simp only at htce hv
    clear hframe
    generalize parse_loop
      { s with _verb := first, _argument := [], _error_message := [],
               _conversion_error := false } rest = r at hcongr htce hv ⊢
    refine ⟨hcongr.2, fun hok => ?_⟩
    have hverb : r.1._verb = first := by
      rcases hv with h | ⟨_, _, ⟨_, m, h⟩ | ⟨_, h⟩⟩
      · exact h.2
      · rw [h] at hok; exact Result.noConfusion hok
      · rw [h] at hok; simp at hok
    refine ⟨hcongr.1, hverb, ?_⟩
    by_cases he : first = []
    · rw [he] at hverb
      rw [get_verb_missing r.1 hverb, htce]
      by_cases ht : s._throw_on_conversion_error = true <;> simp [he, ht]
    · rw [get_verb_of_verb r.1 [] (by rw [hverb]; exact he)]
      simp [he, hverb]

/-- Witness for C3 on `tool verb -switch --option value`: the first token is not
switch-shaped, the parse succeeds, and `get_verb()` returns `verb`. -/
theorem C3_verb_format_refines_param_format_witness :
    is_switch "verb".toList = false ∧
    (parse (new false false)
      ["tool".toList, "verb".toList, "-switch".toList, "--option".toList, "value".toList]
      ArgumentFormat.VERB_PARAM_SWITCH).2 = Result.returned true ∧
    (get_verb (parse (new false false)
      ["tool".toList, "verb".toList, "-switch".toList, "--option".toList, "value".toList]
      ArgumentFormat.VERB_PARAM_SWITCH).1 []).2 = Result.returned "verb".toList :=
  ⟨by decide, by decide,
    (((C3_verb_format_refines_param_format (new false false) "tool".toList "verb".toList
        ["-switch".toList, "--option".toList, "value".toList]).2.2 (by decide)).2
      (by decide)).2.2⟩

/-- Counterexample to C3 as stated: on `tool ""` under VERB_PARAM_SWITCH, with an
instance that throws on conversion errors, the first token is not switch-shaped and
the parse succeeds with the (empty) first token as verb, yet `get_verb()` throws
instead of returning it. -/
theorem C3_counterexample_empty_verb :
    is_switch [] = false ∧
    (parse (new false true) ["tool".toList, []] ArgumentFormat.VERB_PARAM_SWITCH).2 =
      Result.returned true ∧
    (get_verb (parse (new false true) ["tool".toList, []]
      ArgumentFormat.VERB_PARAM_SWITCH).1 []).2 = Result.threw msg_verb_missing ∧
    (get_verb (parse (new false true) ["tool".toList, []]
      ArgumentFormat.VERB_PARAM_SWITCH).1 []).2 ≠ Result.returned [] := by
  decide

/-! ## A failed parse leaves nothing behind -/

/-- C4 (amended). Whenever `parse` fails (returns false or throws), for every token
list, format, parse policy and earlier state, the instance is left with an empty
verb and an empty map: `is_present(n)` is false for every non-empty `n`, and
`get_verb(d)` returns `d`, except that `get_verb("")` throws the missing-verb
message on an instance that throws on conversion errors. -/
theorem C4_failed_parse_clears_state (s : ArgumentParser) (argv : List Str)
    (format : ArgumentFormat) (hfail : Failed (parse s argv format).2) :
    (parse s argv format).1._verb = [] ∧
    (parse s argv format).1._argument = [] ∧
    (∀ n, n ≠ [] → (is_present (parse s argv format).1 n).2 = false) ∧
    (∀ d, (get_verb (parse s argv format).1 d).2 =
      (if d = [] ∧ s._throw_on_conversion_error = true
       then Result.threw msg_verb_missing else Result.returned d)) := by
  have hne := failed_ne_true _ hfail
  obtain ⟨_, _, _, htce, hshape⟩ := parse_frame s argv format
  rcases hshape with h | ⟨hverb, hmap, _⟩
  · exact absurd h hne
  · refine ⟨hverb, hmap, ?_, ?_⟩
    · intro n hn
      have h := is_present_iff (parse s argv format).1 n
      rw [hmap, hverb] at h
      simp only [find, Option.isSome_none, Bool.false_eq_true, false_or] at h
      cases hp : (is_present (parse s argv format).1 n).2 with
      | false => rfl
      | true => exact absurd (h.1 hp) hn
    · intro d
      by_cases hd : d = []
      · subst hd
        rw [get_verb_missing _ hverb, htce]
        by_cases ht : s._throw_on_conversion_error = true <;> simp [ht]
      · rw [get_verb_of_default _ d hverb hd]
        simp [hd]

/-- Witness for C4 on `tool -switch value1 value2` under PARAM_SWITCH, from a state
that already holds a verb and a switch: the parse fails after accepting `-switch`,
and the verb and the map are empty afterwards. -/
theorem C4_failed_parse_clears_state_witness :
    Failed (parse
      { _verb := "old".toList, _error_message := [], _conversion_error := false,
        _throw_on_parse_error := false, _throw_on_conversion_error := false,
        _argument := [("k".toList, "v".toList)] }
      ["tool".toList, "-switch".toList, "value1".toList, "value2".toList]
      ArgumentFormat.PARAM_SWITCH).2 ∧
    (parse
      { _verb := "old".toList, _error_message := [], _conversion_error := false,
        _throw_on_parse_error := false, _throw_on_conversion_error := false,
        _argument := [("k".toList, "v".toList)] }
      ["tool".toList, "-switch".toList, "value1".toList, "value2".toList]
      ArgumentFormat.PARAM_SWITCH).1._argument = [] :=
  ⟨Or.inl (by decide),
    (C4_failed_parse_clears_state _ _ _ (Or.inl (by decide))).2.1⟩

/-- Counterexample to C4 as stated: `tool value` fails under PARAM_SWITCH, and on an
instance that throws on conversion errors `get_verb("")` then throws instead of
returning the default. -/
theorem C4_counterexample_get_verb_throws :
    (parse (new false true) ["tool".toList, "value".toList]
      ArgumentFormat.PARAM_SWITCH).2 = Result.returned false ∧
    (get_verb (parse (new false true) ["tool".toList, "value".toList]
      ArgumentFormat.PARAM_SWITCH).1 []).2 = Result.threw msg_verb_missing ∧
    (get_verb (parse (new false true) ["tool".toList, "value".toList]
      ArgumentFormat.PARAM_SWITCH).1 []).2 ≠ Result.returned [] := by
  decide

/-! ## A second parse forgets the first -/

/-- C5. The result of `parse(tokens2, format2)` (the whole state: verb, map, error
flag, error message, policy flags; and the outcome) on an instance that has gone
through `parse(tokens1, format1)` and then through any calls that keep the two
policy flags (every accessor does) is the result of the same call on a freshly
constructed instance with the same flags, whether or not the first parse failed. -/
theorem C5_second_parse_forgets_first (s : ArgumentParser) (argv1 argv2 : List Str)
    (format1 format2 : ArgumentFormat) (between : ArgumentParser → ArgumentParser)
    (hflags : ∀ t, (between t)._throw_on_parse_error = t._throw_on_parse_error ∧
      (between t)._throw_on_conversion_error = t._throw_on_conversion_error) :
    parse (between (parse s argv1 format1).1) argv2 format2 =
      parse (new s._throw_on_parse_error s._throw_on_conversion_error) argv2 format2 := by
  obtain ⟨_, _, h1, h2, _⟩ := parse_frame s argv1 format1
  apply parse_only_flags
  · rw [(hflags _).1, h1]; rfl
  · rw [(hflags _).2, h2]; rfl

/-- Witness for C5: a failed parse of `tool -x 1 -x 2`, then `get_as_string("x")` and
`get_verb()`, then a parse of `tool verb -a 1` under VERB_PARAM_SWITCH. -/
theorem C5_second_parse_forgets_first_witness :
    (∀ t, ((fun u => (get_verb (get_as_string u "x".toList).1 []).1) t)._throw_on_parse_error =
        t._throw_on_parse_error ∧
      ((fun u => (get_verb (get_as_string u "x".toList).1 []).1) t)._throw_on_conversion_error =
        t._throw_on_conversion_error) ∧
    parse ((fun u => (get_verb (get_as_string u "x".toList).1 []).1)
        (parse (new false false)
          ["tool".toList, "-x".toList, "1".toList, "-x".toList, "2".toList]
          ArgumentFormat.PARAM_SWITCH).1)
      ["tool".toList, "verb".toList, "-a".toList, "1".toList]
      ArgumentFormat.VERB_PARAM_SWITCH =
    parse (new false false) ["tool".toList, "verb".toList, "-a".toList, "1".toList]
      ArgumentFormat.VERB_PARAM_SWITCH :=
  ⟨fun t => ⟨by rw [(get_verb_flags _ _).1, (get_as_string_flags _ _).1],
             by rw [(get_verb_flags _ _).2, (get_as_string_flags _ _).2]⟩,
    C5_second_parse_forgets_first (new false false) _ _ _ _
      (fun u => (get_verb (get_as_string u "x".toList).1 []).1)
      (fun t => ⟨by rw [(get_verb_flags _ _).1, (get_as_string_flags _ _).1],
                 by rw [(get_verb_flags _ _).2, (get_as_string_flags _ _).2]⟩)⟩

/-! ## Repeated switches -/

/-- The loop on `-x v1 -x v2`, started with an empty map. -/
theorem parse_dup_loop (s : ArgumentParser) (x v1 v2 : Str) (hx : x ≠ []) (hx2 : x ≠ ['-'])
    (hv1 : is_switch v1 = false) (hs : s._argument = []) :
    parse_loop s ['-' :: x, v1, '-' :: x, v2] =
      ({ s with _verb := [], _argument := [] },
        if s._throw_on_parse_error then Result.threw (msg_present_multiple_times ('-' :: x))
        else Result.returned false) := by
  have hsw : is_switch ('-' :: x) = true := by
    cases x with
    | nil => exact absurd rfl hx
    | cons c r => simp [is_switch]
  have hne : ¬ (get_stripped_switch_name ('-' :: x)).isEmpty = true := by
    rw [stripped_isEmpty_iff _ hsw]
    intro h
    simp [dashdash] at h
    exact hx2 h
  rw [parse_loop_cons]
  simp only [hsw, hne, hs, find, if_true, if_false, Bool.false_eq_true, Option.isSome_none,
    next_value, next_rest, hv1]
  rw [parse_loop_cons]
  simp only [hsw, hne, if_true, if_false, Bool.false_eq_true, find_set_self,
    Option.isSome_some]
  apply Prod.ext
  · rw [parse_fail_fst]
  · rw [parse_fail_snd]

/-- C6 (amended). For every `x` that is neither empty nor `-`, every value `v1` that
is not switch-shaped and every `v2`: under PARAM_SWITCH the tokens `-x v1 -x v2` fail at
the repeated-switch check (the call returns false, or throws the
present-multiple-times message); under VERB_PARAM_SWITCH the same happens when a
verb that is not switch-shaped stands in front, whereas the tokens `-x v1 -x v2`
themselves fail at the verb check (the call returns false, or throws the
not-a-verb message). -/
theorem C6_repeated_switch_fails (s : ArgumentParser) (prog verb x v1 v2 : Str)
    (hx : x ≠ []) (hx2 : x ≠ ['-'])
    (hv1 : is_switch v1 = false) (hverb : is_switch verb = false) :
    (parse s [prog, '-' :: x, v1, '-' :: x, v2] ArgumentFormat.PARAM_SWITCH).2 =
      (if s._throw_on_parse_error then Result.threw (msg_present_multiple_times ('-' :: x))
       else Result.returned false) ∧
    (parse s [prog, verb, '-' :: x, v1, '-' :: x, v2] ArgumentFormat.VERB_PARAM_SWITCH).2 =
      (if s._throw_on_parse_error then Result.threw (msg_present_multiple_times ('-' :: x))
       else Result.returned false) ∧
    (parse s [prog, '-' :: x, v1, '-' :: x, v2] ArgumentFormat.VERB_PARAM_SWITCH).2 =
      (if s._throw_on_parse_error then Result.threw (msg_not_a_verb ('-' :: x))
       else Result.returned false) := by
  have hsw : is_switch ('-' :: x) = true := by
    cases x with
    | nil => exact absurd rfl hx
    | cons c r => simp [is_switch]
  refine ⟨?_, ?_, ?_⟩
  · rw [parse_param_switch]
    simp only [List.drop_one, List.tail_cons]
    rw [parse_dup_loop _ x v1 v2 hx hx2 hv1 rfl]
  · rw [parse_verb_taken s prog verb _ hverb]
    rw [parse_dup_loop _ x v1 v2 hx hx2 hv1 rfl]
  · rw [parse_verb_refused s prog _ _ hsw]

/-- Witness for C6 on `x`, `1`, `2` and the verb `verb`, on a throwing instance:
`tool -x 1 -x 2` throws the present-multiple-times message under PARAM_SWITCH. -/
theorem C6_repeated_switch_fails_witness :
    ("x".toList ≠ [] ∧ "x".toList ≠ ['-'] ∧ is_switch "1".toList = false ∧
      is_switch "verb".toList = false) ∧
    (parse (new true false)
      ["tool".toList, "-x".toList, "1".toList, "-x".toList, "2".toList]
      ArgumentFormat.PARAM_SWITCH).2 =
        Result.threw (msg_present_multiple_times "-x".toList) :=
  ⟨by decide,
    (C6_repeated_switch_fails (new true false) "tool".toList "verb".toList "x".toList
      "1".toList "2".toList (by decide) (by decide) (by decide) (by decide)).1⟩

/-- Counterexample to C6 as stated: under VERB_PARAM_SWITCH the tokens `-x 1 -x 2`
fail at the verb check, not at the repeated-switch check: a throwing instance throws
the not-a-verb message, which is not the present-multiple-times message. -/
theorem C6_counterexample_verb_format :
    is_switch "1".toList = false ∧ is_switch "2".toList = false ∧
    (parse (new true false)
      ["tool".toList, "-x".toList, "1".toList, "-x".toList, "2".toList]
      ArgumentFormat.VERB_PARAM_SWITCH).2 = Result.threw (msg_not_a_verb "-x".toList) ∧
    (parse (new true false)
      ["tool".toList, "-x".toList, "1".toList, "-x".toList, "2".toList]
      ArgumentFormat.VERB_PARAM_SWITCH).2 ≠
        Result.threw (msg_present_multiple_times "-x".toList) := by
  decide

/-! ## The two parse policies -/

theorem parse_loop_verb_congr (toks : List Str) (a b : ArgumentParser)
    (hv : a._verb = b._verb) (hm : a._argument = b._argument) :
    (parse_loop a toks).1._verb = (parse_loop b toks).1._verb := by
  have hiff := (parse_loop_congr toks b a hm).2
  rcases (parse_loop_frame toks a).2.2.2.2 with ha | ⟨ha, _, ha2⟩
  · rcases (parse_loop_frame toks b).2.2.2.2 with hb | ⟨_, _, ⟨_, m, hb⟩ | ⟨_, hb⟩⟩
    · rw [ha.2, hb.2, hv]
    · have := hiff.1 ha.1
      rw [hb] at this
      exact Result.noConfusion this
    · have := hiff.1 ha.1
      rw [hb] at this
      simp at this
  · rcases (parse_loop_frame toks b).2.2.2.2 with hb | ⟨hb, _, _⟩
    · have hat := hiff.2 hb.1
      rcases ha2 with ⟨_, m, h⟩ | ⟨_, h⟩
      · rw [h] at hat
        exact Result.noConfusion hat
      · rw [h] at hat
        simp at hat
    · rw [ha, hb]

/-- Two instances given the same input accept in the same cases and end with the
same verb and the same map, whatever they held before and whatever their policies. -/
theorem parse_congr (s t : ArgumentParser) (argv : List Str) (format : ArgumentFormat) :
    ((parse s argv format).2 = Result.returned true ↔
      (parse t argv format).2 = Result.returned true) ∧
    (parse s argv format).1._verb = (parse t argv format).1._verb ∧
    (parse s argv format).1._argument = (parse t argv format).1._argument := by
  have hloop : ∀ (v : Str) (toks : List Str),
      ((parse_loop
          { s with _verb := v, _argument := [], _error_message := [],
                   _conversion_error := false } toks).2 = Result.returned true ↔
        (parse_loop
          { t with _verb := v, _argument := [], _error_message := [],
                   _conversion_error := false } toks).2 = Result.returned true) ∧
      (parse_loop
          { s with _verb := v, _argument := [], _error_message := [],
                   _conversion_error := false } toks).1._verb =
        (parse_loop
          { t with _verb := v, _argument := [], _error_message := [],
                   _conversion_error := false } toks).1._verb ∧
      (parse_loop
          { s with _verb := v, _argument := [], _error_message := [],
                   _conversion_error := false } toks).1._argument =
        (parse_loop
          { t with _verb := v, _argument := [], _error_message := [],
                   _conversion_error := false } toks).1._argument := by
    intro v toks
    have h := parse_loop_congr toks
      { t with _verb := v, _argument := [], _error_message := [], _conversion_error := false }
      { s with _verb := v, _argument := [], _error_message := [], _conversion_error := false }
      rfl
    exact ⟨h.2, parse_loop_verb_congr toks _ _ rfl rfl, h.1⟩
  cases format with
  | PARAM_SWITCH => exact hloop [] (argv.drop 1)
  | VERB_PARAM_SWITCH =>
    match argv with
    | [] => exact hloop [] []
    | [_] => exact hloop [] []
    | prog :: first :: rest =>
      by_cases hf : is_switch first = true
      · rw [parse_verb_refused s prog first rest hf, parse_verb_refused t prog first rest hf]
        refine ⟨?_, rfl, rfl⟩
        by_cases hs : s._throw_on_parse_error = true <;>
          by_cases ht : t._throw_on_parse_error = true <;> simp [hs, ht]
      · rw [Bool.not_eq_true] at hf
        rw [parse_verb_taken s prog first rest hf, parse_verb_taken t prog first rest hf]
        exact hloop first rest

/-- C7. For every token list and format, an instance built with
`throw_on_parse_error = true` throws from `parse` exactly when an instance built with
`throw_on_parse_error = false` returns false; the one returns true exactly when the
other does; the throwing instance never returns false and the other never throws;
and in every case both end with the same verb and the same map. -/
theorem C7_throwing_parse_matches_returning_parse (s1 s2 : ArgumentParser)
    (argv : List Str) (format : ArgumentFormat)
    (h1 : s1._throw_on_parse_error = true) (h2 : s2._throw_on_parse_error = false) :
    ((∃ msg, (parse s1 argv format).2 = Result.threw msg) ↔
      (parse s2 argv format).2 = Result.returned false) ∧
    ((parse s1 argv format).2 = Result.returned true ↔
      (parse s2 argv format).2 = Result.returned true) ∧
    ((parse s1 argv format).2 = Result.returned true ∨
      ∃ msg, (parse s1 argv format).2 = Result.threw msg) ∧
    ((parse s2 argv format).2 = Result.returned true ∨
      (parse s2 argv format).2 = Result.returned false) ∧
    (parse s1 argv format).1._verb = (parse s2 argv format).1._verb ∧
    (parse s1 argv format).1._argument = (parse s2 argv format).1._argument := by
  obtain ⟨hiff, hverb, hmap⟩ := parse_congr s1 s2 argv format
  have hA : (parse s1 argv format).2 = Result.returned true ∨
      ∃ msg, (parse s1 argv format).2 = Result.threw msg := by
    rcases (parse_frame s1 argv format).2.2.2.2 with h | ⟨_, _, ⟨_, m, h⟩ | ⟨hf, _⟩⟩
    · exact Or.inl h
    · exact Or.inr ⟨m, h⟩
    · rw [h1] at hf
      exact Bool.noConfusion hf
  have hB : (parse s2 argv format).2 = Result.returned true ∨
      (parse s2 argv format).2 = Result.returned false := by
    rcases (parse_frame s2 argv format).2.2.2.2 with h | ⟨_, _, ⟨hf, _⟩ | ⟨_, h⟩⟩
    · exact Or.inl h
    · rw [h2] at hf
      exact Bool.noConfusion hf
    · exact Or.inr h
  refine ⟨?_, hiff, hA, hB, hverb, hmap⟩
  constructor
  · rintro ⟨m, hm⟩
    rcases hB with hb | hb
    · have := hiff.2 hb
      rw [hm] at this
      exact Result.noConfusion this
    · exact hb
  · intro hb
    rcases hA with ha | ha
    · have := hiff.1 ha
      rw [hb] at this
      simp at this
    · exact ha

/-- Witness for C7 on `tool -switch value1 value2` under VERB_PARAM_SWITCH: the
throwing instance throws and the other returns false. -/
theorem C7_throwing_parse_matches_returning_parse_witness :
    ((new true false)._throw_on_parse_error = true ∧
      (new false false)._throw_on_parse_error = false) ∧
    ((∃ msg, (parse (new true false)
        ["tool".toList, "-switch".toList, "value1".toList, "value2".toList]
        ArgumentFormat.VERB_PARAM_SWITCH).2 = Result.threw msg) ↔
      (parse (new false false)
        ["tool".toList, "-switch".toList, "value1".toList, "value2".toList]
        ArgumentFormat.VERB_PARAM_SWITCH).2 = Result.returned false) :=
  ⟨⟨rfl, rfl⟩,
    (C7_throwing_parse_matches_returning_parse (new true false) (new false false)
      ["tool".toList, "-switch".toList, "value1".toList, "value2".toList]
      ArgumentFormat.VERB_PARAM_SWITCH rfl rfl).1⟩

/-! ## The accessors -/

theorem find_isSome_iff_mem_keys (m : ArgMap) (name : Str) :
    (find m name).isSome = true ↔ name ∈ keys m := by
  induction m with
  | nil => simp [find, keys]
  | cons p m ih =>
    obtain ⟨k, v⟩ := p
    by_cases h : k = name
    · simp [find, keys, h]
    · have h2 : ¬ name = k := fun e => h e.symm
      simp only [find, h, if_false, ih]
      simp [keys, h2]

/-- C8. For every instance state and every name, `is_present(name)` is true exactly
when the name is a key of the map or equals the stored verb; the call hands back the
state it was given. -/
theorem C8_is_present_iff_key_or_verb (s : ArgumentParser) (name : Str) :
    ((is_present s name).2 = true ↔ name ∈ keys s._argument ∨ name = s._verb) ∧
    (is_present s name).1 = s := by
  refine ⟨?_, rfl⟩
  rw [is_present_iff, find_isSome_iff_mem_keys]

/-- C9 (amended). For every instance state and default `d`: when the stored verb is
not empty, `get_verb(d)` returns it and leaves `error()` false; otherwise `error()`
is true afterwards exactly when `d` is empty (with the missing-verb message), and
the call returns `d`, except that with `d` empty on an instance that throws on
conversion errors it throws the missing-verb message instead of returning. -/
theorem C9_get_verb_result (s : ArgumentParser) (d : Str) :
    (s._verb ≠ [] →
      (get_verb s d).2 = Result.returned s._verb ∧ error (get_verb s d).1 = false) ∧
    (s._verb = [] →
      (error (get_verb s d).1 = true ↔ d = []) ∧
      (d = [] → get_error_message (get_verb s d).1 = msg_verb_missing) ∧
      (get_verb s d).2 =
        (if d = [] ∧ s._throw_on_conversion_error = true
         then Result.threw msg_verb_missing else Result.returned d)) := by
  constructor
  · intro h
    rw [get_verb_of_verb s d h]
    exact ⟨rfl, rfl⟩
  · intro h
    by_cases hd : d = []
    · subst hd
      rw [get_verb_missing s h]
      refine ⟨by simp [error], fun _ => rfl, ?_⟩
      by_cases ht : s._throw_on_conversion_error = true <;> simp [ht]
    · rw [get_verb_of_default s d h hd]
      refine ⟨by simp [error, hd], fun e => absurd e hd, by simp [hd]⟩

/-- Witness for C9 after parsing `tool verb` under VERB_PARAM_SWITCH: the verb is
not empty and `get_verb("default")` returns `verb`. -/
theorem C9_get_verb_result_witness :
    (parse (new true false) ["tool".toList, "verb".toList]
      ArgumentFormat.VERB_PARAM_SWITCH).1._verb ≠ [] ∧
    (get_verb (parse (new true false) ["tool".toList, "verb".toList]
      ArgumentFormat.VERB_PARAM_SWITCH).1 "default".toList).2 =
        Result.returned "verb".toList :=
  ⟨by decide,
    ((C9_get_verb_result (parse (new true false) ["tool".toList, "verb".toList]
      ArgumentFormat.VERB_PARAM_SWITCH).1 "default".toList).1 (by decide)).1⟩

/-- Counterexample to C9 as stated: after parsing `tool` under VERB_PARAM_SWITCH on an
instance that throws on conversion errors, no verb is stored and `get_verb("")`
throws instead of returning the (empty) default; `error()` is true afterwards. -/
theorem C9_counterexample_get_verb_throws :
    (parse (new true true) ["tool".toList] ArgumentFormat.VERB_PARAM_SWITCH).1._verb = [] ∧
    (get_verb (parse (new true true) ["tool".toList]
      ArgumentFormat.VERB_PARAM_SWITCH).1 []).2 = Result.threw msg_verb_missing ∧
    (get_verb (parse (new true true) ["tool".toList]
      ArgumentFormat.VERB_PARAM_SWITCH).1 []).2 ≠ Result.returned [] ∧
    error (get_verb (parse (new true true) ["tool".toList]
      ArgumentFormat.VERB_PARAM_SWITCH).1 []).1 = true := by
  decide

theorem get_as_string_default_eq (s : ArgumentParser) (name d : Str) :
    get_as_string_default s name d =
      ({ s with _error_message := [], _conversion_error := false },
        Result.returned ((find s._argument name).getD d)) := by
  cases h : find s._argument name <;> simp [get_as_string_default, h]

/-- C10 (amended). For every instance state, name and default `d`: when the name is a
key of the map, `get_as_string(name)` and `get_as_string(name, d)` both return the
stored value and leave `error()` false. When it is not a key, `get_as_string(name)`
leaves `error()` true with the message that names the argument, and returns the
empty string, or throws that message on an instance that throws on conversion
errors; `get_as_string(name, d)` returns `d` with `error()` false. The defaulted
form never sets the error flag and never throws, under either policy. -/
theorem C10_get_as_string_result (s : ArgumentParser) (name d : Str) :
    (name ∈ keys s._argument →
      ∃ v, find s._argument name = some v ∧
        (get_as_string s name).2 = Result.returned v ∧
        error (get_as_string s name).1 = false ∧
        (get_as_string_default s name d).2 = Result.returned v ∧
        error (get_as_string_default s name d).1 = false) ∧
    (name ∉ keys s._argument →
      error (get_as_string s name).1 = true ∧
      get_error_message (get_as_string s name).1 =
        "Argument '".toList ++ name ++ "' is required but is not present.".toList ∧
      (get_as_string s name).2 =
        (if s._throw_on_conversion_error = true
         then Result.threw (msg_required_not_present name) else Result.returned []) ∧
      (get_as_string_default s name d).2 = Result.returned d ∧
      error (get_as_string_default s name d).1 = false) ∧
    (error (get_as_string_default s name d).1 = false ∧
      ∀ m, (get_as_string_default s name d).2 ≠ Result.threw m) := by
  refine ⟨?_, ?_, ?_⟩
  · intro hkey
    rw [← find_isSome_iff_mem_keys] at hkey
    obtain ⟨v, hv⟩ := Option.isSome_iff_exists.1 hkey
    refine ⟨v, hv, ?_⟩
    rw [get_as_string_of_find s name v hv, get_as_string_default_eq, hv]
    exact ⟨rfl, rfl, rfl, rfl⟩
  · intro hkey
    rw [← find_isSome_iff_mem_keys] at hkey
    have hnone : find s._argument name = none := by simpa using hkey
    rw [get_as_string_missing s name hnone, get_as_string_default_eq, hnone]
    exact ⟨rfl, rfl, rfl, rfl, rfl⟩
  · rw [get_as_string_default_eq]
    exact ⟨rfl, fun m h => Result.noConfusion h⟩

/-- Witness for C10 after parsing `tool -s1 test -s2` under PARAM_SWITCH: `sx` is not
a key, and `get_as_string("sx")` on the non-throwing instance returns the empty
string with `error()` true. -/
theorem C10_get_as_string_result_witness :
    "sx".toList ∉ keys (parse (new true false)
      ["tool".toList, "-s1".toList, "test".toList, "-s2".toList]
      ArgumentFormat.PARAM_SWITCH).1._argument ∧
    error (get_as_string (parse (new true false)
      ["tool".toList, "-s1".toList, "test".toList, "-s2".toList]
      ArgumentFormat.PARAM_SWITCH).1 "sx".toList).1 = true ∧
    (get_as_string (parse (new true false)
      ["tool".toList, "-s1".toList, "test".toList, "-s2".toList]
      ArgumentFormat.PARAM_SWITCH).1 "sx".toList).2 = Result.returned [] :=
  ⟨by decide,
    ((C10_get_as_string_result (parse (new true false)
      ["tool".toList, "-s1".toList, "test".toList, "-s2".toList]
      ArgumentFormat.PARAM_SWITCH).1 "sx".toList []).2.1 (by decide)).1,
    ((C10_get_as_string_result (parse (new true false)
      ["tool".toList, "-s1".toList, "test".toList, "-s2".toList]
      ArgumentFormat.PARAM_SWITCH).1 "sx".toList []).2.1 (by decide)).2.2.1⟩

/-- Counterexample to C10 as stated: after parsing `tool -s1 test -s2 test -s3` on an
instance that throws on conversion errors, `sx` is not a key and
`get_as_string("sx")` throws instead of returning the empty string; `error()` is
true afterwards. -/
theorem C10_counterexample_get_as_string_throws :
    "sx".toList ∉ keys (parse (new true true)
      ["tool".toList, "-s1".toList, "test".toList, "-s2".toList, "test".toList,
        "-s3".toList] ArgumentFormat.PARAM_SWITCH).1._argument ∧
    (get_as_string (parse (new true true)
      ["tool".toList, "-s1".toList, "test".toList, "-s2".toList, "test".toList,
        "-s3".toList] ArgumentFormat.PARAM_SWITCH).1 "sx".toList).2 =
      Result.threw (msg_required_not_present "sx".toList) ∧
    (get_as_string (parse (new true true)
      ["tool".toList, "-s1".toList, "test".toList, "-s2".toList, "test".toList,
        "-s3".toList] ArgumentFormat.PARAM_SWITCH).1 "sx".toList).2 ≠ Result.returned [] ∧
    error (get_as_string (parse (new true true)
      ["tool".toList, "-s1".toList, "test".toList, "-s2".toList, "test".toList,
        "-s3".toList] ArgumentFormat.PARAM_SWITCH).1 "sx".toList).1 = true := by
  decide

/-! ## Boolean conversion -/

theorem case_independent_compare_loop_iff (s1 s2 : Str) (h : s1.length = s2.length) :
    case_independent_compare_loop s1 s2 = true ↔ s1.map tolower = s2 := by
  induction s1 generalizing s2 with
  | nil =>
    cases s2 with
    | nil => simp [case_independent_compare_loop]
    | cons c cs => simp at h
  | cons ch s1 ih =>
    cases s2 with
    | nil => simp at h
    | cons c2 s2 =>
      simp only [List.length_cons, Nat.add_right_cancel_iff] at h
      by_cases hc : c2 = tolower ch
      · simp [case_independent_compare_loop, hc, ih s2 h]
      · have hc2 : ¬ tolower ch = c2 := fun e => hc e.symm
        simp [case_independent_compare_loop, hc, hc2]

theorem case_independent_compare_iff (s1 s2 : Str) :
    case_independent_compare s1 s2 = true ↔ s1.map tolower = s2 := by
  by_cases h : s1.length = s2.length
  · simp only [case_independent_compare, h, ne_eq, not_true_eq_false, if_false]
    exact case_independent_compare_loop_iff s1 s2 h
  · simp only [case_independent_compare, h, ne_eq, not_false_eq_true, if_true]
    constructor
    · intro hf
      exact Bool.noConfusion hf
    · intro he
      exact absurd (by rw [← he, List.length_map]) h

/-- Every pair of the letter table is an upper-case ASCII letter with the character
thirty-two code points above it. -/
theorem ascii_letter_pairs_sound :
    ∀ p ∈ ascii_letter_pairs,
      65 ≤ p.1.toNat ∧ p.1.toNat ≤ 90 ∧ p.2 = Char.ofNat (p.1.toNat + 32) := by
  decide

/-- Every upper-case ASCII letter is in the letter table with its lower-case letter. -/
theorem ascii_letter_pairs_complete (n : Nat) (h1 : 65 ≤ n) (h2 : n ≤ 90) :
    (Char.ofNat n, Char.ofNat (n + 32)) ∈ ascii_letter_pairs := by
  interval_cases n <;> decide

/-- Against a character that is no upper-case letter, `std::tolower` decides
equality up to letter case. -/
theorem same_ignoring_case_iff (a b : Char) (hb : ¬ (65 ≤ b.toNat ∧ b.toNat ≤ 90)) :
    same_ignoring_case a b = true ↔ tolower a = b := by
  have hs : same_ignoring_case a b = true ↔
      a = b ∨ (a, b) ∈ ascii_letter_pairs ∨ (b, a) ∈ ascii_letter_pairs := by
    simp [same_ignoring_case, or_assoc]
  rw [hs]
  constructor
  · rintro (h | h | h)
    · subst h
      simp only [tolower, if_neg hb]
    · obtain ⟨h1, h2, h3⟩ := ascii_letter_pairs_sound _ h
      simp only [tolower, if_pos (And.intro h1 h2)]
      exact h3.symm
    · obtain ⟨h1, h2, _⟩ := ascii_letter_pairs_sound _ h
      exact absurd ⟨h1, h2⟩ hb
  · intro h
    by_cases ha : 65 ≤ a.toNat ∧ a.toNat ≤ 90
    · simp only [tolower, if_pos ha] at h
      refine Or.inr (Or.inl ?_)
      have := ascii_letter_pairs_complete a.toNat ha.1 ha.2
      rw [h, Char.ofNat_toNat] at this
      exact this
    · simp only [tolower, if_neg ha] at h
      exact Or.inl h

/-- Against a string without upper-case letters, lowering the other string and
comparing is equality up to letter case. -/
theorem eq_ignoring_case_iff (v w : Str) (hw : ∀ c ∈ w, ¬ (65 ≤ c.toNat ∧ c.toNat ≤ 90)) :
    eq_ignoring_case v w = true ↔ v.map tolower = w := by
  induction v generalizing w with
  | nil =>
    cases w with
    | nil => simp [eq_ignoring_case]
    | cons b w => simp [eq_ignoring_case]
  | cons a v ih =>
    cases w with
    | nil => simp [eq_ignoring_case]
    | cons b w =>
      have hb := hw b (List.mem_cons_self b w)
      have hw2 : ∀ c ∈ w, ¬ (65 ≤ c.toNat ∧ c.toNat ≤ 90) :=
        fun c hc => hw c (List.mem_cons_of_mem b hc)
      simp only [eq_ignoring_case, Bool.and_eq_true, List.map_cons, List.cons.injEq,
        same_ignoring_case_iff a b hb, ih w hw2]

/-- The boolean words have no upper-case letter. -/
theorem bool_words_lower :
    ∀ w ∈ true_words ++ false_words, ∀ c ∈ w, ¬ (65 ≤ c.toNat ∧ c.toNat ≤ 90) := by
  decide

theorem bool_is_true_iff (v : Str) : bool_is_true v = true ↔ TrueText v := by
  have hw : ∀ w ∈ true_words, ∀ c ∈ w, ¬ (65 ≤ c.toNat ∧ c.toNat ≤ 90) :=
    fun w h => bool_words_lower w (List.mem_append_left _ h)
  simp only [bool_is_true, Bool.or_eq_true, decide_eq_true_eq, compare_eq_zero_iff,
    case_independent_compare_iff, TrueText]
  constructor
  · rintro (((((h | h) | h) | h) | h) | h)
    · exact Or.inl h
    · exact Or.inr ⟨"t".toList, by decide,
        (eq_ignoring_case_iff v _ (hw _ (by decide))).2 h⟩
    · exact Or.inr ⟨"y".toList, by decide,
        (eq_ignoring_case_iff v _ (hw _ (by decide))).2 h⟩
    · exact Or.inr ⟨"true".toList, by decide,
        (eq_ignoring_case_iff v _ (hw _ (by decide))).2 h⟩
    · exact Or.inr ⟨"yes".toList, by decide,
        (eq_ignoring_case_iff v _ (hw _ (by decide))).2 h⟩
    · exact Or.inr ⟨"on".toList, by decide,
        (eq_ignoring_case_iff v _ (hw _ (by decide))).2 h⟩
  · rintro (h | ⟨w, hmem, h⟩)
    · exact Or.inl (Or.inl (Or.inl (Or.inl (Or.inl h))))
    · rw [eq_ignoring_case_iff v w (hw w hmem)] at h
      simp only [true_words, List.mem_cons, List.mem_singleton, List.not_mem_nil,
        or_false] at hmem
      rcases hmem with rfl | rfl | rfl | rfl | rfl
      · exact Or.inl (Or.inl (Or.inl (Or.inl (Or.inr h))))
      · exact Or.inl (Or.inl (Or.inl (Or.inr h)))
      · exact Or.inl (Or.inl (Or.inr h))
      · exact Or.inl (Or.inr h)
      · exact Or.inr h

theorem bool_is_false_iff (v : Str) : bool_is_false v = true ↔ FalseText v := by
  have hw : ∀ w ∈ false_words, ∀ c ∈ w, ¬ (65 ≤ c.toNat ∧ c.toNat ≤ 90) :=
    fun w h => bool_words_lower w (List.mem_append_right _ h)
  simp only [bool_is_false, Bool.or_eq_true, decide_eq_true_eq, compare_eq_zero_iff,
    case_independent_compare_iff, FalseText]
  constructor
  · rintro (((((h | h) | h) | h) | h) | h)
    · exact Or.inl h
    · exact Or.inr ⟨"f".toList, by decide,
        (eq_ignoring_case_iff v _ (hw _ (by decide))).2 h⟩
    · exact Or.inr ⟨"n".toList, by decide,
        (eq_ignoring_case_iff v _ (hw _ (by decide))).2 h⟩
    · exact Or.inr ⟨"false".toList, by decide,
        (eq_ignoring_case_iff v _ (hw _ (by decide))).2 h⟩
    · exact Or.inr ⟨"no".toList, by decide,
        (eq_ignoring_case_iff v _ (hw _ (by decide))).2 h⟩
    · exact Or.inr ⟨"off".toList, by decide,
        (eq_ignoring_case_iff v _ (hw _ (by decide))).2 h⟩
  · rintro (h | ⟨w, hmem, h⟩)
    · exact Or.inl (Or.inl (Or.inl (Or.inl (Or.inl h))))
    · rw [eq_ignoring_case_iff v w (hw w hmem)] at h
      simp only [false_words, List.mem_cons, List.mem_singleton, List.not_mem_nil,
        or_false] at hmem
      rcases hmem with rfl | rfl | rfl | rfl | rfl
      · exact Or.inl (Or.inl (Or.inl (Or.inl (Or.inr h))))
      · exact Or.inl (Or.inl (Or.inl (Or.inr h)))
      · exact Or.inl (Or.inl (Or.inr h))
      · exact Or.inl (Or.inr h)
      · exact Or.inr h

/-- No value is both a true text and a false text. -/
theorem true_text_not_false_text (v : Str) (ht : TrueText v) : ¬ FalseText v := by
  have h1 : v.map tolower ∈
      ["1".toList, "t".toList, "y".toList, "true".toList, "yes".toList, "on".toList] := by
    rcases ht with h | ⟨w, hmem, h⟩
    · rw [h]; decide
    · rw [eq_ignoring_case_iff v w
        (bool_words_lower w (List.mem_append_left _ hmem))] at h
      rw [h]
      simp only [true_words, List.mem_cons, List.mem_singleton, List.not_mem_nil,
        or_false] at hmem ⊢
      exact Or.inr hmem
  intro hf
  have h2 : v.map tolower ∈
      ["0".toList, "f".toList, "n".toList, "false".toList, "no".toList, "off".toList] := by
    rcases hf with h | ⟨w, hmem, h⟩
    · rw [h]; decide
    · rw [eq_ignoring_case_iff v w
        (bool_words_lower w (List.mem_append_right _ hmem))] at h
      rw [h]
      simp only [false_words, List.mem_cons, List.mem_singleton, List.not_mem_nil,
        or_false] at hmem ⊢
      exact Or.inr hmem
  have hdisj : ∀ x ∈
      ["1".toList, "t".toList, "y".toList, "true".toList, "yes".toList, "on".toList],
      x ∉ ["0".toList, "f".toList, "n".toList, "false".toList, "no".toList, "off".toList] := by
    decide
  exact hdisj _ h1 h2

theorem parse_bool_value_true (s : ArgumentParser) (name v : Str) (h : bool_is_true v = true) :
    parse_bool_value s name v = (s, Result.returned true) := by
  simp [parse_bool_value, h]

theorem parse_bool_value_false (s : ArgumentParser) (name v : Str)
    (h : bool_is_true v = false) (h2 : bool_is_false v = true) :
    parse_bool_value s name v = (s, Result.returned false) := by
  simp [parse_bool_value, h, h2]

theorem parse_bool_value_bad (s : ArgumentParser) (name v : Str)
    (h : bool_is_true v = false) (h2 : bool_is_false v = false) :
    parse_bool_value s name v =
      ({ s with _error_message := msg_not_a_boolean name v, _conversion_error := true },
        if s._throw_on_conversion_error then Result.threw (msg_not_a_boolean name v)
        else Result.returned false) := by
  by_cases ht : s._throw_on_conversion_error = true <;>
    simp [parse_bool_value, h, h2, handle_conversion_error, ht]

theorem get_as_bool_missing (s : ArgumentParser) (name : Str)
    (h : find s._argument name = none) :
    get_as_bool s name =
      if s._throw_on_conversion_error then
        ({ s with _error_message := msg_required_not_present name, _conversion_error := true },
          Result.threw (msg_required_not_present name))
      else
        ({ s with _error_message := msg_not_a_boolean name [], _conversion_error := true },
          Result.returned false) := by
  have h1 : bool_is_true [] = false := by decide
  have h2 : bool_is_false [] = false := by decide
  unfold get_as_bool
  rw [get_as_string_missing s name h]
  by_cases ht : s._throw_on_conversion_error = true
  · simp [ht]
  · simp [ht, handle_conversion_error, parse_bool_value_bad _ _ _ h1 h2]

theorem get_as_bool_empty (s : ArgumentParser) (name : Str)
    (h : find s._argument name = some []) :
    get_as_bool s name =
      if s._throw_on_conversion_error then
        ({ s with _error_message := msg_required_not_given name, _conversion_error := true },
          Result.threw (msg_required_not_given name))
      else
        ({ s with _error_message := msg_not_a_boolean name [], _conversion_error := true },
          Result.returned false) := by
  have h1 : bool_is_true [] = false := by decide
  have h2 : bool_is_false [] = false := by decide
  unfold get_as_bool
  rw [get_as_string_of_find s name [] h]
  by_cases ht : s._throw_on_conversion_error = true
  · simp [ht, handle_conversion_error]
  · simp [ht, handle_conversion_error, parse_bool_value_bad _ _ _ h1 h2]

theorem get_as_bool_value (s : ArgumentParser) (name v : Str)
    (h : find s._argument name = some v) (hv : v ≠ []) :
    get_as_bool s name =
      parse_bool_value { s with _error_message := [], _conversion_error := false } name v := by
  unfold get_as_bool
  rw [get_as_string_of_find s name v h]
  simp [hv]

/-- The three ways `get_as_bool(name)` ends. -/
theorem get_as_bool_cases (s : ArgumentParser) (name : Str) :
    (∃ v, find s._argument name = some v ∧ TrueText v ∧
      get_as_bool s name =
        ({ s with _error_message := [], _conversion_error := false }, Result.returned true)) ∨
    (∃ v, find s._argument name = some v ∧ FalseText v ∧
      get_as_bool s name =
        ({ s with _error_message := [], _conversion_error := false }, Result.returned false)) ∨
    ((¬ ∃ v, find s._argument name = some v ∧ (TrueText v ∨ FalseText v)) ∧
      error (get_as_bool s name).1 = true ∧
      (s._throw_on_conversion_error = false → (get_as_bool s name).2 = Result.returned false) ∧
      (s._throw_on_conversion_error = true → ∃ m, (get_as_bool s name).2 = Result.threw m)) := by
  have ht0 : ¬ TrueText [] := by
    rw [← bool_is_true_iff]; decide
  have hf0 : ¬ FalseText [] := by
    rw [← bool_is_false_iff]; decide
  cases hfind : find s._argument name with
  | none =>
    refine Or.inr (Or.inr ⟨?_, ?_⟩)
    · rintro ⟨v, hv, _⟩
      exact Option.noConfusion hv
    · rw [get_as_bool_missing s name hfind]
      by_cases ht : s._throw_on_conversion_error = true <;> simp [ht, error]
  | some v =>
    by_cases hv : v = []
    · subst hv
      refine Or.inr (Or.inr ⟨?_, ?_⟩)
      · rintro ⟨v, hv, h⟩
        have : v = [] := (Option.some.inj hv).symm
        subst this
        rcases h with h | h
        · exact ht0 h
        · exact hf0 h
      · rw [get_as_bool_empty s name hfind]
        by_cases ht : s._throw_on_conversion_error = true <;> simp [ht, error]
    · rw [get_as_bool_value s name v hfind hv]
      cases h1 : bool_is_true v with
      | true =>
        exact Or.inl ⟨v, rfl, (bool_is_true_iff v).1 h1, parse_bool_value_true _ _ _ h1⟩
      | false =>
        cases h2 : bool_is_false v with
        | true =>
          exact Or.inr (Or.inl ⟨v, rfl, (bool_is_false_iff v).1 h2,
            parse_bool_value_false _ _ _ h1 h2⟩)
        | false =>
          refine Or.inr (Or.inr ⟨?_, ?_⟩)
          · rintro ⟨w, hw, h⟩
            have : w = v := (Option.some.inj hw).symm
            subst this
            rcases h with h | h
            · rw [← bool_is_true_iff, h1] at h
              exact Bool.noConfusion h
            · rw [← bool_is_false_iff, h2] at h
              exact Bool.noConfusion h
          · rw [parse_bool_value_bad _ _ _ h1 h2]
            by_cases ht : s._throw_on_conversion_error = true <;> simp [ht, error]

/-- C11. For every instance state and name: `get_as_bool(name)` returns true with
`error()` false exactly when the stored value is `1` or one of t, y, true, yes, on
in any ASCII letter case; it returns false with `error()` false exactly when the
stored value is `0` or one of f, n, false, no, off in any ASCII letter case; in
every other case (value not recognised, empty value, switch missing) `error()` is
true afterwards, and the call returns false when the instance does not throw on
conversion errors and throws when it does. -/
theorem C11_get_as_bool_result (s : ArgumentParser) (name : Str) :
    (((get_as_bool s name).2 = Result.returned true ∧ error (get_as_bool s name).1 = false) ↔
      ∃ v, find s._argument name = some v ∧ TrueText v) ∧
    (((get_as_bool s name).2 = Result.returned false ∧ error (get_as_bool s name).1 = false) ↔
      ∃ v, find s._argument name = some v ∧ FalseText v) ∧
    ((¬ ∃ v, find s._argument name = some v ∧ (TrueText v ∨ FalseText v)) →
      error (get_as_bool s name).1 = true ∧
      (s._throw_on_conversion_error = false → (get_as_bool s name).2 = Result.returned false) ∧
      (s._throw_on_conversion_error = true → ∃ m, (get_as_bool s name).2 = Result.threw m)) := by
  rcases get_as_bool_cases s name with ⟨v, hv, ht, heq⟩ | ⟨v, hv, hf, heq⟩ | ⟨hno, herr, hrest⟩
  · refine ⟨?_, ?_, ?_⟩
    · rw [heq]
      exact ⟨fun _ => ⟨v, hv, ht⟩, fun _ => ⟨rfl, rfl⟩⟩
    · rw [heq]
      constructor
      · rintro ⟨h, _⟩
        simp at h
      · rintro ⟨w, hw, hf⟩
        have : w = v := by rw [hv] at hw; exact (Option.some.inj hw).symm
        subst this
        exact absurd hf (true_text_not_false_text w ht)
    · intro hno
      exact absurd ⟨v, hv, Or.inl ht⟩ hno
  · refine ⟨?_, ?_, ?_⟩
    · rw [heq]
      constructor
      · rintro ⟨h, _⟩
        simp at h
      · rintro ⟨w, hw, ht⟩
        have : w = v := by rw [hv] at hw; exact (Option.some.inj hw).symm
        subst this
        exact absurd hf (true_text_not_false_text w ht)
    · rw [heq]
      exact ⟨fun _ => ⟨v, hv, hf⟩, fun _ => ⟨rfl, rfl⟩⟩
    · intro hno
      exact absurd ⟨v, hv, Or.inr hf⟩ hno
  · refine ⟨?_, ?_, fun _ => ⟨herr, hrest⟩⟩
    · constructor
      · rintro ⟨_, h⟩
        rw [herr] at h
        exact Bool.noConfusion h
      · rintro ⟨v, hv, ht⟩
        exact absurd ⟨v, hv, Or.inl ht⟩ hno
    · constructor
      · rintro ⟨_, h⟩
        rw [herr] at h
        exact Bool.noConfusion h
      · rintro ⟨v, hv, hf⟩
        exact absurd ⟨v, hv, Or.inr hf⟩ hno

/-- Witness for C11 after parsing `tool -b1 Yes -b2 maybe -b3 NO` on a
non-throwing instance: `get_as_bool("b1")` returns true and `get_as_bool("b3")`
returns false, both with `error()` false, since `Yes` and `NO` are `yes` and `no`
up to letter case; `maybe` is no boolean text, so `error()` is true after
`get_as_bool("b2")`, which returns false. -/
theorem C11_get_as_bool_result_witness :
    ((get_as_bool (parse (new true false)
        ["tool".toList, "-b1".toList, "Yes".toList, "-b2".toList, "maybe".toList,
          "-b3".toList, "NO".toList]
        ArgumentFormat.PARAM_SWITCH).1 "b1".toList).2 = Result.returned true ∧
      error (get_as_bool (parse (new true false)
        ["tool".toList, "-b1".toList, "Yes".toList, "-b2".toList, "maybe".toList,
          "-b3".toList, "NO".toList]
        ArgumentFormat.PARAM_SWITCH).1 "b1".toList).1 = false) ∧
    ((get_as_bool (parse (new true false)
        ["tool".toList, "-b1".toList, "Yes".toList, "-b2".toList, "maybe".toList,
          "-b3".toList, "NO".toList]
        ArgumentFormat.PARAM_SWITCH).1 "b3".toList).2 = Result.returned false ∧
      error (get_as_bool (parse (new true false)
        ["tool".toList, "-b1".toList, "Yes".toList, "-b2".toList, "maybe".toList,
          "-b3".toList, "NO".toList]
        ArgumentFormat.PARAM_SWITCH).1 "b3".toList).1 = false) ∧
    (¬ ∃ v, find (parse (new true false)
        ["tool".toList, "-b1".toList, "Yes".toList, "-b2".toList, "maybe".toList,
          "-b3".toList, "NO".toList]
        ArgumentFormat.PARAM_SWITCH).1._argument "b2".toList = some v ∧
      (TrueText v ∨ FalseText v)) ∧
    error (get_as_bool (parse (new true false)
        ["tool".toList, "-b1".toList, "Yes".toList, "-b2".toList, "maybe".toList,
          "-b3".toList, "NO".toList]
        ArgumentFormat.PARAM_SWITCH).1 "b2".toList).1 = true ∧
    (get_as_bool (parse (new true false)
        ["tool".toList, "-b1".toList, "Yes".toList, "-b2".toList, "maybe".toList,
          "-b3".toList, "NO".toList]
        ArgumentFormat.PARAM_SWITCH).1 "b2".toList).2 = Result.returned false :=
  have hno : ¬ ∃ v, find (parse (new true false)
        ["tool".toList, "-b1".toList, "Yes".toList, "-b2".toList, "maybe".toList,
          "-b3".toList, "NO".toList]
        ArgumentFormat.PARAM_SWITCH).1._argument "b2".toList = some v ∧
      (TrueText v ∨ FalseText v) := by
    rintro ⟨v, hv, h⟩
    have hv2 : v = "maybe".toList := by
      have : find (parse (new true false)
        ["tool".toList, "-b1".toList, "Yes".toList, "-b2".toList, "maybe".toList,
          "-b3".toList, "NO".toList]
        ArgumentFormat.PARAM_SWITCH).1._argument "b2".toList = some "maybe".toList := by
        decide
      rw [this] at hv
      exact (Option.some.inj hv).symm
    subst hv2
    rw [← bool_is_true_iff, ← bool_is_false_iff] at h
    revert h
    decide
  ⟨(C11_get_as_bool_result _ _).1.2
      ⟨"Yes".toList, by decide, Or.inr ⟨"yes".toList, by decide, by decide⟩⟩,
    (C11_get_as_bool_result _ _).2.1.2
      ⟨"NO".toList, by decide, Or.inr ⟨"no".toList, by decide, by decide⟩⟩,
    hno, ((C11_get_as_bool_result _ _).2.2 hno).1,
    ((C11_get_as_bool_result _ _).2.2 hno).2.1 rfl⟩

/-- C12 (the code at the failing input). After parsing `tool -b maybe` on an
instance that does not throw, the value stored for `b` is not empty and is no
boolean text; `get_as_bool("b", true)` leaves `error()` true and returns false,
not the default true: `parse_bool_value` returns its `is_true` flag. -/
theorem C12_get_as_bool_default_returns_false :
    find (parse (new false false) ["tool".toList, "-b".toList, "maybe".toList]
      ArgumentFormat.PARAM_SWITCH).1._argument "b".toList = some "maybe".toList ∧
    bool_is_true "maybe".toList = false ∧ bool_is_false "maybe".toList = false ∧
    error (get_as_bool_default
      (parse (new false false) ["tool".toList, "-b".toList, "maybe".toList]
        ArgumentFormat.PARAM_SWITCH).1 "b".toList true).1 = true ∧
    (get_as_bool_default
      (parse (new false false) ["tool".toList, "-b".toList, "maybe".toList]
        ArgumentFormat.PARAM_SWITCH).1 "b".toList true).2 = Result.returned false := by
  decide

/-- C13 (the code at the failing input). After parsing `tool -a 1`, `n` is not a
key. On an instance that does not throw, each integer accessor called with the
default 7 returns 7 but leaves `error()` true; on an instance that throws on
conversion errors each of them throws the required-but-not-present message. -/
theorem C13_integer_accessors_signal_missing_key :
    find (parse (new false false) ["tool".toList, "-a".toList, "1".toList]
      ArgumentFormat.PARAM_SWITCH).1._argument "n".toList = none ∧
    ((get_as_long (parse (new false false) ["tool".toList, "-a".toList, "1".toList]
        ArgumentFormat.PARAM_SWITCH).1 0 "n".toList 7 10).2 = Result.returned 7 ∧
      error (get_as_long (parse (new false false) ["tool".toList, "-a".toList, "1".toList]
        ArgumentFormat.PARAM_SWITCH).1 0 "n".toList 7 10).1.1 = true) ∧
    ((get_as_unsigned_long (parse (new false false) ["tool".toList, "-a".toList, "1".toList]
        ArgumentFormat.PARAM_SWITCH).1 0 "n".toList 7 10).2 = Result.returned 7 ∧
      error (get_as_unsigned_long
        (parse (new false false) ["tool".toList, "-a".toList, "1".toList]
        ArgumentFormat.PARAM_SWITCH).1 0 "n".toList 7 10).1.1 = true) ∧
    ((get_as_int (parse (new false false) ["tool".toList, "-a".toList, "1".toList]
        ArgumentFormat.PARAM_SWITCH).1 0 "n".toList 7 10).2 = Result.returned 7 ∧
      error (get_as_int (parse (new false false) ["tool".toList, "-a".toList, "1".toList]
        ArgumentFormat.PARAM_SWITCH).1 0 "n".toList 7 10).1.1 = true) ∧
    ((get_as_unsigned_int (parse (new false false) ["tool".toList, "-a".toList, "1".toList]
        ArgumentFormat.PARAM_SWITCH).1 0 "n".toList 7 10).2 = Result.returned 7 ∧
      error (get_as_unsigned_int
        (parse (new false false) ["tool".toList, "-a".toList, "1".toList]
        ArgumentFormat.PARAM_SWITCH).1 0 "n".toList 7 10).1.1 = true) ∧
    (get_as_long (parse (new false true) ["tool".toList, "-a".toList, "1".toList]
        ArgumentFormat.PARAM_SWITCH).1 0 "n".toList 7 10).2 =
      Result.threw (msg_required_not_present "n".toList) ∧
    (get_as_unsigned_long (parse (new false true) ["tool".toList, "-a".toList, "1".toList]
        ArgumentFormat.PARAM_SWITCH).1 0 "n".toList 7 10).2 =
      Result.threw (msg_required_not_present "n".toList) ∧
    (get_as_int (parse (new false true) ["tool".toList, "-a".toList, "1".toList]
        ArgumentFormat.PARAM_SWITCH).1 0 "n".toList 7 10).2 =
      Result.threw (msg_required_not_present "n".toList) ∧
    (get_as_unsigned_int (parse (new false true) ["tool".toList, "-a".toList, "1".toList]
        ArgumentFormat.PARAM_SWITCH).1 0 "n".toList 7 10).2 =
      Result.threw (msg_required_not_present "n".toList) := by
  decide

/-! ## Integer conversion -/

/-- The test `errno == 0 && end != start && *end == 0` of the wide accessors. -/
theorem get_as_long_value (s : ArgumentParser) (errno : Nat) (name v : Str) (d base : Int)
    (h : find s._argument name = some v) (hv : v ≠ []) :
    get_as_long s errno name d base =
      if (strtol v base errno).errno = 0 ∧ (strtol v base errno).end_offset ≠ 0 ∧
          (strtol v base errno).end_offset = v.length then
        (({ s with _error_message := [], _conversion_error := false },
          (strtol v base errno).errno), Result.returned (strtol v base errno).value)
      else
        (({ s with _error_message := msg_value_not_valid name v, _conversion_error := true },
          (strtol v base errno).errno),
          if s._throw_on_conversion_error then Result.threw (msg_value_not_valid name v)
          else Result.returned d) := by
  unfold get_as_long
  rw [get_as_string_of_find s name v h]
  by_cases hc : (strtol v base errno).errno = 0 ∧ (strtol v base errno).end_offset ≠ 0 ∧
      (strtol v base errno).end_offset = v.length
  · simp [hv, hc]
  · by_cases ht : s._throw_on_conversion_error = true <;>
      simp [hv, hc, handle_conversion_error, ht]

theorem get_as_unsigned_long_value (s : ArgumentParser) (errno : Nat) (name v : Str)
    (d base : Int) (h : find s._argument name = some v) (hv : v ≠ []) :
    get_as_unsigned_long s errno name d base =
      if (strtoul v base errno).errno = 0 ∧ (strtoul v base errno).end_offset ≠ 0 ∧
          (strtoul v base errno).end_offset = v.length then
        (({ s with _error_message := [], _conversion_error := false },
          (strtoul v base errno).errno), Result.returned (strtoul v base errno).value)
      else
        (({ s with _error_message := msg_value_not_valid name v, _conversion_error := true },
          (strtoul v base errno).errno),
          if s._throw_on_conversion_error then Result.threw (msg_value_not_valid name v)
          else Result.returned d) := by
  unfold get_as_unsigned_long
  rw [get_as_string_of_find s name v h]
  by_cases hc : (strtoul v base errno).errno = 0 ∧ (strtoul v base errno).end_offset ≠ 0 ∧
      (strtoul v base errno).end_offset = v.length
  · simp [hv, hc]
  · by_cases ht : s._throw_on_conversion_error = true <;>
      simp [hv, hc, handle_conversion_error, ht]

theorem get_as_long_empty (s : ArgumentParser) (errno : Nat) (name : Str) (d base : Int)
    (h : find s._argument name = some []) :
    get_as_long s errno name d base =
      (({ s with _error_message := [], _conversion_error := false }, errno),
        Result.returned d) := by
  unfold get_as_long
  rw [get_as_string_of_find s name [] h]
  simp

theorem get_as_unsigned_long_empty (s : ArgumentParser) (errno : Nat) (name : Str)
    (d base : Int) (h : find s._argument name = some []) :
    get_as_unsigned_long s errno name d base =
      (({ s with _error_message := [], _conversion_error := false }, errno),
        Result.returned d) := by
  unfold get_as_unsigned_long
  rw [get_as_string_of_find s name [] h]
  simp

theorem get_as_long_missing (s : ArgumentParser) (errno : Nat) (name : Str) (d base : Int)
    (h : find s._argument name = none) :
    get_as_long s errno name d base =
      (({ s with _error_message := msg_required_not_present name, _conversion_error := true },
        errno),
        if s._throw_on_conversion_error then Result.threw (msg_required_not_present name)
        else Result.returned d) := by
  unfold get_as_long
  rw [get_as_string_missing s name h]
  by_cases ht : s._throw_on_conversion_error = true <;> simp [ht]

theorem get_as_unsigned_long_missing (s : ArgumentParser) (errno : Nat) (name : Str)
    (d base : Int) (h : find s._argument name = none) :
    get_as_unsigned_long s errno name d base =
      (({ s with _error_message := msg_required_not_present name, _conversion_error := true },
        errno),
        if s._throw_on_conversion_error then Result.threw (msg_required_not_present name)
        else Result.returned d) := by
  unfold get_as_unsigned_long
  rw [get_as_string_missing s name h]
  by_cases ht : s._throw_on_conversion_error = true <;> simp [ht]

/-- With no error pending, `strtol` passes the test of `get_as_long` and yields `n`
exactly when the string is a whole numeral for `n` and `n` is in the range of
`long`. -/
theorem strtol_accepts_iff (v : Str) (base n : Int) :
    (((strtol v base 0).errno = 0 ∧ (strtol v base 0).end_offset ≠ 0 ∧
        (strtol v base 0).end_offset = v.length) ∧ (strtol v base 0).value = n) ↔
      (WholeNumeral v base n ∧ LONG_MIN ≤ n ∧ n ≤ LONG_MAX) := by
  unfold WholeNumeral strtol signed_value
  by_cases hb : valid_base base = true
  · by_cases hc : (scan_subject v base.toNat).consumed = 0
    · simp [hb, hc]
    · by_cases h1 : (if (scan_subject v base.toNat).negative = true
          then -((scan_subject v base.toNat).magnitude : Int)
          else ((scan_subject v base.toNat).magnitude : Int)) > LONG_MAX
      · simp only [hb, hc, h1, Bool.not_true, Bool.false_eq_true, if_false, if_true]
        simp only [ERANGE]
        constructor
        · intro h
          omega
        · rintro ⟨⟨_, _, _, hn⟩, _, h2⟩
          omega
      · by_cases h2 : (if (scan_subject v base.toNat).negative = true
            then -((scan_subject v base.toNat).magnitude : Int)
            else ((scan_subject v base.toNat).magnitude : Int)) < LONG_MIN
        · simp only [hb, hc, h1, h2, Bool.not_true, Bool.false_eq_true, if_false, if_true]
          simp only [ERANGE]
          constructor
          · intro h
            omega
          · rintro ⟨⟨_, _, _, hn⟩, h3, _⟩
            omega
        · simp only [hb, hc, h1, h2, Bool.not_true, Bool.false_eq_true, if_false]
          constructor
          · rintro ⟨⟨_, _, h3⟩, h4⟩
            exact ⟨⟨trivial, hc, h3, h4⟩, by omega, by omega⟩
          · rintro ⟨⟨_, _, h3, h4⟩, _⟩
            exact ⟨⟨trivial, hc, h3⟩, h4⟩
  · simp [hb, EINVAL]

/-- The same for `strtoul` and the range of `unsigned long`, on a string whose
number is written without a minus sign. -/
theorem strtoul_accepts_iff (v : Str) (base n : Int)
    (hneg : (scan_subject v base.toNat).negative = false) :
    (((strtoul v base 0).errno = 0 ∧ (strtoul v base 0).end_offset ≠ 0 ∧
        (strtoul v base 0).end_offset = v.length) ∧ (strtoul v base 0).value = n) ↔
      (WholeNumeral v base n ∧ 0 ≤ n ∧ n ≤ ULONG_MAX) := by
  unfold WholeNumeral strtoul signed_value
  by_cases hb : valid_base base = true
  · by_cases hc : (scan_subject v base.toNat).consumed = 0
    · simp [hb, hc]
    · by_cases h1 : ((scan_subject v base.toNat).magnitude : Int) > ULONG_MAX
      · simp only [hb, hc, h1, hneg, Bool.not_true, Bool.false_eq_true, if_false, if_true]
        simp only [ERANGE]
        constructor
        · intro h
          omega
        · rintro ⟨⟨_, _, _, hn⟩, _, h2⟩
          omega
      · simp only [hb, hc, h1, hneg, Bool.not_true, Bool.false_eq_true, if_false]
        constructor
        · rintro ⟨⟨_, _, h3⟩, h4⟩
          exact ⟨⟨trivial, hc, h3, h4⟩, by omega, by omega⟩
        · rintro ⟨⟨_, _, h3, h4⟩, _⟩
          exact ⟨⟨trivial, hc, h3⟩, h4⟩
  · simp [hb, EINVAL]

/-- What `get_as_long` does on a stored value that is not empty, with no error
pending. -/
theorem get_as_long_spec (s : ArgumentParser) (name v : Str) (d base : Int)
    (hfind : find s._argument name = some v) (hv : v ≠ []) :
    (∀ n, ((get_as_long s 0 name d base).2 = Result.returned n ∧
        error (get_as_long s 0 name d base).1.1 = false) ↔
      (WholeNumeral v base n ∧ LONG_MIN ≤ n ∧ n ≤ LONG_MAX)) ∧
    ((¬ ∃ n, WholeNumeral v base n ∧ LONG_MIN ≤ n ∧ n ≤ LONG_MAX) →
      error (get_as_long s 0 name d base).1.1 = true ∧
      get_error_message (get_as_long s 0 name d base).1.1 = msg_value_not_valid name v ∧
      (get_as_long s 0 name d base).2 =
        (if s._throw_on_conversion_error = true then Result.threw (msg_value_not_valid name v)
         else Result.returned d)) := by
  rw [get_as_long_value s 0 name v d base hfind hv]
  by_cases hc : (strtol v base 0).errno = 0 ∧ (strtol v base 0).end_offset ≠ 0 ∧
      (strtol v base 0).end_offset = v.length
  · rw [if_pos hc]
    constructor
    · intro n
      rw [← strtol_accepts_iff]
      constructor
      · rintro ⟨h, _⟩
        exact ⟨hc, Result.returned.inj h⟩
      · rintro ⟨_, h⟩
        exact ⟨by rw [h], rfl⟩
    · intro hno
      exact absurd ⟨_, (strtol_accepts_iff v base _).1 ⟨hc, rfl⟩⟩ hno
  · rw [if_neg hc]
    constructor
    · intro n
      constructor
      · rintro ⟨_, h⟩
        simp [error] at h
      · intro h
        exact absurd ((strtol_accepts_iff v base n).2 h).1 hc
    · intro _
      exact ⟨rfl, rfl, rfl⟩

/-- What `get_as_unsigned_long` does on a stored value that is not empty and has no
minus sign, with no error pending. -/
theorem get_as_unsigned_long_spec (s : ArgumentParser) (name v : Str) (d base : Int)
    (hfind : find s._argument name = some v) (hv : v ≠ [])
    (hneg : (scan_subject v base.toNat).negative = false) :
    (∀ n, ((get_as_unsigned_long s 0 name d base).2 = Result.returned n ∧
        error (get_as_unsigned_long s 0 name d base).1.1 = false) ↔
      (WholeNumeral v base n ∧ 0 ≤ n ∧ n ≤ ULONG_MAX)) ∧
    ((¬ ∃ n, WholeNumeral v base n ∧ 0 ≤ n ∧ n ≤ ULONG_MAX) →
      error (get_as_unsigned_long s 0 name d base).1.1 = true ∧
      get_error_message (get_as_unsigned_long s 0 name d base).1.1 =
        msg_value_not_valid name v ∧
      (get_as_unsigned_long s 0 name d base).2 =
        (if s._throw_on_conversion_error = true then Result.threw (msg_value_not_valid name v)
         else Result.returned d)) := by
  rw [get_as_unsigned_long_value s 0 name v d base hfind hv]
  by_cases hc : (strtoul v base 0).errno = 0 ∧ (strtoul v base 0).end_offset ≠ 0 ∧
      (strtoul v base 0).end_offset = v.length
  · rw [if_pos hc]
    constructor
    · intro n
      rw [← strtoul_accepts_iff v base n hneg]
      constructor
      · rintro ⟨h, _⟩
        exact ⟨hc, Result.returned.inj h⟩
      · rintro ⟨_, h⟩
        exact ⟨by rw [h], rfl⟩
    · intro hno
      exact absurd ⟨_, (strtoul_accepts_iff v base _ hneg).1 ⟨hc, rfl⟩⟩ hno
  · rw [if_neg hc]
    constructor
    · intro n
      constructor
      · rintro ⟨_, h⟩
        simp [error] at h
      · intro h
        exact absurd ((strtoul_accepts_iff v base n hneg).2 h).1 hc
    · intro _
      exact ⟨rfl, rfl, rfl⟩

/-- C14 (amended). For every instance state, name with a stored value `v` that is
not empty, default `d` and base, with no error pending (`errno = 0`):
`get_as_long` returns `n` with `error()` false exactly when the conversion in that
base takes the whole of `v` and yields `n` within the range of `long`; otherwise
(no digits, something after the number, out of range, invalid base) `error()` is
true, the message holds the name and `v`, and the call returns `d` on an instance
that does not throw on conversion errors and throws on one that does.
`get_as_unsigned_long` does the same over the range of `unsigned long` for a value
written without a minus sign. -/
theorem C14_wide_accessors_accept_whole_numerals (s : ArgumentParser) (name v : Str)
    (d base : Int) (hfind : find s._argument name = some v) (hv : v ≠ []) :
    ((∀ n, ((get_as_long s 0 name d base).2 = Result.returned n ∧
        error (get_as_long s 0 name d base).1.1 = false) ↔
      (WholeNumeral v base n ∧ LONG_MIN ≤ n ∧ n ≤ LONG_MAX)) ∧
    ((¬ ∃ n, WholeNumeral v base n ∧ LONG_MIN ≤ n ∧ n ≤ LONG_MAX) →
      error (get_as_long s 0 name d base).1.1 = true ∧
      get_error_message (get_as_long s 0 name d base).1.1 =
        "Argument '".toList ++ name ++ "' value ('".toList ++ v ++ "') is not valid.".toList ∧
      (get_as_long s 0 name d base).2 =
        (if s._throw_on_conversion_error = true then Result.threw (msg_value_not_valid name v)
         else Result.returned d))) ∧
    ((scan_subject v base.toNat).negative = false →
      (∀ n, ((get_as_unsigned_long s 0 name d base).2 = Result.returned n ∧
          error (get_as_unsigned_long s 0 name d base).1.1 = false) ↔
        (WholeNumeral v base n ∧ 0 ≤ n ∧ n ≤ ULONG_MAX)) ∧
      ((¬ ∃ n, WholeNumeral v base n ∧ 0 ≤ n ∧ n ≤ ULONG_MAX) →
        error (get_as_unsigned_long s 0 name d base).1.1 = true ∧
        get_error_message (get_as_unsigned_long s 0 name d base).1.1 =
          "Argument '".toList ++ name ++ "' value ('".toList ++ v ++
            "') is not valid.".toList ∧
        (get_as_unsigned_long s 0 name d base).2 =
          (if s._throw_on_conversion_error = true
           then Result.threw (msg_value_not_valid name v) else Result.returned d))) :=
  ⟨get_as_long_spec s name v d base hfind hv,
    fun hneg => get_as_unsigned_long_spec s name v d base hfind hv hneg⟩

/-- Witness for C14 after parsing `tool -n 12 -m 12abc`: `get_as_long("n")` returns
12 with `error()` false. -/
theorem C14_wide_accessors_accept_whole_numerals_witness :
    (find (parse (new false false)
        ["tool".toList, "-n".toList, "12".toList, "-m".toList, "12abc".toList]
        ArgumentFormat.PARAM_SWITCH).1._argument "n".toList = some "12".toList ∧
      "12".toList ≠ []) ∧
    ((get_as_long (parse (new false false)
        ["tool".toList, "-n".toList, "12".toList, "-m".toList, "12abc".toList]
        ArgumentFormat.PARAM_SWITCH).1 0 "n".toList 7 10).2 = Result.returned 12 ∧
      error (get_as_long (parse (new false false)
        ["tool".toList, "-n".toList, "12".toList, "-m".toList, "12abc".toList]
        ArgumentFormat.PARAM_SWITCH).1 0 "n".toList 7 10).1.1 = false) :=
  ⟨⟨by decide, by decide⟩,
    ((C14_wide_accessors_accept_whole_numerals
        (parse (new false false)
          ["tool".toList, "-n".toList, "12".toList, "-m".toList, "12abc".toList]
          ArgumentFormat.PARAM_SWITCH).1 "n".toList "12".toList 7 10
        (by decide) (by decide)).1.1 12).2
      ⟨⟨by decide, by decide, by decide, by decide⟩, by decide, by decide⟩⟩

/-- Counterexample to C14 as stated. After parsing `tool -n " -1"` the stored value
is a whole numeral for minus one, outside the range of `unsigned long`, yet
`get_as_unsigned_long("n")` returns 18446744073709551615 with `error()` false. And
after parsing `tool -m 12abc` on an instance that throws on conversion errors,
`get_as_long("m", 5)` throws instead of returning 5. -/
theorem C14_counterexample_minus_sign_and_throw :
    (find (parse (new false false) ["tool".toList, "-n".toList, " -1".toList]
        ArgumentFormat.PARAM_SWITCH).1._argument "n".toList = some " -1".toList ∧
      WholeNumeral " -1".toList 10 (-1) ∧
      (get_as_unsigned_long (parse (new false false)
        ["tool".toList, "-n".toList, " -1".toList]
        ArgumentFormat.PARAM_SWITCH).1 0 "n".toList 5 10).2 =
          Result.returned 18446744073709551615 ∧
      error (get_as_unsigned_long (parse (new false false)
        ["tool".toList, "-n".toList, " -1".toList]
        ArgumentFormat.PARAM_SWITCH).1 0 "n".toList 5 10).1.1 = false) ∧
    ((get_as_long (parse (new false true) ["tool".toList, "-m".toList, "12abc".toList]
        ArgumentFormat.PARAM_SWITCH).1 0 "m".toList 5 10).2 =
          Result.threw (msg_value_not_valid "m".toList "12abc".toList) ∧
      (get_as_long (parse (new false true) ["tool".toList, "-m".toList, "12abc".toList]
        ArgumentFormat.PARAM_SWITCH).1 0 "m".toList 5 10).2 ≠ Result.returned 5) :=
  ⟨⟨by decide, ⟨by decide, by decide, by decide, by decide⟩, by decide, by decide⟩,
    by decide, by decide⟩

/-! ## What the accessors leave alone -/

theorem same_core_refl (a : ArgumentParser) : SameCore a a := ⟨rfl, rfl, rfl, rfl⟩

theorem same_core_trans (a b c : ArgumentParser) (h1 : SameCore a b) (h2 : SameCore b c) :
    SameCore a c :=
  ⟨h1.1.trans h2.1, h1.2.1.trans h2.2.1, h1.2.2.1.trans h2.2.2.1, h1.2.2.2.trans h2.2.2.2⟩

theorem handle_conversion_error_core (s : ArgumentParser) (msg : Str) :
    SameCore (handle_conversion_error s msg).1 s := by
  unfold handle_conversion_error
  by_cases h : s._throw_on_conversion_error = true <;> simp [h, SameCore]

theorem get_verb_core (s : ArgumentParser) (d : Str) : SameCore (get_verb s d).1 s := by
  by_cases h : s._verb = []
  · by_cases hd : d = []
    · subst hd
      rw [get_verb_missing s h]
      exact ⟨rfl, rfl, rfl, rfl⟩
    · rw [get_verb_of_default s d h hd]
      exact ⟨rfl, rfl, rfl, rfl⟩
  · rw [get_verb_of_verb s d h]
    exact ⟨rfl, rfl, rfl, rfl⟩

theorem get_as_string_core (s : ArgumentParser) (name : Str) :
    SameCore (get_as_string s name).1 s := by
  cases h : find s._argument name with
  | none =>
    rw [get_as_string_missing s name h]
    exact ⟨rfl, rfl, rfl, rfl⟩
  | some v =>
    rw [get_as_string_of_find s name v h]
    exact ⟨rfl, rfl, rfl, rfl⟩

theorem get_as_string_default_core (s : ArgumentParser) (name d : Str) :
    SameCore (get_as_string_default s name d).1 s := by
  rw [get_as_string_default_eq]
  exact ⟨rfl, rfl, rfl, rfl⟩

theorem parse_bool_value_core (s : ArgumentParser) (name v : Str) :
    SameCore (parse_bool_value s name v).1 s := by
  cases h1 : bool_is_true v with
  | true =>
    rw [parse_bool_value_true _ _ _ h1]
    exact same_core_refl s
  | false =>
    cases h2 : bool_is_false v with
    | true =>
      rw [parse_bool_value_false _ _ _ h1 h2]
      exact same_core_refl s
    | false =>
      rw [parse_bool_value_bad _ _ _ h1 h2]
      exact ⟨rfl, rfl, rfl, rfl⟩

theorem get_as_bool_core (s : ArgumentParser) (name : Str) :
    SameCore (get_as_bool s name).1 s := by
  cases h : find s._argument name with
  | none =>
    rw [get_as_bool_missing s name h]
    by_cases ht : s._throw_on_conversion_error = true <;> simp [ht, SameCore]
  | some v =>
    by_cases hv : v = []
    · subst hv
      rw [get_as_bool_empty s name h]
      by_cases ht : s._throw_on_conversion_error = true <;> simp [ht, SameCore]
    · rw [get_as_bool_value s name v h hv]
      exact same_core_trans _ _ _ (parse_bool_value_core _ name v) ⟨rfl, rfl, rfl, rfl⟩

theorem get_as_bool_default_eq (s : ArgumentParser) (name : Str) (d : Bool) :
    get_as_bool_default s name d =
      match find s._argument name with
      | none => ({ s with _error_message := [], _conversion_error := false }, Result.returned d)
      | some v =>
        if v = [] then
          ({ s with _error_message := [], _conversion_error := false }, Result.returned d)
        else parse_bool_value { s with _error_message := [], _conversion_error := false } name v := by
  unfold get_as_bool_default
  rw [get_as_string_default_eq]
  cases h : find s._argument name with
  | none =>
    cases d
    · have h1 : bool_is_true "false".toList = false := by decide
      have h2 : bool_is_false "false".toList = true := by decide
      simp
      exact parse_bool_value_false _ _ _ h1 h2
    · have h1 : bool_is_true "true".toList = true := by decide
      simp
      exact parse_bool_value_true _ _ _ h1
  | some v =>
    by_cases hv : v = [] <;> simp [hv]

theorem get_as_bool_default_core (s : ArgumentParser) (name : Str) (d : Bool) :
    SameCore (get_as_bool_default s name d).1 s := by
  rw [get_as_bool_default_eq]
  cases h : find s._argument name with
  | none => exact ⟨rfl, rfl, rfl, rfl⟩
  | some v =>
    by_cases hv : v = []
    · simp only [hv, if_true]
      exact ⟨rfl, rfl, rfl, rfl⟩
    · simp only [hv, if_false]
      exact same_core_trans _ _ _ (parse_bool_value_core _ name v) ⟨rfl, rfl, rfl, rfl⟩

theorem get_as_long_core (s : ArgumentParser) (errno : Nat) (name : Str) (d base : Int) :
    SameCore (get_as_long s errno name d base).1.1 s := by
  cases h : find s._argument name with
  | none =>
    rw [get_as_long_missing s errno name d base h]
    exact ⟨rfl, rfl, rfl, rfl⟩
  | some v =>
    by_cases hv : v = []
    · subst hv
      rw [get_as_long_empty s errno name d base h]
      exact ⟨rfl, rfl, rfl, rfl⟩
    · rw [get_as_long_value s errno name v d base h hv]
      split <;> exact ⟨rfl, rfl, rfl, rfl⟩

theorem get_as_unsigned_long_core (s : ArgumentParser) (errno : Nat) (name : Str)
    (d base : Int) : SameCore (get_as_unsigned_long s errno name d base).1.1 s := by
  cases h : find s._argument name with
  | none =>
    rw [get_as_unsigned_long_missing s errno name d base h]
    exact ⟨rfl, rfl, rfl, rfl⟩
  | some v =>
    by_cases hv : v = []
    · subst hv
      rw [get_as_unsigned_long_empty s errno name d base h]
      exact ⟨rfl, rfl, rfl, rfl⟩
    · rw [get_as_unsigned_long_value s errno name v d base h hv]
      split <;> exact ⟨rfl, rfl, rfl, rfl⟩

/-! ## The narrow accessors on top of the wide ones -/

theorem static_cast_int_of_range (n : Int) (h1 : INT_MIN ≤ n) (h2 : n ≤ INT_MAX) :
    static_cast_int n = n := by
  unfold static_cast_int
  unfold INT_MIN at h1
  unfold INT_MAX at h2
  omega

theorem to_unsigned_int_static_cast (n : Int) (h1 : 0 ≤ n) (h2 : n ≤ UINT_MAX) :
    to_unsigned_int (static_cast_int n) = n := by
  unfold to_unsigned_int static_cast_int
  unfold UINT_MAX at h2
  omega

theorem get_as_int_of_wide_threw (s : ArgumentParser) (errno : Nat) (name : Str)
    (d base : Int) (w : ArgumentParser × Nat) (m : Str)
    (h : get_as_long s errno name d base = (w, Result.threw m)) :
    get_as_int s errno name d base = (w, Result.threw m) := by
  unfold get_as_int
  rw [h]

theorem get_as_int_of_wide (s : ArgumentParser) (errno : Nat) (name : Str) (d base n : Int)
    (s1 : ArgumentParser) (e1 : Nat)
    (h : get_as_long s errno name d base = ((s1, e1), Result.returned n)) :
    get_as_int s errno name d base =
      if n > INT_MAX ∨ n < INT_MIN then
        (({ s1 with _error_message := msg_out_of_range name n, _conversion_error := true }, e1),
          if s1._throw_on_conversion_error then Result.threw (msg_out_of_range name n)
          else Result.returned d)
      else ((s1, e1), Result.returned (static_cast_int n)) := by
  unfold get_as_int
  rw [h]
  by_cases hr : n > INT_MAX ∨ n < INT_MIN
  · by_cases ht : s1._throw_on_conversion_error = true <;>
      simp [hr, handle_conversion_error, ht]
  · simp [hr]

theorem get_as_unsigned_int_of_wide_threw (s : ArgumentParser) (errno : Nat) (name : Str)
    (d base : Int) (w : ArgumentParser × Nat) (m : Str)
    (h : get_as_unsigned_long s errno name d base = (w, Result.threw m)) :
    get_as_unsigned_int s errno name d base = (w, Result.threw m) := by
  unfold get_as_unsigned_int
  rw [h]

theorem get_as_unsigned_int_of_wide (s : ArgumentParser) (errno : Nat) (name : Str)
    (d base n : Int) (s1 : ArgumentParser) (e1 : Nat)
    (h : get_as_unsigned_long s errno name d base = ((s1, e1), Result.returned n)) :
    get_as_unsigned_int s errno name d base =
      if n > UINT_MAX ∨ n < 0 then
        (({ s1 with _error_message := msg_too_out_of_range name n, _conversion_error := true },
          e1),
          if s1._throw_on_conversion_error then Result.threw (msg_too_out_of_range name n)
          else Result.returned d)
      else ((s1, e1), Result.returned (to_unsigned_int (static_cast_int n))) := by
  unfold get_as_unsigned_int
  rw [h]
  by_cases hr : n > UINT_MAX ∨ n < 0
  · by_cases ht : s1._throw_on_conversion_error = true <;>
      simp [hr, handle_conversion_error, ht]
  · simp [hr]

/-- A result is a returned value or a thrown message. -/
theorem result_cases {α : Type} (r : Result α) :
    (∃ v, r = Result.returned v) ∨ ∃ m, r = Result.threw m := by
  cases r with
  | returned v => exact Or.inl ⟨v, rfl⟩
  | threw m => exact Or.inr ⟨m, rfl⟩

theorem get_as_int_core (s : ArgumentParser) (errno : Nat) (name : Str) (d base : Int) :
    SameCore (get_as_int s errno name d base).1.1 s := by
  have hw := get_as_long_core s errno name d base
  rcases result_cases (get_as_long s errno name d base).2 with ⟨n, hn⟩ | ⟨m, hm⟩
  · have h : get_as_long s errno name d base =
        (((get_as_long s errno name d base).1.1, (get_as_long s errno name d base).1.2),
          Result.returned n) := by rw [← hn]
    rw [get_as_int_of_wide s errno name d base n _ _ h]
    split
    · exact same_core_trans _ _ _ ⟨rfl, rfl, rfl, rfl⟩ hw
    · exact hw
  · have h : get_as_long s errno name d base =
        ((get_as_long s errno name d base).1, Result.threw m) := by rw [← hm]
    rw [get_as_int_of_wide_threw s errno name d base _ m h]
    exact hw

theorem get_as_unsigned_int_core (s : ArgumentParser) (errno : Nat) (name : Str)
    (d base : Int) : SameCore (get_as_unsigned_int s errno name d base).1.1 s := by
  have hw := get_as_unsigned_long_core s errno name d base
  rcases result_cases (get_as_unsigned_long s errno name d base).2 with ⟨n, hn⟩ | ⟨m, hm⟩
  · have h : get_as_unsigned_long s errno name d base =
        (((get_as_unsigned_long s errno name d base).1.1,
          (get_as_unsigned_long s errno name d base).1.2), Result.returned n) := by rw [← hn]
    rw [get_as_unsigned_int_of_wide s errno name d base n _ _ h]
    split
    · exact same_core_trans _ _ _ ⟨rfl, rfl, rfl, rfl⟩ hw
    · exact hw
  · have h : get_as_unsigned_long s errno name d base =
        ((get_as_unsigned_long s errno name d base).1, Result.threw m) := by rw [← hm]
    rw [get_as_unsigned_int_of_wide_threw s errno name d base _ m h]
    exact hw

/-- C15 (amended). For every instance state and every name that is a key with an
empty value (a bare flag), each integer accessor returns its default and leaves
`error()` false, under either conversion policy: the empty string is not handed to
the conversion and no error is recorded. -/
theorem C15_bare_flag_gives_default_silently (s : ArgumentParser) (errno : Nat)
    (name : Str) (d base : Int) (hfind : find s._argument name = some []) :
    ((get_as_long s errno name d base).2 = Result.returned d ∧
      error (get_as_long s errno name d base).1.1 = false) ∧
    ((get_as_unsigned_long s errno name d base).2 = Result.returned d ∧
      error (get_as_unsigned_long s errno name d base).1.1 = false) ∧
    (INT_MIN ≤ d ∧ d ≤ INT_MAX →
      (get_as_int s errno name d base).2 = Result.returned d ∧
      error (get_as_int s errno name d base).1.1 = false) ∧
    (0 ≤ d ∧ d ≤ UINT_MAX →
      (get_as_unsigned_int s errno name d base).2 = Result.returned d ∧
      error (get_as_unsigned_int s errno name d base).1.1 = false) := by
  refine ⟨?_, ?_, ?_, ?_⟩
  · rw [get_as_long_empty s errno name d base hfind]
    exact ⟨rfl, rfl⟩
  · rw [get_as_unsigned_long_empty s errno name d base hfind]
    exact ⟨rfl, rfl⟩
  · rintro ⟨h1, h2⟩
    rw [get_as_int_of_wide s errno name d base d _ _ (get_as_long_empty s errno name d base hfind)]
    have hr : ¬ (d > INT_MAX ∨ d < INT_MIN) := by omega
    rw [if_neg hr, static_cast_int_of_range d h1 h2]
    exact ⟨rfl, rfl⟩
  · rintro ⟨h1, h2⟩
    rw [get_as_unsigned_int_of_wide s errno name d base d _ _
      (get_as_unsigned_long_empty s errno name d base hfind)]
    have hr : ¬ (d > UINT_MAX ∨ d < 0) := by omega
    rw [if_neg hr, to_unsigned_int_static_cast d h1 h2]
    exact ⟨rfl, rfl⟩

/-- Witness for C15 after parsing `tool -verbose`: `get_as_int("verbose", 7)` returns
7 and `error()` is false. -/
theorem C15_bare_flag_gives_default_silently_witness :
    find (parse (new false false) ["tool".toList, "-verbose".toList]
      ArgumentFormat.PARAM_SWITCH).1._argument "verbose".toList = some [] ∧
    ((get_as_int (parse (new false false) ["tool".toList, "-verbose".toList]
      ArgumentFormat.PARAM_SWITCH).1 0 "verbose".toList 7 10).2 = Result.returned 7 ∧
    error (get_as_int (parse (new false false) ["tool".toList, "-verbose".toList]
      ArgumentFormat.PARAM_SWITCH).1 0 "verbose".toList 7 10).1.1 = false) :=
  ⟨by decide,
    (C15_bare_flag_gives_default_silently
      (parse (new false false) ["tool".toList, "-verbose".toList]
        ArgumentFormat.PARAM_SWITCH).1 0 "verbose".toList 7 10 (by decide)).2.2.1
      ⟨by decide, by decide⟩⟩

/-- Counterexample to C15 as stated: after parsing `tool -verbose` the key `verbose`
holds the empty value, and `get_as_long("verbose", 7)` returns 7 with `error()`
false: no error is signalled. -/
theorem C15_counterexample_no_error_for_bare_flag :
    find (parse (new false false) ["tool".toList, "-verbose".toList]
      ArgumentFormat.PARAM_SWITCH).1._argument "verbose".toList = some [] ∧
    (get_as_long (parse (new false false) ["tool".toList, "-verbose".toList]
      ArgumentFormat.PARAM_SWITCH).1 0 "verbose".toList 7 10).2 = Result.returned 7 ∧
    error (get_as_long (parse (new false false) ["tool".toList, "-verbose".toList]
      ArgumentFormat.PARAM_SWITCH).1 0 "verbose".toList 7 10).1.1 = false ∧
    error (get_as_unsigned_long (parse (new false false) ["tool".toList, "-verbose".toList]
      ArgumentFormat.PARAM_SWITCH).1 0 "verbose".toList 7 10).1.1 = false ∧
    error (get_as_int (parse (new false false) ["tool".toList, "-verbose".toList]
      ArgumentFormat.PARAM_SWITCH).1 0 "verbose".toList 7 10).1.1 = false ∧
    error (get_as_unsigned_int (parse (new false false) ["tool".toList, "-verbose".toList]
      ArgumentFormat.PARAM_SWITCH).1 0 "verbose".toList 7 10).1.1 = false := by
  decide

/-- C16 (amended). Whenever `get_as_long` returns `n` with `error()` false:
`get_as_int` returns `n` with `error()` false when `INT_MIN <= n <= INT_MAX`, and
for `n` outside that range it leaves `error()` true with the out-of-range message
and returns `d`, or throws on an instance that throws on conversion errors.
Likewise, whenever `get_as_unsigned_long` returns `m` with `error()` false:
`get_as_unsigned_int` returns exactly `m` with `error()` false for every
`0 <= m <= UINT_MAX`, also above `INT_MAX`, and for `m > UINT_MAX` it leaves
`error()` true and returns `d`, or throws on a throwing instance. -/
theorem C16_narrow_accessors_check_range (s : ArgumentParser) (errno : Nat) (name : Str)
    (d base : Int) :
    (∀ n, (get_as_long s errno name d base).2 = Result.returned n →
      error (get_as_long s errno name d base).1.1 = false →
      (INT_MIN ≤ n ∧ n ≤ INT_MAX →
        (get_as_int s errno name d base).2 = Result.returned n ∧
        error (get_as_int s errno name d base).1.1 = false) ∧
      (n < INT_MIN ∨ INT_MAX < n →
        error (get_as_int s errno name d base).1.1 = true ∧
        get_error_message (get_as_int s errno name d base).1.1 = msg_out_of_range name n ∧
        (get_as_int s errno name d base).2 =
          (if s._throw_on_conversion_error = true then Result.threw (msg_out_of_range name n)
           else Result.returned d))) ∧
    (∀ m, (get_as_unsigned_long s errno name d base).2 = Result.returned m →
      error (get_as_unsigned_long s errno name d base).1.1 = false →
      (0 ≤ m ∧ m ≤ UINT_MAX →
        (get_as_unsigned_int s errno name d base).2 = Result.returned m ∧
        error (get_as_unsigned_int s errno name d base).1.1 = false) ∧
      (UINT_MAX < m →
        error (get_as_unsigned_int s errno name d base).1.1 = true ∧
        get_error_message (get_as_unsigned_int s errno name d base).1.1 =
          msg_too_out_of_range name m ∧
        (get_as_unsigned_int s errno name d base).2 =
          (if s._throw_on_conversion_error = true
           then Result.threw (msg_too_out_of_range name m) else Result.returned d))) := by
  have htl := (get_as_long_core s errno name d base).2.2.2
  have htu := (get_as_unsigned_long_core s errno name d base).2.2.2
  constructor
  · intro n hlong herr
    have hl : get_as_long s errno name d base =
        (((get_as_long s errno name d base).1.1, (get_as_long s errno name d base).1.2),
          Result.returned n) := by rw [← hlong]
    constructor
    · rintro ⟨h1, h2⟩
      have hr : ¬ (n > INT_MAX ∨ n < INT_MIN) := by omega
      rw [get_as_int_of_wide s errno name d base n _ _ hl, if_neg hr,
        static_cast_int_of_range n h1 h2]
      exact ⟨rfl, herr⟩
    · intro h
      have hr : n > INT_MAX ∨ n < INT_MIN := by omega
      rw [get_as_int_of_wide s errno name d base n _ _ hl, if_pos hr, htl]
      refine ⟨rfl, rfl, ?_⟩
      by_cases ht : s._throw_on_conversion_error = true <;> simp [ht]
  · intro m hulong huerr
    have hu : get_as_unsigned_long s errno name d base =
        (((get_as_unsigned_long s errno name d base).1.1,
          (get_as_unsigned_long s errno name d base).1.2), Result.returned m) := by
      rw [← hulong]
    constructor
    · rintro ⟨h1, h2⟩
      have hr : ¬ (m > UINT_MAX ∨ m < 0) := by omega
      rw [get_as_unsigned_int_of_wide s errno name d base m _ _ hu, if_neg hr,
        to_unsigned_int_static_cast m h1 h2]
      exact ⟨rfl, huerr⟩
    · intro h
      have hr : m > UINT_MAX ∨ m < 0 := Or.inl h
      rw [get_as_unsigned_int_of_wide s errno name d base m _ _ hu, if_pos hr, htu]
      refine ⟨rfl, rfl, ?_⟩
      by_cases ht : s._throw_on_conversion_error = true <;> simp [ht]

/-- Witness for C16 after parsing `tool -n 2147483647` (the value `INT_MAX`):
`get_as_long` returns it without error, and `get_as_int("n", 5)` returns it with
`error()` false. After parsing `tool -n 4294967295` (the value `UINT_MAX`),
`get_as_unsigned_int("n", 5)` returns it with `error()` false. -/
theorem C16_narrow_accessors_check_range_witness :
    ((get_as_long (parse (new false false) ["tool".toList, "-n".toList, "2147483647".toList]
        ArgumentFormat.PARAM_SWITCH).1 0 "n".toList 5 10).2 = Result.returned 2147483647 ∧
      error (get_as_long
        (parse (new false false) ["tool".toList, "-n".toList, "2147483647".toList]
        ArgumentFormat.PARAM_SWITCH).1 0 "n".toList 5 10).1.1 = false) ∧
    ((get_as_int (parse (new false false) ["tool".toList, "-n".toList, "2147483647".toList]
        ArgumentFormat.PARAM_SWITCH).1 0 "n".toList 5 10).2 = Result.returned 2147483647 ∧
      error (get_as_int
        (parse (new false false) ["tool".toList, "-n".toList, "2147483647".toList]
        ArgumentFormat.PARAM_SWITCH).1 0 "n".toList 5 10).1.1 = false) ∧
    ((get_as_unsigned_int
        (parse (new false false) ["tool".toList, "-n".toList, "4294967295".toList]
        ArgumentFormat.PARAM_SWITCH).1 0 "n".toList 5 10).2 = Result.returned 4294967295 ∧
      error (get_as_unsigned_int
        (parse (new false false) ["tool".toList, "-n".toList, "4294967295".toList]
        ArgumentFormat.PARAM_SWITCH).1 0 "n".toList 5 10).1.1 = false) :=
  ⟨by decide,
    ((C16_narrow_accessors_check_range
      (parse (new false false) ["tool".toList, "-n".toList, "2147483647".toList]
        ArgumentFormat.PARAM_SWITCH).1 0 "n".toList 5 10).1 2147483647
      (by decide) (by decide)).1 ⟨by decide, by decide⟩,
    ((C16_narrow_accessors_check_range
      (parse (new false false) ["tool".toList, "-n".toList, "4294967295".toList]
        ArgumentFormat.PARAM_SWITCH).1 0 "n".toList 5 10).2 4294967295
      (by decide) (by decide)).1 ⟨by decide, by decide⟩⟩

/-- Counterexample to C16 as stated: after parsing `tool -n 2147483648` (one past
`INT_MAX`) on an instance that throws on conversion errors, `get_as_long` returns
2147483648 without error, and `get_as_int("n", 5)` throws the out-of-range message
instead of returning 5. -/
theorem C16_counterexample_out_of_range_throws :
    (get_as_long (parse (new false true) ["tool".toList, "-n".toList, "2147483648".toList]
      ArgumentFormat.PARAM_SWITCH).1 0 "n".toList 5 10).2 = Result.returned 2147483648 ∧
    error (get_as_long
      (parse (new false true) ["tool".toList, "-n".toList, "2147483648".toList]
      ArgumentFormat.PARAM_SWITCH).1 0 "n".toList 5 10).1.1 = false ∧
    (get_as_int (parse (new false true) ["tool".toList, "-n".toList, "2147483648".toList]
      ArgumentFormat.PARAM_SWITCH).1 0 "n".toList 5 10).2 =
        Result.threw (msg_out_of_range "n".toList 2147483648) ∧
    (get_as_int (parse (new false true) ["tool".toList, "-n".toList, "2147483648".toList]
      ArgumentFormat.PARAM_SWITCH).1 0 "n".toList 5 10).2 ≠ Result.returned 5 := by
  decide

/-! ## Sequences of accessor calls -/

theorem run_core (w : ArgumentParser × Nat) (c : Call) : SameCore (run w c).1.1 w.1 := by
  cases c with
  | is_present name => exact same_core_refl _
  | get_verb d => exact get_verb_core _ _
  | get_as_string name => exact get_as_string_core _ _
  | get_as_string_default name d => exact get_as_string_default_core _ _ _
  | get_as_bool name => exact get_as_bool_core _ _
  | get_as_bool_default name d => exact get_as_bool_default_core _ _ _
  | get_as_long name d base => exact get_as_long_core _ _ _ _ _
  | get_as_unsigned_long name d base => exact get_as_unsigned_long_core _ _ _ _ _
  | get_as_int name d base => exact get_as_int_core _ _ _ _ _
  | get_as_unsigned_int name d base => exact get_as_unsigned_int_core _ _ _ _ _

theorem run_all_core (calls : List Call) (w : ArgumentParser × Nat) :
    SameCore (run_all w calls).1 w.1 := by
  induction calls generalizing w with
  | nil => exact same_core_refl _
  | cons c cs ih => exact same_core_trans _ _ _ (ih (run w c).1) (run_core w c)

theorem is_present_congr (a b : ArgumentParser) (h : SameCore a b) (name : Str) :
    (is_present a name).2 = (is_present b name).2 := by
  simp [is_present, h.1, h.2.1]

theorem get_as_string_congr (a b : ArgumentParser) (h : SameCore a b) (name : Str) :
    (get_as_string a name).2 = (get_as_string b name).2 := by
  cases hf : find b._argument name with
  | none =>
    have hfa : find a._argument name = none := by rw [h.2.1]; exact hf
    rw [get_as_string_missing a name hfa, get_as_string_missing b name hf, h.2.2.2]
  | some v =>
    have hfa : find a._argument name = some v := by rw [h.2.1]; exact hf
    rw [get_as_string_of_find a name v hfa, get_as_string_of_find b name v hf]

/-- C20. After any sequence of accessor calls (`is_present`, `get_verb`,
`get_as_string`, `get_as_bool`, the integer accessors, with or without default;
each call may succeed, record an error or throw), the instance holds the same verb,
the same map and the same policy flags as before; so for every name `is_present`
and the outcome of `get_as_string` are what they were before the calls. -/
theorem C20_accessors_leave_verb_and_map (w : ArgumentParser × Nat) (calls : List Call) :
    (run_all w calls).1._verb = w.1._verb ∧
    (run_all w calls).1._argument = w.1._argument ∧
    (run_all w calls).1._throw_on_parse_error = w.1._throw_on_parse_error ∧
    (run_all w calls).1._throw_on_conversion_error = w.1._throw_on_conversion_error ∧
    (∀ name, (is_present (run_all w calls).1 name).2 = (is_present w.1 name).2) ∧
    (∀ name, (get_as_string (run_all w calls).1 name).2 = (get_as_string w.1 name).2) := by
  have h := run_all_core calls w
  exact ⟨h.1, h.2.1, h.2.2.1, h.2.2.2, fun name => is_present_congr _ _ h name,
    fun name => get_as_string_congr _ _ h name⟩

/-- C18 (the code at the failing input). After parsing
`tool -a 99999999999999999999 -b 5`, with `errno` zero: as the first accessor call
`get_as_long("b", 7)` returns 5 with `error()` false. After `get_as_long("a", 7)`,
which fails with a range error and leaves `errno` at `ERANGE`, the same call
`get_as_long("b", 7)` returns the default 7 with `error()` true: `errno` is tested
but never cleared. -/
theorem C18_range_error_breaks_later_conversions :
    (run ((parse (new false false)
        ["tool".toList, "-a".toList, "99999999999999999999".toList, "-b".toList, "5".toList]
        ArgumentFormat.PARAM_SWITCH).1, 0)
      (Call.get_as_long "b".toList 7 10)).2 = Result.returned (Value.int 5) ∧
    error (run ((parse (new false false)
        ["tool".toList, "-a".toList, "99999999999999999999".toList, "-b".toList, "5".toList]
        ArgumentFormat.PARAM_SWITCH).1, 0)
      (Call.get_as_long "b".toList 7 10)).1.1 = false ∧
    (run_all ((parse (new false false)
        ["tool".toList, "-a".toList, "99999999999999999999".toList, "-b".toList, "5".toList]
        ArgumentFormat.PARAM_SWITCH).1, 0)
      [Call.get_as_long "a".toList 7 10]).2 = ERANGE ∧
    (run (run_all ((parse (new false false)
        ["tool".toList, "-a".toList, "99999999999999999999".toList, "-b".toList, "5".toList]
        ArgumentFormat.PARAM_SWITCH).1, 0)
      [Call.get_as_long "a".toList 7 10])
      (Call.get_as_long "b".toList 7 10)).2 = Result.returned (Value.int 7) ∧
    error (run (run_all ((parse (new false false)
        ["tool".toList, "-a".toList, "99999999999999999999".toList, "-b".toList, "5".toList]
        ArgumentFormat.PARAM_SWITCH).1, 0)
      [Call.get_as_long "a".toList 7 10])
      (Call.get_as_long "b".toList 7 10)).1.1 = true := by
  decide

/-! ## The order of the switch groups -/

theorem switch_group_cases (g : List Str) (h : SwitchGroup g) :
    is_switch (group_switch g) = true ∧
    ((g = [group_switch g] ∧ group_value g = []) ∨
      (g = [group_switch g, group_value g] ∧ is_switch (group_value g) = false)) := by
  obtain ⟨sw, hsw, rfl | ⟨v, hv, rfl⟩⟩ := h
  · exact ⟨hsw, Or.inl ⟨rfl, rfl⟩⟩
  · exact ⟨hsw, Or.inr ⟨rfl, hv⟩⟩

theorem flatten_groups_next (gs : List (List Str)) (h : ∀ g ∈ gs, SwitchGroup g) :
    next_rest gs.flatten = gs.flatten ∧ next_value gs.flatten = [] := by
  cases gs with
  | nil => exact ⟨rfl, rfl⟩
  | cons g gs1 =>
    obtain ⟨hsw, hshape⟩ := switch_group_cases g (h g (List.mem_cons_self _ _))
    rcases hshape with ⟨hg, _⟩ | ⟨hg, _⟩
    · rw [List.flatten_cons, hg]
      simp [next_rest, next_value, hsw]
    · rw [List.flatten_cons, hg]
      simp [next_rest, next_value, hsw]

theorem flatten_group_cons (g : List Str) (gs : List (List Str))
    (h : ∀ x ∈ g :: gs, SwitchGroup x) :
    ∃ rest, (g :: gs).flatten = group_switch g :: rest ∧
      next_rest rest = gs.flatten ∧ next_value rest = group_value g := by
  obtain ⟨hsw, hshape⟩ := switch_group_cases g (h g (List.mem_cons_self _ _))
  have hgs : ∀ x ∈ gs, SwitchGroup x := fun x hx => h x (List.mem_cons_of_mem _ hx)
  obtain ⟨hn1, hn2⟩ := flatten_groups_next gs hgs
  rcases hshape with ⟨hg, hv⟩ | ⟨hg, hv⟩
  · refine ⟨gs.flatten, ?_, hn1, ?_⟩
    · conv_lhs => rw [List.flatten_cons, hg]
      rfl
    · rw [hn2, hv]
  · refine ⟨group_value g :: gs.flatten, ?_, ?_, ?_⟩
    · conv_lhs => rw [List.flatten_cons, hg]
      rfl
    · simp [next_rest, hv]
    · simp [next_value, hv]

theorem grouped_flatten_iff (gs : List (List Str)) (h : ∀ g ∈ gs, SwitchGroup g) :
    Grouped gs.flatten ↔ dashdash ∉ gs.map group_switch := by
  induction gs with
  | nil => simp [grouped_nil]
  | cons g gs1 ih =>
    have hgs : ∀ x ∈ gs1, SwitchGroup x := fun x hx => h x (List.mem_cons_of_mem _ hx)
    obtain ⟨rest, hflat, hnext, _⟩ := flatten_group_cons g gs1 h
    have hsw := (switch_group_cases g (h g (List.mem_cons_self _ _))).1
    rw [hflat, grouped_cons, hnext, ih hgs]
    simp only [List.map_cons, List.mem_cons, not_or, hsw, true_and]
    constructor
    · rintro ⟨h1, h2⟩
      exact ⟨fun e => h1 e.symm, h2⟩
    · rintro ⟨h1, h2⟩
      exact ⟨fun e => h1 e.symm, h2⟩

theorem switch_names_flatten (gs : List (List Str)) (h : ∀ g ∈ gs, SwitchGroup g) :
    switch_names gs.flatten = gs.map (fun g => get_stripped_switch_name (group_switch g)) := by
  induction gs with
  | nil => simp [switch_names]
  | cons g gs1 ih =>
    have hgs : ∀ x ∈ gs1, SwitchGroup x := fun x hx => h x (List.mem_cons_of_mem _ hx)
    obtain ⟨rest, hflat, hnext, _⟩ := flatten_group_cons g gs1 h
    have hsw := (switch_group_cases g (h g (List.mem_cons_self _ _))).1
    rw [hflat, switch_names_cons _ _ hsw, hnext, ih hgs]
    rfl

theorem group_in_flatten (gs : List (List Str)) (h : ∀ g ∈ gs, SwitchGroup g)
    (g : List Str) (hg : g ∈ gs) :
    ∃ pre post, gs.flatten = pre ++ group_switch g :: post ∧
      next_value post = group_value g := by
  induction gs with
  | nil => simp at hg
  | cons g0 gs1 ih =>
    have hgs : ∀ x ∈ gs1, SwitchGroup x := fun x hx => h x (List.mem_cons_of_mem _ hx)
    rcases List.mem_cons.1 hg with rfl | hmem
    · obtain ⟨rest, hflat, _, hval⟩ := flatten_group_cons g gs1 h
      exact ⟨[], rest, by rw [hflat]; rfl, hval⟩
    · obtain ⟨pre, post, hflat, hval⟩ := ih hgs hmem
      exact ⟨g0 ++ pre, post, by rw [List.flatten_cons, hflat, List.append_assoc], hval⟩

/-- The loop started with an empty map, on the same switch groups in two orders:
it accepts in the same cases and then leaves the same value under every key. -/
theorem parse_loop_perm (s t : ArgumentParser) (hs : s._argument = []) (ht : t._argument = [])
    (gs1 gs2 : List (List Str)) (hperm : gs1.Perm gs2) (h : ∀ g ∈ gs1, SwitchGroup g) :
    ((parse_loop s gs1.flatten).2 = Result.returned true ↔
      (parse_loop t gs2.flatten).2 = Result.returned true) ∧
    ((parse_loop s gs1.flatten).2 = Result.returned true →
      ∀ k, find (parse_loop s gs1.flatten).1._argument k =
        find (parse_loop t gs2.flatten).1._argument k) := by
  have h2 : ∀ g ∈ gs2, SwitchGroup g := fun g hg => h g (hperm.mem_iff.2 hg)
  have hiff : (parse_loop s gs1.flatten).2 = Result.returned true ↔
      (parse_loop t gs2.flatten).2 = Result.returned true := by
    rw [parse_loop_true_iff, parse_loop_true_iff, grouped_flatten_iff gs1 h,
      grouped_flatten_iff gs2 h2, switch_names_flatten gs1 h, switch_names_flatten gs2 h2,
      hs, ht]
    have hp1 : (gs1.map group_switch).Perm (gs2.map group_switch) := hperm.map _
    have hp2 : (gs1.map (fun g => get_stripped_switch_name (group_switch g))).Perm
        (gs2.map (fun g => get_stripped_switch_name (group_switch g))) := hperm.map _
    rw [hp1.mem_iff, hp2.nodup_iff]
    simp [find]
  refine ⟨hiff, ?_⟩
  intro hok1
  have hok2 := hiff.1 hok1
  obtain ⟨hk1, hv1⟩ := parse_loop_from_empty gs1.flatten s hs hok1
  obtain ⟨hk2, hv2⟩ := parse_loop_from_empty gs2.flatten t ht hok2
  intro k
  by_cases hmem : k ∈ switch_names gs1.flatten
  · rw [switch_names_flatten gs1 h, List.mem_map] at hmem
    obtain ⟨g, hg, rfl⟩ := hmem
    have hsw := (switch_group_cases g (h g hg)).1
    obtain ⟨pre1, post1, hf1, hval1⟩ := group_in_flatten gs1 h g hg
    obtain ⟨pre2, post2, hf2, hval2⟩ := group_in_flatten gs2 h2 g (hperm.mem_iff.1 hg)
    rw [hv1 pre1 _ post1 hf1 hsw, hv2 pre2 _ post2 hf2 hsw, hval1, hval2]
  · have hmem2 : k ∉ switch_names gs2.flatten := by
      rw [switch_names_flatten gs2 h2]
      rw [switch_names_flatten gs1 h] at hmem
      intro hx
      exact hmem ((hperm.map _).mem_iff.2 hx)
    have e1 : find (parse_loop s gs1.flatten).1._argument k = none := by
      cases hf : find (parse_loop s gs1.flatten).1._argument k with
      | none => rfl
      | some v => exact absurd ((hk1 k).1 (by rw [hf]; rfl)) hmem
    have e2 : find (parse_loop t gs2.flatten).1._argument k = none := by
      cases hf : find (parse_loop t gs2.flatten).1._argument k with
      | none => rfl
      | some v => exact absurd ((hk2 k).1 (by rw [hf]; rfl)) hmem2
    rw [e1, e2]

/-- C19. Take two token lists made of the same switch groups (a switch-shaped token
alone or followed by one token that is not switch-shaped) in two orders, behind the
same verb token if there is one, and parse them under the same format: the one
parse succeeds exactly when the other does, and on success the two maps hold the
same keys with the same value under each key. -/
theorem C19_group_order_does_not_matter (s t : ArgumentParser) (prog : Str)
    (verb : Option Str) (format : ArgumentFormat) (gs1 gs2 : List (List Str))
    (hperm : gs1.Perm gs2) (hg : ∀ g ∈ gs1, SwitchGroup g)
    (hverb : format = ArgumentFormat.PARAM_SWITCH → verb = none) :
    ((parse s (prog :: (verb.toList ++ gs1.flatten)) format).2 = Result.returned true ↔
      (parse t (prog :: (verb.toList ++ gs2.flatten)) format).2 = Result.returned true) ∧
    ((parse s (prog :: (verb.toList ++ gs1.flatten)) format).2 = Result.returned true →
      ∀ k, find (parse s (prog :: (verb.toList ++ gs1.flatten)) format).1._argument k =
        find (parse t (prog :: (verb.toList ++ gs2.flatten)) format).1._argument k) := by
  have hg2 : ∀ g ∈ gs2, SwitchGroup g := fun g h => hg g (hperm.mem_iff.2 h)
  cases format with
  | PARAM_SWITCH =>
    rw [hverb rfl]
    simp only [Option.toList, List.nil_append, parse_param_switch, List.drop_one,
      List.tail_cons]
    exact parse_loop_perm _ _ rfl rfl gs1 gs2 hperm hg
  | VERB_PARAM_SWITCH =>
    cases verb with
    | none =>
      simp only [Option.toList, List.nil_append]
      cases gs1 with
      | nil =>
        have : gs2 = [] := hperm.nil_eq.symm
        subst this
        simp only [List.flatten_nil]
        rw [parse_verb_short s [prog] rfl, parse_verb_short t [prog] rfl]
        exact ⟨Iff.rfl, fun _ _ => rfl⟩
      | cons g gs1a =>
        cases gs2 with
        | nil => exact absurd hperm.symm.nil_eq (List.cons_ne_nil _ _).symm
        | cons g2 gs2a =>
          obtain ⟨rest1, hf1, _, _⟩ := flatten_group_cons g gs1a hg
          obtain ⟨rest2, hf2, _, _⟩ := flatten_group_cons g2 gs2a hg2
          have hsw1 := (switch_group_cases g (hg g (List.mem_cons_self _ _))).1
          have hsw2 := (switch_group_cases g2 (hg2 g2 (List.mem_cons_self _ _))).1
          rw [hf1, hf2, parse_verb_refused s prog _ rest1 hsw1,
            parse_verb_refused t prog _ rest2 hsw2]
          have n1 : ¬ (if s._throw_on_parse_error = true
              then Result.threw (msg_not_a_verb (group_switch g))
              else Result.returned false) = Result.returned true := by
            by_cases h : s._throw_on_parse_error = true <;> simp [h]
          have n2 : ¬ (if t._throw_on_parse_error = true
              then Result.threw (msg_not_a_verb (group_switch g2))
              else Result.returned false) = Result.returned true := by
            by_cases h : t._throw_on_parse_error = true <;> simp [h]
          exact ⟨⟨fun h => absurd h n1, fun h => absurd h n2⟩, fun h => absurd h n1⟩
    | some v =>
      simp only [Option.toList, List.singleton_append]
      by_cases hv : is_switch v = true
      · rw [parse_verb_refused s prog v _ hv, parse_verb_refused t prog v _ hv]
        have n1 : ¬ (if s._throw_on_parse_error = true
            then Result.threw (msg_not_a_verb v)
            else Result.returned false) = Result.returned true := by
          by_cases h : s._throw_on_parse_error = true <;> simp [h]
        have n2 : ¬ (if t._throw_on_parse_error = true
            then Result.threw (msg_not_a_verb v)
            else Result.returned false) = Result.returned true := by
          by_cases h : t._throw_on_parse_error = true <;> simp [h]
        exact ⟨⟨fun h => absurd h n1, fun h => absurd h n2⟩, fun h => absurd h n1⟩
      · rw [Bool.not_eq_true] at hv
        rw [parse_verb_taken s prog v _ hv, parse_verb_taken t prog v _ hv]
        exact parse_loop_perm _ _ rfl rfl gs1 gs2 hperm hg

/-- Witness for C19 on `tool verb -switch --option value` and
`tool verb --option value -switch` under VERB_PARAM_SWITCH: both parses succeed. -/
theorem C19_group_order_does_not_matter_witness :
    ([["-switch".toList], ["--option".toList, "value".toList]].Perm
        [["--option".toList, "value".toList], ["-switch".toList]] ∧
      (∀ g ∈ [["-switch".toList], ["--option".toList, "value".toList]], SwitchGroup g)) ∧
    (parse (new false false)
      ["tool".toList, "verb".toList, "-switch".toList, "--option".toList, "value".toList]
      ArgumentFormat.VERB_PARAM_SWITCH).2 = Result.returned true ∧
    (parse (new false false)
      ["tool".toList, "verb".toList, "--option".toList, "value".toList, "-switch".toList]
      ArgumentFormat.VERB_PARAM_SWITCH).2 = Result.returned true :=
  have hperm : [["-switch".toList], ["--option".toList, "value".toList]].Perm
      [["--option".toList, "value".toList], ["-switch".toList]] := List.Perm.swap _ _ _
  have hg : ∀ g ∈ [["-switch".toList], ["--option".toList, "value".toList]],
      SwitchGroup g := by
    intro g hmem
    rcases List.mem_cons.1 hmem with rfl | hmem
    · exact ⟨"-switch".toList, by decide, Or.inl rfl⟩
    · rcases List.mem_cons.1 hmem with rfl | hmem
      · exact ⟨"--option".toList, by decide, Or.inr ⟨"value".toList, by decide, rfl⟩⟩
      · simp at hmem
  ⟨⟨hperm, hg⟩, by decide,
    (C19_group_order_does_not_matter (new false false) (new false false) "tool".toList
      (some "verb".toList) ArgumentFormat.VERB_PARAM_SWITCH _ _ hperm hg
      (fun h => ArgumentFormat.noConfusion h)).1.1 (by decide)⟩

/-! ## The conversion policy -/

theorem get_as_long_outcome (s : ArgumentParser) (errno : Nat) (name : Str) (d base : Int) :
    ∃ e1 fail v, (fail ≠ none → v = d) ∧
      ∀ t, get_as_long (with_policy s t) errno name d base =
        outcome (with_policy s t) e1 fail v := by
  cases h : find s._argument name with
  | none =>
    exact ⟨errno, some (msg_required_not_present name), d, fun _ => rfl,
      fun t => get_as_long_missing (with_policy s t) errno name d base h⟩
  | some v =>
    by_cases hv : v = []
    · subst hv
      exact ⟨errno, none, d, fun h => absurd rfl h,
        fun t => get_as_long_empty (with_policy s t) errno name d base h⟩
    · by_cases hc : (strtol v base errno).errno = 0 ∧ (strtol v base errno).end_offset ≠ 0 ∧
          (strtol v base errno).end_offset = v.length
      · refine ⟨(strtol v base errno).errno, none, (strtol v base errno).value,
          fun h => absurd rfl h, fun t => ?_⟩
        rw [get_as_long_value (with_policy s t) errno name v d base h hv, if_pos hc]
        rfl
      · refine ⟨(strtol v base errno).errno, some (msg_value_not_valid name v), d,
          fun _ => rfl, fun t => ?_⟩
        rw [get_as_long_value (with_policy s t) errno name v d base h hv, if_neg hc]
        rfl

theorem get_as_unsigned_long_outcome (s : ArgumentParser) (errno : Nat) (name : Str)
    (d base : Int) :
    ∃ e1 fail v, (fail ≠ none → v = d) ∧
      ∀ t, get_as_unsigned_long (with_policy s t) errno name d base =
        outcome (with_policy s t) e1 fail v := by
  cases h : find s._argument name with
  | none =>
    exact ⟨errno, some (msg_required_not_present name), d, fun _ => rfl,
      fun t => get_as_unsigned_long_missing (with_policy s t) errno name d base h⟩
  | some v =>
    by_cases hv : v = []
    · subst hv
      exact ⟨errno, none, d, fun h => absurd rfl h,
        fun t => get_as_unsigned_long_empty (with_policy s t) errno name d base h⟩
    · by_cases hc : (strtoul v base errno).errno = 0 ∧
          (strtoul v base errno).end_offset ≠ 0 ∧
          (strtoul v base errno).end_offset = v.length
      · refine ⟨(strtoul v base errno).errno, none, (strtoul v base errno).value,
          fun h => absurd rfl h, fun t => ?_⟩
        rw [get_as_unsigned_long_value (with_policy s t) errno name v d base h hv, if_pos hc]
        rfl
      · refine ⟨(strtoul v base errno).errno, some (msg_value_not_valid name v), d,
          fun _ => rfl, fun t => ?_⟩
        rw [get_as_unsigned_long_value (with_policy s t) errno name v d base h hv, if_neg hc]
        rfl

theorem get_as_int_outcome (s : ArgumentParser) (errno : Nat) (name : Str) (d base : Int)
    (hd : INT_MIN ≤ d ∧ d ≤ INT_MAX) :
    ∃ e1 fail v, ∀ t, get_as_int (with_policy s t) errno name d base =
      outcome (with_policy s t) e1 fail v := by
  obtain ⟨e1, fail, v, hv, hw⟩ := get_as_long_outcome s errno name d base
  cases fail with
  | none =>
    by_cases hr : v > INT_MAX ∨ v < INT_MIN
    · refine ⟨e1, some (msg_out_of_range name v), d, fun t => ?_⟩
      rw [get_as_int_of_wide (with_policy s t) errno name d base v _ e1 (hw t), if_pos hr]
      rfl
    · refine ⟨e1, none, static_cast_int v, fun t => ?_⟩
      rw [get_as_int_of_wide (with_policy s t) errno name d base v _ e1 (hw t), if_neg hr]
      rfl
  | some m =>
    have hvd : v = d := hv (fun h => Option.noConfusion h)
    subst hvd
    have hr : ¬ (v > INT_MAX ∨ v < INT_MIN) := by omega
    refine ⟨e1, some m, v, fun t => ?_⟩
    cases t with
    | true =>
      exact get_as_int_of_wide_threw (with_policy s true) errno name v base _ m (hw true)
    | false =>
      rw [get_as_int_of_wide (with_policy s false) errno name v base v _ e1 (hw false),
        if_neg hr, static_cast_int_of_range v hd.1 hd.2]
      rfl

theorem get_as_unsigned_int_outcome (s : ArgumentParser) (errno : Nat) (name : Str)
    (d base : Int) (hd : 0 ≤ d ∧ d ≤ UINT_MAX) :
    ∃ e1 fail v, ∀ t, get_as_unsigned_int (with_policy s t) errno name d base =
      outcome (with_policy s t) e1 fail v := by
  obtain ⟨e1, fail, v, hv, hw⟩ := get_as_unsigned_long_outcome s errno name d base
  cases fail with
  | none =>
    by_cases hr : v > UINT_MAX ∨ v < 0
    · refine ⟨e1, some (msg_too_out_of_range name v), d, fun t => ?_⟩
      rw [get_as_unsigned_int_of_wide (with_policy s t) errno name d base v _ e1 (hw t),
        if_pos hr]
      rfl
    · refine ⟨e1, none, to_unsigned_int (static_cast_int v), fun t => ?_⟩
      rw [get_as_unsigned_int_of_wide (with_policy s t) errno name d base v _ e1 (hw t),
        if_neg hr]
      rfl
  | some m =>
    have hvd : v = d := hv (fun h => Option.noConfusion h)
    subst hvd
    have hr : ¬ (v > UINT_MAX ∨ v < 0) := by omega
    refine ⟨e1, some m, v, fun t => ?_⟩
    cases t with
    | true =>
      exact get_as_unsigned_int_of_wide_threw (with_policy s true) errno name v base _ m
        (hw true)
    | false =>
      rw [get_as_unsigned_int_of_wide (with_policy s false) errno name v base v _ e1
        (hw false), if_neg hr, to_unsigned_int_static_cast v hd.1 hd.2]
      rfl

theorem outcome_map {α β : Type} (f : α → β) (s : ArgumentParser) (errno : Nat)
    (fail : Option Str) (v : α) :
    ((outcome s errno fail v).1, (outcome s errno fail v).2.map f) =
      outcome s errno fail (f v) := by
  cases fail with
  | none => rfl
  | some m =>
    by_cases h : s._throw_on_conversion_error = true <;> simp [outcome, h, Result.map]

theorem get_verb_outcome (s : ArgumentParser) (errno : Nat) (d : Str) :
    ∃ fail v, ∀ t, (((get_verb (with_policy s t) d).1, errno), (get_verb (with_policy s t) d).2) =
      outcome (with_policy s t) errno fail v := by
  by_cases h : s._verb = []
  · by_cases hd : d = []
    · subst hd
      refine ⟨some msg_verb_missing, [], fun t => ?_⟩
      rw [get_verb_missing (with_policy s t) h]
      rfl
    · refine ⟨none, d, fun t => ?_⟩
      rw [get_verb_of_default (with_policy s t) d h hd]
      rfl
  · refine ⟨none, s._verb, fun t => ?_⟩
    rw [get_verb_of_verb (with_policy s t) d h]
    rfl

theorem get_as_string_outcome (s : ArgumentParser) (errno : Nat) (name : Str) :
    ∃ fail v, ∀ t, (((get_as_string (with_policy s t) name).1, errno),
        (get_as_string (with_policy s t) name).2) =
      outcome (with_policy s t) errno fail v := by
  cases h : find s._argument name with
  | none =>
    refine ⟨some (msg_required_not_present name), [], fun t => ?_⟩
    rw [get_as_string_missing (with_policy s t) name h]
    rfl
  | some v =>
    refine ⟨none, v, fun t => ?_⟩
    rw [get_as_string_of_find (with_policy s t) name v h]
    rfl

theorem parse_bool_value_outcome (s : ArgumentParser) (errno : Nat) (name v : Str) :
    ∃ fail b, ∀ t,
      (((parse_bool_value
          { with_policy s t with _error_message := [], _conversion_error := false } name v).1,
        errno),
        (parse_bool_value
          { with_policy s t with _error_message := [], _conversion_error := false } name v).2) =
      outcome (with_policy s t) errno fail b := by
  cases h1 : bool_is_true v with
  | true =>
    refine ⟨none, true, fun t => ?_⟩
    rw [parse_bool_value_true _ _ _ h1]
    rfl
  | false =>
    cases h2 : bool_is_false v with
    | true =>
      refine ⟨none, false, fun t => ?_⟩
      rw [parse_bool_value_false _ _ _ h1 h2]
      rfl
    | false =>
      refine ⟨some (msg_not_a_boolean name v), false, fun t => ?_⟩
      rw [parse_bool_value_bad _ _ _ h1 h2]
      rfl

theorem get_as_bool_outcome (s : ArgumentParser) (errno : Nat) (name v : Str)
    (h : find s._argument name = some v) (hv : v ≠ []) :
    ∃ fail b, ∀ t, (((get_as_bool (with_policy s t) name).1, errno),
        (get_as_bool (with_policy s t) name).2) =
      outcome (with_policy s t) errno fail b := by
  obtain ⟨fail, b, hb⟩ := parse_bool_value_outcome s errno name v
  refine ⟨fail, b, fun t => ?_⟩
  rw [get_as_bool_value (with_policy s t) name v h hv]
  exact hb t

theorem get_as_bool_default_outcome (s : ArgumentParser) (errno : Nat) (name : Str)
    (d : Bool) :
    ∃ fail b, ∀ t, (((get_as_bool_default (with_policy s t) name d).1, errno),
        (get_as_bool_default (with_policy s t) name d).2) =
      outcome (with_policy s t) errno fail b := by
  cases h : find s._argument name with
  | none =>
    refine ⟨none, d, fun t => ?_⟩
    rw [get_as_bool_default_eq]
    have h2 : find (with_policy s t)._argument name = none := h
    rw [h2]
    rfl
  | some v =>
    by_cases hv : v = []
    · refine ⟨none, d, fun t => ?_⟩
      rw [get_as_bool_default_eq]
      have h2 : find (with_policy s t)._argument name = some v := h
      rw [h2]
      simp only [hv, if_true]
      rfl
    · obtain ⟨fail, b, hb⟩ := parse_bool_value_outcome s errno name v
      refine ⟨fail, b, fun t => ?_⟩
      rw [get_as_bool_default_eq]
      have h2 : find (with_policy s t)._argument name = some v := h
      rw [h2]
      simp only [hv, if_false]
      exact hb t

/-- Every accessor call but `is_present`, and but `get_as_bool(name)` on a missing or
empty value, ends in the common shape, with the same failure (or none) and the same
value whatever the conversion policy. -/
theorem run_outcome (s : ArgumentParser) (errno : Nat) (c : Call) (hc : c.well_typed)
    (hp : ∀ name, c ≠ Call.is_present name)
    (hb : ∀ name, c = Call.get_as_bool name → ∃ v, find s._argument name = some v ∧ v ≠ []) :
    ∃ e1 fail v, ∀ t, run (with_policy s t, errno) c = outcome (with_policy s t) e1 fail v := by
  cases c with
  | is_present name => exact absurd rfl (hp name)
  | get_verb d =>
    obtain ⟨fail, v, h⟩ := get_verb_outcome s errno d
    refine ⟨errno, fail, Value.str v, fun t => ?_⟩
    rw [← outcome_map, ← h t]
    rfl
  | get_as_string name =>
    obtain ⟨fail, v, h⟩ := get_as_string_outcome s errno name
    refine ⟨errno, fail, Value.str v, fun t => ?_⟩
    rw [← outcome_map, ← h t]
    rfl
  | get_as_string_default name d =>
    refine ⟨errno, none, Value.str ((find s._argument name).getD d), fun t => ?_⟩
    simp only [run]
    rw [get_as_string_default_eq]
    rfl
  | get_as_bool name =>
    obtain ⟨v, hf, hv⟩ := hb name rfl
    obtain ⟨fail, b, h⟩ := get_as_bool_outcome s errno name v hf hv
    refine ⟨errno, fail, Value.bool b, fun t => ?_⟩
    rw [← outcome_map, ← h t]
    rfl
  | get_as_bool_default name d =>
    obtain ⟨fail, b, h⟩ := get_as_bool_default_outcome s errno name d
    refine ⟨errno, fail, Value.bool b, fun t => ?_⟩
    rw [← outcome_map, ← h t]
    rfl
  | get_as_long name d base =>
    obtain ⟨e1, fail, v, _, h⟩ := get_as_long_outcome s errno name d base
    refine ⟨e1, fail, Value.int v, fun t => ?_⟩
    rw [← outcome_map, ← h t]
    rfl
  | get_as_unsigned_long name d base =>
    obtain ⟨e1, fail, v, _, h⟩ := get_as_unsigned_long_outcome s errno name d base
    refine ⟨e1, fail, Value.int v, fun t => ?_⟩
    rw [← outcome_map, ← h t]
    rfl
  | get_as_int name d base =>
    obtain ⟨e1, fail, v, h⟩ := get_as_int_outcome s errno name d base hc
    refine ⟨e1, fail, Value.int v, fun t => ?_⟩
    rw [← outcome_map, ← h t]
    rfl
  | get_as_unsigned_int name d base =>
    obtain ⟨e1, fail, v, h⟩ := get_as_unsigned_int_outcome s errno name d base hc
    refine ⟨e1, fail, Value.int v, fun t => ?_⟩
    rw [← outcome_map, ← h t]
    rfl

/-- Apart from `is_present` (which leaves the error fields alone) and from
`get_as_bool(name)` on a missing or empty value, an accessor call leaves the same
error flag and the same message under both conversion policies, the non-throwing
instance never throws, and the throwing one throws exactly when the other ends the
call with `error()` true. -/
theorem policy_decides_throwing_only (s : ArgumentParser) (errno : Nat) (c : Call)
    (hc : c.well_typed) (hp : ∀ name, c ≠ Call.is_present name)
    (hb : ∀ name, c = Call.get_as_bool name → ∃ v, find s._argument name = some v ∧ v ≠ []) :
    error (run (with_policy s true, errno) c).1.1 =
      error (run (with_policy s false, errno) c).1.1 ∧
    get_error_message (run (with_policy s true, errno) c).1.1 =
      get_error_message (run (with_policy s false, errno) c).1.1 ∧
    (∀ m, (run (with_policy s false, errno) c).2 ≠ Result.threw m) ∧
    ((∃ m, (run (with_policy s true, errno) c).2 = Result.threw m) ↔
      error (run (with_policy s false, errno) c).1.1 = true) := by
  obtain ⟨e1, fail, v, h⟩ := run_outcome s errno c hc hp hb
  rw [h true, h false]
  cases fail with
  | none =>
    refine ⟨rfl, rfl, fun m hm => Result.noConfusion hm, ?_⟩
    constructor
    · rintro ⟨m, hm⟩
      exact Result.noConfusion hm
    · intro he
      exact Bool.noConfusion he
  | some msg =>
    refine ⟨rfl, rfl, fun m hm => ?_, ?_⟩
    · simp [outcome, with_policy] at hm
    · constructor
      · intro _
        rfl
      · intro _
        exact ⟨msg, by simp [outcome, with_policy]⟩

set_option maxRecDepth 8000 in
/-- C17 (the code at the failing input). After parsing
`tool -b1 10 -b2 maybe -b3 x -b4`, `bx` is not a key. `get_as_bool("bx")` leaves
`error()` true under both conversion policies and the throwing instance throws, but
the messages differ: the throwing instance holds the required-but-not-present
message, the other one ends with the not-a-boolean message for the empty value,
written over the first by the calls that follow. -/
theorem C17_get_as_bool_message_depends_on_policy :
    find (parse (new true false)
      ["tool".toList, "-b1".toList, "10".toList, "-b2".toList, "maybe".toList,
        "-b3".toList, "x".toList, "-b4".toList]
      ArgumentFormat.PARAM_SWITCH).1._argument "bx".toList = none ∧
    error (get_as_bool (with_policy (parse (new true false)
      ["tool".toList, "-b1".toList, "10".toList, "-b2".toList, "maybe".toList,
        "-b3".toList, "x".toList, "-b4".toList]
      ArgumentFormat.PARAM_SWITCH).1 true) "bx".toList).1 = true ∧
    error (get_as_bool (with_policy (parse (new true false)
      ["tool".toList, "-b1".toList, "10".toList, "-b2".toList, "maybe".toList,
        "-b3".toList, "x".toList, "-b4".toList]
      ArgumentFormat.PARAM_SWITCH).1 false) "bx".toList).1 = true ∧
    (get_as_bool (with_policy (parse (new true false)
      ["tool".toList, "-b1".toList, "10".toList, "-b2".toList, "maybe".toList,
        "-b3".toList, "x".toList, "-b4".toList]
      ArgumentFormat.PARAM_SWITCH).1 true) "bx".toList).2 =
        Result.threw (msg_required_not_present "bx".toList) ∧
    get_error_message (get_as_bool (with_policy (parse (new true false)
      ["tool".toList, "-b1".toList, "10".toList, "-b2".toList, "maybe".toList,
        "-b3".toList, "x".toList, "-b4".toList]
      ArgumentFormat.PARAM_SWITCH).1 true) "bx".toList).1 =
        msg_required_not_present "bx".toList ∧
    get_error_message (get_as_bool (with_policy (parse (new true false)
      ["tool".toList, "-b1".toList, "10".toList, "-b2".toList, "maybe".toList,
        "-b3".toList, "x".toList, "-b4".toList]
      ArgumentFormat.PARAM_SWITCH).1 false) "bx".toList).1 =
        msg_not_a_boolean "bx".toList [] ∧
    msg_required_not_present "bx".toList ≠ msg_not_a_boolean "bx".toList [] := by
  decide

/-! ## What a parse can leave in the map -/

theorem next_value_not_switch (rest : List Str) : is_switch (next_value rest) = false := by
  cases rest with
  | nil => rfl
  | cons v r =>
    by_cases hv : is_switch v = true
    · simp only [next_value, hv, if_true]
      rfl
    · rw [Bool.not_eq_true] at hv
      simp only [next_value, hv, Bool.false_eq_true, if_false]

/-- An entry found after the loop, started with an empty map: the loop accepted, the
key is the stripped name of a switch token and is not empty, and the value is what
follows that token. -/
theorem parse_loop_entries (toks : List Str) (s : ArgumentParser) (hs : s._argument = [])
    (n x : Str) (h : find (parse_loop s toks).1._argument n = some x) :
    (parse_loop s toks).2 = Result.returned true ∧ n ≠ [] ∧
    ∃ pre sw post, toks = pre ++ sw :: post ∧ is_switch sw = true ∧
      get_stripped_switch_name sw = n ∧ x = next_value post := by
  have hok : (parse_loop s toks).2 = Result.returned true := by
    rcases (parse_loop_frame toks s).2.2.2.2 with h1 | ⟨_, hm, _⟩
    · exact h1.1
    · rw [hm] at h
      simp [find] at h
  obtain ⟨hk, hv⟩ := parse_loop_from_empty toks s hs hok
  have hmem : n ∈ switch_names toks := (hk n).1 (by rw [h]; rfl)
  obtain ⟨pre, sw, post, hsplit, hsw, hname⟩ := (mem_switch_names toks n).1 hmem
  have hval := hv pre sw post hsplit hsw
  rw [hname, h] at hval
  refine ⟨hok, ?_, pre, sw, post, hsplit, hsw, hname, Option.some.inj hval⟩
  intro hn
  have hdd : sw = dashdash := by
    apply (stripped_isEmpty_iff sw hsw).1
    rw [hname, hn]
    rfl
  have hg := ((parse_loop_true_iff toks s).1 hok).1
  rw [grouped_iff_not_malformed] at hg
  apply hg
  refine Or.inr (Or.inr ?_)
  rw [hsplit, ← hdd]
  simp

/-- The same for `parse`, in terms of the tokens after the program name. -/
theorem parse_entries (s : ArgumentParser) (argv : List Str) (format : ArgumentFormat)
    (n x : Str) (h : find (parse s argv format).1._argument n = some x) :
    (parse s argv format).2 = Result.returned true ∧ n ≠ [] ∧
    ∃ pre sw post, argv.drop 1 = pre ++ sw :: post ∧ is_switch sw = true ∧
      get_stripped_switch_name sw = n ∧ x = next_value post := by
  cases format with
  | PARAM_SWITCH =>
    rw [parse_param_switch] at h ⊢
    exact parse_loop_entries _ _ rfl n x h
  | VERB_PARAM_SWITCH =>
    match argv, h with
    | [], h =>
      rw [parse_verb_short s [] rfl] at h
      simp [find] at h
    | [p], h =>
      rw [parse_verb_short s [p] rfl] at h
      simp [find] at h
    | prog :: first :: rest, h =>
      by_cases hf : is_switch first = true
      · rw [parse_verb_refused s prog first rest hf] at h
        simp [find] at h
      · rw [Bool.not_eq_true] at hf
        rw [parse_verb_taken s prog first rest hf] at h ⊢
        obtain ⟨hok, hn, pre, sw, post, hsplit, hsw, hname, hx⟩ :=
          parse_loop_entries _ _ rfl n x h
        exact ⟨hok, hn, first :: pre, sw, post, by simp [hsplit], hsw, hname, hx⟩

theorem parse_map_well_formed (s : ArgumentParser) (argv : List Str)
    (format : ArgumentFormat) : MapWellFormed (parse s argv format).1._argument := by
  intro n x h
  obtain ⟨_, hn, pre, sw, post, _, _, _, hx⟩ := parse_entries s argv format n x h
  exact ⟨hn, by rw [hx]; exact next_value_not_switch post⟩

/-! ## Sequences of parse and accessor calls -/

theorem exec_append_one (ops : List Op) (w : ArgumentParser × Nat) (op : Op) :
    exec w (ops ++ [op]) = step (exec w ops) op := by
  induction ops generalizing w with
  | nil => rfl
  | cons o os ih => exact ih (step w o)

/-- An invariant that the fresh instance has, that every parse establishes and that
every accessor call keeps, holds after any sequence of calls. -/
theorem exec_invariant (P : ArgumentParser → Prop)
    (hparse : ∀ s argv format, P (parse s argv format).1)
    (hrun : ∀ w c, P w.1 → P (run w c).1.1)
    (hfloat : ∀ s errno name r, P s → P (get_as_floating s errno name r).1.1)
    (ops : List Op) (w : ArgumentParser × Nat) (hw : P w.1) : P (exec w ops).1 := by
  induction ops generalizing w with
  | nil => exact hw
  | cons op ops ih =>
    apply ih
    cases op with
    | parse argv format => exact hparse w.1 argv format
    | access c => exact hrun w c hw
    | access_floating name r => exact hfloat w.1 w.2 name r hw

/-- The state `get_as_float` / `get_as_double` leave: the one `get_as_string(name)`
leaves, or that one with the is-invalid message recorded. -/
theorem get_as_floating_state (s : ArgumentParser) (errno : Nat) (name : Str) (r : Bool) :
    (get_as_floating s errno name r).1.1 = (get_as_string s name).1 ∨
    ∃ v, (get_as_floating s errno name r).1.1 =
      { (get_as_string s name).1 with
        _error_message := msg_value_invalid name v, _conversion_error := true } := by
  unfold get_as_floating
  cases h : find s._argument name with
  | none =>
    rw [get_as_string_missing s name h]
    by_cases ht : s._throw_on_conversion_error = true <;> simp [ht]
  | some v =>
    rw [get_as_string_of_find s name v h]
    by_cases hv : v = []
    · simp [hv]
    · by_cases he : (if r = true then ERANGE else errno) = ERANGE
      · right
        refine ⟨v, ?_⟩
        by_cases ht : s._throw_on_conversion_error = true <;>
          simp [hv, he, handle_conversion_error, ht]
      · left
        simp [hv, he]

theorem get_as_floating_core (s : ArgumentParser) (errno : Nat) (name : Str) (r : Bool) :
    SameCore (get_as_floating s errno name r).1.1 s := by
  rcases get_as_floating_state s errno name r with h | ⟨v, h⟩
  · rw [h]
    exact get_as_string_core s name
  · rw [h]
    exact same_core_trans _ _ _ ⟨rfl, rfl, rfl, rfl⟩ (get_as_string_core s name)

theorem exec_map_well_formed (ops : List Op) (pe ce : Bool) (errno : Nat) :
    MapWellFormed (exec (new pe ce, errno) ops).1._argument := by
  apply exec_invariant (fun s => MapWellFormed s._argument)
  · exact parse_map_well_formed
  · intro w c hw
    rw [(run_core w c).2.1]
    exact hw
  · intro s e name r hs
    rw [(get_as_floating_core s e name r).2.1]
    exact hs
  · intro n x h
    simp [new, find] at h

/-- After an accepting parse, the value stored for a switch token of the input is
what follows the token. -/
theorem parse_switch_value (s : ArgumentParser) (argv : List Str) (format : ArgumentFormat)
    (hok : (parse s argv format).2 = Result.returned true)
    (pre post : List Str) (sw : Str) (hsplit : argv.drop 1 = pre ++ sw :: post)
    (hsw : is_switch sw = true) :
    find (parse s argv format).1._argument (get_stripped_switch_name sw) =
      some (next_value post) := by
  cases format with
  | PARAM_SWITCH =>
    rw [parse_param_switch] at hok ⊢
    exact (parse_loop_from_empty _ _ rfl hok).2 pre sw post hsplit hsw
  | VERB_PARAM_SWITCH =>
    match argv, hok, hsplit with
    | [], _, hsplit => simp at hsplit
    | [p], _, hsplit => simp at hsplit
    | prog :: first :: rest, hok, hsplit =>
      by_cases hf : is_switch first = true
      · rw [parse_verb_refused s prog first rest hf] at hok
        by_cases ht : s._throw_on_parse_error = true <;> simp [ht] at hok
      · rw [Bool.not_eq_true] at hf
        rw [parse_verb_taken s prog first rest hf] at hok ⊢
        cases pre with
        | nil =>
          simp at hsplit
          rw [hsplit.1, hsw] at hf
          exact Bool.noConfusion hf
        | cons q pre1 =>
          simp at hsplit
          exact (parse_loop_from_empty _ _ rfl hok).2 pre1 sw post hsplit.2 hsw

theorem not_switch_iff (x : Str) :
    is_switch x = false ↔ (x = [] ∨ x.length = 1 ∨ x.head? ≠ some '-') := by
  match x with
  | [] => simp [is_switch]
  | [c] => simp [is_switch]
  | a :: c :: r => simp [is_switch]

theorem stripped_head_dash_iff (sw : Str) (h : is_switch sw = true) :
    (get_stripped_switch_name sw).head? = some '-' ↔ sw.take 3 = ['-', '-', '-'] := by
  obtain ⟨c, r, rfl⟩ := (is_switch_iff sw).1 h
  by_cases hc : c = '-'
  · subst hc
    have h0 : compare ['-', '-'] ['-', '-'] = 0 := compare_self _
    cases r with
    | nil => simp [get_stripped_switch_name, h0]
    | cons d r1 => simp [get_stripped_switch_name, h0]
  · have h0 : ¬ compare ['-', c] ['-', '-'] = 0 := by
      rw [compare_eq_zero_iff]
      simp [hc]
    simp [get_stripped_switch_name, h0, hc]

/-- C21. For every instance state, name and default `d`: when no value, or only the
empty value, is stored for the name (the switch is absent, or present as a bare
flag), `get_as_bool(name, d)` returns `d` and leaves `error()` false, under either
conversion policy. -/
theorem C21_get_as_bool_default_without_value (s : ArgumentParser) (name : Str) (d : Bool)
    (h : ∀ v, find s._argument name = some v → v = []) :
    (get_as_bool_default s name d).2 = Result.returned d ∧
    error (get_as_bool_default s name d).1 = false := by
  rw [get_as_bool_default_eq]
  cases hf : find s._argument name with
  | none => exact ⟨rfl, rfl⟩
  | some v =>
    have hv : v = [] := h v hf
    simp only []
    rw [if_pos hv]
    exact ⟨rfl, rfl⟩

/-- Witness for C21 after parsing `tool -verbose`: the key `verbose` holds the empty
value, and `get_as_bool("verbose", false)` returns false with `error()` false. -/
theorem C21_get_as_bool_default_without_value_witness :
    (∀ v, find (parse (new false true) ["tool".toList, "-verbose".toList]
      ArgumentFormat.PARAM_SWITCH).1._argument "verbose".toList = some v → v = []) ∧
    (get_as_bool_default (parse (new false true) ["tool".toList, "-verbose".toList]
      ArgumentFormat.PARAM_SWITCH).1 "verbose".toList false).2 = Result.returned false ∧
    error (get_as_bool_default (parse (new false true) ["tool".toList, "-verbose".toList]
      ArgumentFormat.PARAM_SWITCH).1 "verbose".toList false).1 = false :=
  have hfind : find (parse (new false true) ["tool".toList, "-verbose".toList]
      ArgumentFormat.PARAM_SWITCH).1._argument "verbose".toList = some [] := by decide
  have hv : ∀ v, find (parse (new false true) ["tool".toList, "-verbose".toList]
      ArgumentFormat.PARAM_SWITCH).1._argument "verbose".toList = some v → v = [] := by
    intro v h
    rw [hfind] at h
    exact (Option.some.inj h).symm
  ⟨hv, C21_get_as_bool_default_without_value _ _ false hv⟩

/-- C22 (amended). After every parse, each key of the map is not empty and is the
stripped name of a switch-shaped token of the input: the token without its leading
`--` when it starts with `--`, and without its leading `-` otherwise. At most two
dashes are stripped: the key begins with `-` exactly when that token was written with
three or more leading dashes. -/
theorem C22_keys_are_stripped_of_two_dashes_at_most (s : ArgumentParser) (argv : List Str)
    (format : ArgumentFormat) (k : Str)
    (hk : k ∈ keys (parse s argv format).1._argument) :
    k ≠ [] ∧
    ∃ sw ∈ argv.drop 1, is_switch sw = true ∧ k = get_stripped_switch_name sw ∧
      (get_stripped_switch_name sw =
        if sw.take 2 = dashdash then sw.drop 2 else sw.drop 1) ∧
      (k.head? = some '-' ↔ sw.take 3 = ['-', '-', '-']) := by
  rw [← find_isSome_iff_mem_keys] at hk
  obtain ⟨x, hx⟩ := Option.isSome_iff_exists.1 hk
  obtain ⟨_, hn, pre, sw, post, hsplit, hsw, hname, _⟩ := parse_entries s argv format k x hx
  refine ⟨hn, sw, by rw [hsplit]; simp, hsw, hname.symm, ?_, ?_⟩
  · obtain ⟨c, r, rfl⟩ := (is_switch_iff sw).1 hsw
    simp [get_stripped_switch_name, compare_eq_zero_iff, dashdash]
  · rw [← hname]
    exact stripped_head_dash_iff sw hsw

/-- Witness for C22 after parsing `tool --option value`: `option` is a key, and it
does not begin with a dash. -/
theorem C22_keys_are_stripped_of_two_dashes_at_most_witness :
    "option".toList ∈ keys (parse (new false false)
      ["tool".toList, "--option".toList, "value".toList]
      ArgumentFormat.PARAM_SWITCH).1._argument ∧
    "option".toList ≠ [] :=
  ⟨by decide,
    (C22_keys_are_stripped_of_two_dashes_at_most (new false false)
      ["tool".toList, "--option".toList, "value".toList]
      ArgumentFormat.PARAM_SWITCH "option".toList (by decide)).1⟩

/-- Counterexample to C22 as stated: the parse of `tool ---x` under PARAM_SWITCH
succeeds and stores the key `-x`, which begins with a dash. -/
theorem C22_counterexample_three_dashes :
    (parse (new false false) ["tool".toList, "---x".toList]
      ArgumentFormat.PARAM_SWITCH).2 = Result.returned true ∧
    "-x".toList ∈ keys (parse (new false false) ["tool".toList, "---x".toList]
      ArgumentFormat.PARAM_SWITCH).1._argument ∧
    "-x".toList.head? = some '-' := by
  decide

/-- C23. In every state reached from a fresh instance by any sequence of parse calls
(accepted or failed, with accessor calls in between or not), the empty string is not
a key of the map, and every stored value is not switch-shaped: it is empty, or one
character long, or does not begin with `-`. So in an accepted input a switch-shaped
token such as `-5` that follows a switch is not its value: the switch before it gets
the empty value and the token is a switch of its own. -/
theorem C23_no_empty_key_and_no_switch_shaped_value (pe ce : Bool) (errno : Nat)
    (ops : List Op) :
    [] ∉ keys (exec (new pe ce, errno) ops).1._argument ∧
    (∀ n x, find (exec (new pe ce, errno) ops).1._argument n = some x →
      is_switch x = false ∧ (x = [] ∨ x.length = 1 ∨ x.head? ≠ some '-')) ∧
    (∀ (argv : List Str) (format : ArgumentFormat) (pre post : List Str) (sw t : Str),
      (parse (exec (new pe ce, errno) ops).1 argv format).2 = Result.returned true →
      argv.drop 1 = pre ++ sw :: t :: post → is_switch sw = true → is_switch t = true →
      find (parse (exec (new pe ce, errno) ops).1 argv format).1._argument
          (get_stripped_switch_name sw) = some [] ∧
      (find (parse (exec (new pe ce, errno) ops).1 argv format).1._argument
          (get_stripped_switch_name t)).isSome = true) := by
  have hw := exec_map_well_formed ops pe ce errno
  refine ⟨?_, ?_, ?_⟩
  · rw [← find_isSome_iff_mem_keys]
    intro h
    obtain ⟨x, hx⟩ := Option.isSome_iff_exists.1 h
    exact (hw [] x hx).1 rfl
  · intro n x h
    have hx := (hw n x h).2
    exact ⟨hx, (not_switch_iff x).1 hx⟩
  · intro argv format pre post sw t hok hsplit hsw ht
    constructor
    · rw [parse_switch_value _ argv format hok pre (t :: post) sw hsplit hsw]
      simp [next_value, ht]
    · have hsplit2 : argv.drop 1 = (pre ++ [sw]) ++ t :: post := by
        rw [hsplit]
        simp
      rw [parse_switch_value _ argv format hok (pre ++ [sw]) post t hsplit2 ht]
      rfl

/-- The verb after a parse is empty exactly when the parse failed, or the format is
PARAM_SWITCH, or no token follows the program name, or the first one is empty. -/
theorem parse_verb_empty_iff (s : ArgumentParser) (argv : List Str)
    (format : ArgumentFormat) :
    (parse s argv format).1._verb = [] ↔
      (Failed (parse s argv format).2 ∨ format = ArgumentFormat.PARAM_SWITCH ∨
        argv.drop 1 = [] ∨ (argv.drop 1).head? = some []) := by
  have hloop : ∀ (v : Str) (toks : List Str),
      ((parse_loop
          { s with _verb := v, _argument := [], _error_message := [],
                   _conversion_error := false } toks).1._verb = [] ↔
        (Failed (parse_loop
          { s with _verb := v, _argument := [], _error_message := [],
                   _conversion_error := false } toks).2 ∨ v = [])) := by
    intro v toks
    rw [parse_loop_failed_iff]
    rcases (parse_loop_frame toks
      { s with _verb := v, _argument := [], _error_message := [],
               _conversion_error := false }).2.2.2.2 with h | ⟨h, _, h2⟩
    · rw [h.2]
      simp [h.1]
    · rw [h]
      simp only [true_iff]
      left
      rcases h2 with ⟨_, m, h3⟩ | ⟨_, h3⟩
      · rw [h3]
        exact fun e => Result.noConfusion e
      · rw [h3]
        simp
  cases format with
  | PARAM_SWITCH =>
    rw [parse_param_switch]
    have h := hloop [] (argv.drop 1)
    simp only [true_or, or_true, iff_true]
    exact h.2 (Or.inr rfl)
  | VERB_PARAM_SWITCH =>
    match argv with
    | [] =>
      rw [parse_verb_short s [] rfl]
      simp
    | [p] =>
      rw [parse_verb_short s [p] rfl]
      simp
    | prog :: first :: rest =>
      by_cases hf : is_switch first = true
      · have hfail : Failed (parse s (prog :: first :: rest)
            ArgumentFormat.VERB_PARAM_SWITCH).2 := by
          rw [parse_failed_iff, parse_verb_refused s prog first rest hf]
          by_cases ht : s._throw_on_parse_error = true <;> simp [ht]
        simp only [hfail, true_or, iff_true]
        rw [parse_verb_refused s prog first rest hf]
      · rw [Bool.not_eq_true] at hf
        rw [parse_verb_taken s prog first rest hf, hloop first rest]
        simp

/-- C24. In every state reached from a fresh instance by any sequence of parse and
accessor calls, `is_present("")` is true exactly when the stored verb is empty,
because the empty string is never a key. The verb is empty on a fresh instance; after
a parse it is empty exactly when the parse failed, or ran under PARAM_SWITCH, or ran
under VERB_PARAM_SWITCH with no token or an empty first token after the program
name; and no accessor call (`get_as_float` and `get_as_double` included) changes
it. -/
theorem C24_is_present_of_empty_name (pe ce : Bool) (errno : Nat) (ops : List Op) :
    ((is_present (exec (new pe ce, errno) ops).1 []).2 = true ↔
      (exec (new pe ce, errno) ops).1._verb = []) ∧
    [] ∉ keys (exec (new pe ce, errno) ops).1._argument ∧
    (new pe ce)._verb = [] ∧
    (∀ (s : ArgumentParser) (argv : List Str) (format : ArgumentFormat),
      (parse s argv format).1._verb = [] ↔
        (Failed (parse s argv format).2 ∨ format = ArgumentFormat.PARAM_SWITCH ∨
          argv.drop 1 = [] ∨ (argv.drop 1).head? = some [])) ∧
    (∀ (w : ArgumentParser × Nat) (c : Call), (run w c).1.1._verb = w.1._verb) ∧
    (∀ (s : ArgumentParser) (e : Nat) (name : Str) (r : Bool),
      (get_as_floating s e name r).1.1._verb = s._verb) := by
  have hw := exec_map_well_formed ops pe ce errno
  have hkey : [] ∉ keys (exec (new pe ce, errno) ops).1._argument := by
    rw [← find_isSome_iff_mem_keys]
    intro h
    obtain ⟨x, hx⟩ := Option.isSome_iff_exists.1 h
    exact (hw [] x hx).1 rfl
  refine ⟨?_, hkey, rfl, parse_verb_empty_iff, fun w c => (run_core w c).1,
    fun s e name r => (get_as_floating_core s e name r).1⟩
  rw [is_present_iff, find_isSome_iff_mem_keys]
  constructor
  · rintro (h | h)
    · exact absurd h hkey
    · exact h.symm
  · intro h
    exact Or.inr h.symm

/-! ## The error flag and the error message -/

theorem agree_clear (s : ArgumentParser) :
    ErrorFieldsAgree { s with _error_message := [], _conversion_error := false } := by
  simp [ErrorFieldsAgree, error, get_error_message]

theorem agree_set (s : ArgumentParser) (m : Str) (hm : m ≠ []) :
    ErrorFieldsAgree { s with _error_message := m, _conversion_error := true } := by
  simp [ErrorFieldsAgree, error, get_error_message, hm]

theorem msg_verb_missing_ne : msg_verb_missing ≠ [] := by decide

theorem msg_required_not_present_ne (name : Str) : msg_required_not_present name ≠ [] := by
  simp [msg_required_not_present]

theorem msg_required_not_given_ne (name : Str) : msg_required_not_given name ≠ [] := by
  simp [msg_required_not_given]

theorem msg_not_a_boolean_ne (name v : Str) : msg_not_a_boolean name v ≠ [] := by
  simp [msg_not_a_boolean]

theorem msg_value_not_valid_ne (name v : Str) : msg_value_not_valid name v ≠ [] := by
  simp [msg_value_not_valid]

theorem msg_out_of_range_ne (name : Str) (n : Int) : msg_out_of_range name n ≠ [] := by
  simp [msg_out_of_range]

theorem msg_too_out_of_range_ne (name : Str) (n : Int) : msg_too_out_of_range name n ≠ [] := by
  simp [msg_too_out_of_range]

theorem get_verb_agree (s : ArgumentParser) (d : Str) : ErrorFieldsAgree (get_verb s d).1 := by
  by_cases h : s._verb = []
  · by_cases hd : d = []
    · subst hd
      rw [get_verb_missing s h]
      exact agree_set s _ msg_verb_missing_ne
    · rw [get_verb_of_default s d h hd]
      exact agree_clear s
  · rw [get_verb_of_verb s d h]
    exact agree_clear s

theorem get_as_string_agree (s : ArgumentParser) (name : Str) :
    ErrorFieldsAgree (get_as_string s name).1 := by
  cases h : find s._argument name with
  | none =>
    rw [get_as_string_missing s name h]
    exact agree_set s _ (msg_required_not_present_ne name)
  | some v =>
    rw [get_as_string_of_find s name v h]
    exact agree_clear s

theorem get_as_string_default_agree (s : ArgumentParser) (name d : Str) :
    ErrorFieldsAgree (get_as_string_default s name d).1 := by
  rw [get_as_string_default_eq]
  exact agree_clear s

theorem parse_bool_value_agree (s : ArgumentParser) (name v : Str) (hs : ErrorFieldsAgree s) :
    ErrorFieldsAgree (parse_bool_value s name v).1 := by
  cases h1 : bool_is_true v with
  | true =>
    rw [parse_bool_value_true _ _ _ h1]
    exact hs
  | false =>
    cases h2 : bool_is_false v with
    | true =>
      rw [parse_bool_value_false _ _ _ h1 h2]
      exact hs
    | false =>
      rw [parse_bool_value_bad _ _ _ h1 h2]
      exact agree_set s _ (msg_not_a_boolean_ne name v)

theorem get_as_bool_agree (s : ArgumentParser) (name : Str) :
    ErrorFieldsAgree (get_as_bool s name).1 := by
  cases h : find s._argument name with
  | none =>
    rw [get_as_bool_missing s name h]
    by_cases ht : s._throw_on_conversion_error = true
    · simp only [ht, if_true]
      exact agree_set s _ (msg_required_not_present_ne name)
    · simp only [ht, Bool.false_eq_true, if_false]
      exact agree_set s _ (msg_not_a_boolean_ne name [])
  | some v =>
    by_cases hv : v = []
    · subst hv
      rw [get_as_bool_empty s name h]
      by_cases ht : s._throw_on_conversion_error = true
      · simp only [ht, if_true]
        exact agree_set s _ (msg_required_not_given_ne name)
      · simp only [ht, Bool.false_eq_true, if_false]
        exact agree_set s _ (msg_not_a_boolean_ne name [])
    · rw [get_as_bool_value s name v h hv]
      exact parse_bool_value_agree _ name v (agree_clear s)

theorem get_as_bool_default_agree (s : ArgumentParser) (name : Str) (d : Bool) :
    ErrorFieldsAgree (get_as_bool_default s name d).1 := by
  rw [get_as_bool_default_eq]
  cases h : find s._argument name with
  | none => exact agree_clear s
  | some v =>
    by_cases hv : v = []
    · simp only []
      rw [if_pos hv]
      exact agree_clear s
    · simp only []
      rw [if_neg hv]
      exact parse_bool_value_agree _ name v (agree_clear s)

theorem get_as_long_agree (s : ArgumentParser) (errno : Nat) (name : Str) (d base : Int) :
    ErrorFieldsAgree (get_as_long s errno name d base).1.1 := by
  cases h : find s._argument name with
  | none =>
    rw [get_as_long_missing s errno name d base h]
    exact agree_set s _ (msg_required_not_present_ne name)
  | some v =>
    by_cases hv : v = []
    · subst hv
      rw [get_as_long_empty s errno name d base h]
      exact agree_clear s
    · rw [get_as_long_value s errno name v d base h hv]
      split
      · exact agree_clear s
      · exact agree_set s _ (msg_value_not_valid_ne name v)

theorem get_as_unsigned_long_agree (s : ArgumentParser) (errno : Nat) (name : Str)
    (d base : Int) : ErrorFieldsAgree (get_as_unsigned_long s errno name d base).1.1 := by
  cases h : find s._argument name with
  | none =>
    rw [get_as_unsigned_long_missing s errno name d base h]
    exact agree_set s _ (msg_required_not_present_ne name)
  | some v =>
    by_cases hv : v = []
    · subst hv
      rw [get_as_unsigned_long_empty s errno name d base h]
      exact agree_clear s
    · rw [get_as_unsigned_long_value s errno name v d base h hv]
      split
      · exact agree_clear s
      · exact agree_set s _ (msg_value_not_valid_ne name v)

theorem get_as_int_agree (s : ArgumentParser) (errno : Nat) (name : Str) (d base : Int) :
    ErrorFieldsAgree (get_as_int s errno name d base).1.1 := by
  have hw := get_as_long_agree s errno name d base
  rcases result_cases (get_as_long s errno name d base).2 with ⟨n, hn⟩ | ⟨m, hm⟩
  · have h : get_as_long s errno name d base =
        (((get_as_long s errno name d base).1.1, (get_as_long s errno name d base).1.2),
          Result.returned n) := by rw [← hn]
    rw [get_as_int_of_wide s errno name d base n _ _ h]
    split
    · exact agree_set _ _ (msg_out_of_range_ne name n)
    · exact hw
  · have h : get_as_long s errno name d base =
        ((get_as_long s errno name d base).1, Result.threw m) := by rw [← hm]
    rw [get_as_int_of_wide_threw s errno name d base _ m h]
    exact hw

theorem get_as_unsigned_int_agree (s : ArgumentParser) (errno : Nat) (name : Str)
    (d base : Int) : ErrorFieldsAgree (get_as_unsigned_int s errno name d base).1.1 := by
  have hw := get_as_unsigned_long_agree s errno name d base
  rcases result_cases (get_as_unsigned_long s errno name d base).2 with ⟨n, hn⟩ | ⟨m, hm⟩
  · have h : get_as_unsigned_long s errno name d base =
        (((get_as_unsigned_long s errno name d base).1.1,
          (get_as_unsigned_long s errno name d base).1.2), Result.returned n) := by rw [← hn]
    rw [get_as_unsigned_int_of_wide s errno name d base n _ _ h]
    split
    · exact agree_set _ _ (msg_too_out_of_range_ne name n)
    · exact hw
  · have h : get_as_unsigned_long s errno name d base =
        ((get_as_unsigned_long s errno name d base).1, Result.threw m) := by rw [← hm]
    rw [get_as_unsigned_int_of_wide_threw s errno name d base _ m h]
    exact hw

theorem msg_value_invalid_ne (name v : Str) : msg_value_invalid name v ≠ [] := by
  simp [msg_value_invalid]

theorem get_as_floating_agree (s : ArgumentParser) (errno : Nat) (name : Str) (r : Bool) :
    ErrorFieldsAgree (get_as_floating s errno name r).1.1 := by
  rcases get_as_floating_state s errno name r with h | ⟨v, h⟩
  · rw [h]
    exact get_as_string_agree s name
  · rw [h]
    exact agree_set _ _ (msg_value_invalid_ne name v)

theorem run_agree (w : ArgumentParser × Nat) (c : Call) (hw : ErrorFieldsAgree w.1) :
    ErrorFieldsAgree (run w c).1.1 := by
  cases c with
  | is_present name => exact hw
  | get_verb d => exact get_verb_agree _ _
  | get_as_string name => exact get_as_string_agree _ _
  | get_as_string_default name d => exact get_as_string_default_agree _ _ _
  | get_as_bool name => exact get_as_bool_agree _ _
  | get_as_bool_default name d => exact get_as_bool_default_agree _ _ _
  | get_as_long name d base => exact get_as_long_agree _ _ _ _ _
  | get_as_unsigned_long name d base => exact get_as_unsigned_long_agree _ _ _ _ _
  | get_as_int name d base => exact get_as_int_agree _ _ _ _ _
  | get_as_unsigned_int name d base => exact get_as_unsigned_int_agree _ _ _ _ _

/-- C25. In every state reached from a fresh instance, built with either pair of
policies, by any sequence of parse and accessor calls (calls that throw included),
`error()` is true exactly when `get_error_message()` is not the empty string. -/
theorem C25_error_iff_message_not_empty (pe ce : Bool) (errno : Nat) (ops : List Op) :
    error (exec (new pe ce, errno) ops).1 = true ↔
      get_error_message (exec (new pe ce, errno) ops).1 ≠ [] := by
  apply exec_invariant ErrorFieldsAgree
  · intro s argv format
    obtain ⟨h1, h2, _⟩ := parse_frame s argv format
    simp [ErrorFieldsAgree, error, get_error_message, h1, h2]
  · exact run_agree
  · intro s e name r _
    exact get_as_floating_agree s e name r
  · simp [ErrorFieldsAgree, error, get_error_message, new]

end ArgParse
